import Mathlib

/-! The handlers of ai-bot.

A shallow embedding of the handlers of `pkg/telegram/handlers` (the default handler
`GenerateContent`, `RegenerateImage` and the setting handlers), of the image client of
`pkg/llm`, of the callback registration of `main.go` and of the parts of `pkg/domain` they
use.  Go strings are byte sequences, so a string is a list of byte values; every call to a
collaborator (repositories, providers, the bot API) is answered by an environment and
recorded in a trace of events.
-/

namespace AiBot

/-! ## Go strings -/

/-- A Go `string` (and a `[]byte`): a sequence of bytes, each element a value in `0..255`. -/
abbrev GoString := List Nat

/-- UTF-8 encoding of one code point, as the Go compiler encodes the runes of a string literal. -/
def utf8EncodeRune (c : Nat) : GoString :=
  if c < 0x80 then [c]
  else if c < 0x800 then [0xC0 + c / 64, 0x80 + c % 64]
  else if c < 0x10000 then [0xE0 + c / 4096, 0x80 + c / 64 % 64, 0x80 + c % 64]
  else [0xF0 + c / 262144, 0x80 + c / 4096 % 64, 0x80 + c / 64 % 64, 0x80 + c % 64]

/-- The bytes of a string literal of the source. -/
def utf8 (s : String) : GoString :=
  s.data.flatMap (fun c => utf8EncodeRune c.toNat)

/-- The slice expression `s[:n]`; `none` is the run-time panic for an index out of range. -/
def sliceTo (s : GoString) (n : Int) : Option GoString :=
  if 0 ≤ n ∧ n ≤ (s.length : Int) then some (s.take n.toNat) else none

/-- The slice expression `s[n:]`; `none` is the run-time panic for an index out of range. -/
def sliceFrom (s : GoString) (n : Int) : Option GoString :=
  if 0 ≤ n ∧ n ≤ (s.length : Int) then some (s.drop n.toNat) else none

/-! ## `unicode/utf8`, `strings`, `encoding/base64` and `strconv` -/

/-- The table `first` of `unicode/utf8` joined with `acceptRanges`: for a leading byte of a
multi-byte sequence, the length of the sequence and the range accepted for its second byte;
`none` for the entries `xx` (invalid leading bytes). ASCII bytes are handled before the lookup. -/
def first (c : Nat) : Option (Nat × Nat × Nat) :=
  if c < 0xC2 then none
  else if c < 0xE0 then some (2, 0x80, 0xBF)
  else if c = 0xE0 then some (3, 0xA0, 0xBF)
  else if c < 0xED then some (3, 0x80, 0xBF)
  else if c = 0xED then some (3, 0x80, 0x9F)
  else if c < 0xF0 then some (3, 0x80, 0xBF)
  else if c = 0xF0 then some (4, 0x90, 0xBF)
  else if c < 0xF4 then some (4, 0x80, 0xBF)
  else if c = 0xF4 then some (4, 0x80, 0x8F)
  else none

/-- The number of bytes one round of the loop of `utf8.RuneCountInString` advances by, at the
start of the non-empty rest `c :: cs` of the string: the width of a well-formed sequence, and `1`
for an ASCII byte and for anything short or invalid. -/
def runeSize (c : Nat) (cs : GoString) : Nat :=
  if c < 0x80 then 1
  else
    match first c with
    | none => 1
    | some (size, lo, hi) =>
      if 1 + cs.length < size then 1
      else if cs.getD 0 0 < lo ∨ hi < cs.getD 0 0 then 1
      else if size = 2 then 2
      else if cs.getD 1 0 < 0x80 ∨ 0xBF < cs.getD 1 0 then 1
      else if size = 3 then 3
      else if cs.getD 2 0 < 0x80 ∨ 0xBF < cs.getD 2 0 then 1
      else 4

/-- The loop of `utf8.RuneCountInString`: one rune is counted a round, and the index advances by
`runeSize`. The first argument bounds the number of rounds. -/
def runeCountLoop : Nat → GoString → Nat
  | 0, _ => 0
  | _, [] => 0
  | fuel + 1, c :: cs => 1 + runeCountLoop fuel ((c :: cs).drop (runeSize c cs))

/-- The function `utf8.RuneCountInString`. Every round consumes at least one byte, so the length
of the string bounds the number of rounds (`runeCountLoop_fuel`). -/
def RuneCountInString (s : GoString) : Nat :=
  runeCountLoop s.length s

/-- The function `strings.LastIndex`: the index of the last instance of `substr` in `s`, or `-1`
when there is none (the length of `s` for the empty `substr`). -/
def LastIndex (s substr : GoString) : Int :=
  match s with
  | [] => if substr.isPrefixOf [] then 0 else -1
  | c :: cs =>
    let r := LastIndex cs substr
    if r > -1 then r + 1 else if substr.isPrefixOf (c :: cs) then 0 else -1

/-- The function `strings.Contains`: `substr` occurs within `s`. -/
def Contains (s substr : GoString) : Bool :=
  s.tails.any (fun t => substr.isPrefixOf t)

/-- The alphabet of `base64.StdEncoding`. -/
def encodeStd : GoString :=
  utf8 "ABCDEFGHIJKLMNOPQRSTUVWXYZabcdefghijklmnopqrstuvwxyz0123456789+/"

/-- The function `base64.StdEncoding.EncodeToString`: three bytes become four characters, and a
last group of one or two bytes is padded with `=`. -/
def EncodeToString : List Nat → GoString
  | [] => []
  | [a] =>
    [encodeStd.getD (a / 4) 0, encodeStd.getD (a % 4 * 16) 0, 61, 61]
  | [a, b] =>
    [encodeStd.getD (a / 4) 0, encodeStd.getD (a % 4 * 16 + b / 16) 0,
      encodeStd.getD (b % 16 * 4) 0, 61]
  | a :: b :: c :: rest =>
    [encodeStd.getD (a / 4) 0, encodeStd.getD (a % 4 * 16 + b / 16) 0,
      encodeStd.getD (b % 16 * 4 + c / 64) 0, encodeStd.getD (c % 64) 0] ++ EncodeToString rest

/-- The function `strconv.Itoa` (and `strconv.FormatInt` in base 10). -/
def Itoa (n : Int) : GoString :=
  if n < 0 then 45 :: (Nat.toDigits 10 n.natAbs).map Char.toNat
  else (Nat.toDigits 10 n.toNat).map Char.toNat

/-- The function `strings.HasPrefix`. -/
def HasPrefix (s pre : GoString) : Bool :=
  pre.isPrefixOf s

/-- The function `strings.TrimPrefix`: `s` without the leading `pre`, or `s` itself when it
does not start with `pre`. -/
def TrimPrefix (s pre : GoString) : GoString :=
  if HasPrefix s pre then s.drop pre.length else s

/-- The function `strings.HasSuffix`. -/
def HasSuffix (s suf : GoString) : Bool :=
  suf.isSuffixOf s

/-- The largest `uint64`. -/
def maxUint64 : Nat := 18446744073709551615

/-- The loop of `strconv.ParseUint` in base 10 with bit size 64, from the value `n` on: a byte
that is not a digit is a syntax error, a value that leaves the `uint64` range a range error
(`none` for both). -/
def parseUintLoop : GoString → Nat → Option Nat
  | [], n => some n
  | c :: cs, n =>
    if 48 ≤ c ∧ c ≤ 57 then
      if n ≥ maxUint64 / 10 + 1 then none
      else if n * 10 + (c - 48) > maxUint64 then none
      else parseUintLoop cs (n * 10 + (c - 48))
    else none

/-- The function `strconv.ParseUint(s, 10, 64)`; `none` is a non-nil error. -/
def ParseUint (s : GoString) : Option Nat :=
  if s = [] then none else parseUintLoop s 0

/-- The function `strconv.ParseInt(s, 10, 64)`; `none` is a non-nil error: the empty string, a
syntax error of `ParseUint` on the text after the sign, or a value outside the `int64`
range. -/
def ParseInt (s : GoString) : Option Int :=
  match s with
  | [] => none
  | c :: cs =>
    match ParseUint (if c = 43 ∨ c = 45 then cs else c :: cs) with
    | none => none
    | some un =>
      if c ≠ 45 ∧ un ≥ 2 ^ 63 then none
      else if c = 45 ∧ un > 2 ^ 63 then none
      else some (if c = 45 then -(un : Int) else (un : Int))

/-- The helper `lo.CoalesceOrEmpty` at two strings: the first non-empty argument, else `""`. -/
def CoalesceOrEmpty (a b : GoString) : GoString :=
  if a ≠ [] then a else if b ≠ [] then b else []

/-- A Go `error`: its message, and whether `errors.Is(err, domain.ErrNotFound)` holds of it. -/
structure Error where
  msg : GoString
  notFound : Bool
  deriving DecidableEq, Repr

/-- The error `fmt.Errorf(prefix + "%w", err)`: the message is prefixed, the cause is kept. -/
def Error.wrap (pre : GoString) (err : Error) : Error :=
  { msg := pre ++ err.msg, notFound := err.notFound }

/-! ## `pkg/domain` -/

namespace domain

/-- The constant `DallE2Model`. -/
def DallE2Model : GoString := utf8 "dall-e-2"

/-- Modelled from the spec: the constant `Gpt4oMiniModel`, declared in a file of `pkg/domain`
that is not part of the sources; the spec gives the default text model as `"gpt-4o-mini"`. -/
def Gpt4oMiniModel : GoString := utf8 "gpt-4o-mini"

/-- Modelled from the spec: the constant `GenImageCallbackPrefix`, declared in a file of
`pkg/domain` that is not part of the sources; the spec gives the prefix as `"gen_image:"`. -/
def GenImageCallbackPrefix : GoString := utf8 "gen_image:"

/-- Modelled from the spec: the constant `SetTextModelCallbackPrefix`, declared in a file of
`pkg/domain` that is not part of the sources; the spec gives the prefix as
`"set_text_model:"`. -/
def SetTextModelCallbackPrefix : GoString := utf8 "set_text_model:"

/-- Modelled from the spec: the constant `SetImageModelCallbackPrefix`, declared in a file of
`pkg/domain` that is not part of the sources; the spec gives the prefix as
`"set_image_model:"`. -/
def SetImageModelCallbackPrefix : GoString := utf8 "set_image_model:"

/-- Modelled from the spec: the constant `SetTTLCallbackPrefix`, declared in a file of
`pkg/domain` that is not part of the sources; the spec gives the prefix as `"set_ttl:"`. -/
def SetTTLCallbackPrefix : GoString := utf8 "set_ttl:"

/-- Modelled from the spec: the constant `SetSystemPromptCallbackPrefix`, declared in a file of
`pkg/domain` that is not part of the sources; the spec gives the prefix as `"sys_prompt:"`. -/
def SetSystemPromptCallbackPrefix : GoString := utf8 "sys_prompt:"

/-- The constant `DallE3Model`. -/
def DallE3Model : GoString := utf8 "dall-e-3"

/-- The constant `DefaultTTL = 15 * time.Minute`, in nanoseconds. -/
def DefaultTTL : Int := 15 * (60 * 1000000000)

/-- The constant `MessageRoleUser`. -/
def MessageRoleUser : GoString := utf8 "user"

/-- The constant `ContentPartTypeText`. -/
def ContentPartTypeText : GoString := utf8 "text"

/-- The constant `ContentPartTypeImage`. -/
def ContentPartTypeImage : GoString := utf8 "image"

/-- The struct `ContentPart`; the field `Type` is named `PartType` here. -/
structure ContentPart where
  PartType : GoString
  Data : GoString
  deriving DecidableEq, Repr

/-- The struct `Message`. -/
structure Message where
  Role : GoString
  ContentParts : List ContentPart
  deriving DecidableEq, Repr

/-- The struct `Chat`. A `time.Duration` is an integer (nanoseconds) and so is a `time.Time`
(nanoseconds since the zero time); a nil slice of messages is the empty list. -/
structure Chat where
  ID : Int
  TopicID : Int
  TextModel : GoString
  ImageModel : GoString
  TTL : Int
  SystemPrompt : GoString
  Messages : List Message
  LastUpdate : Int
  deriving DecidableEq, Repr

/-- The constructor `NewChat`; the fields it leaves out have their zero values. -/
def NewChat (chatID : Int) (topicID : Int) : Chat :=
  { ID := chatID
    TopicID := topicID
    TextModel := Gpt4oMiniModel
    ImageModel := DallE2Model
    TTL := DefaultTTL
    SystemPrompt := []
    Messages := []
    LastUpdate := 0 }

/-- The struct `Prompt`. -/
structure Prompt where
  ID : Int
  Text : GoString
  ImageBytes : List Nat
  AudioBytes : List Nat
  deriving DecidableEq, Repr

end domain

/-! ## The bot API: `github.com/go-telegram/bot` and its `models` -/

namespace models

/-- The constant `ParseModeHTML`. -/
def ParseModeHTML : GoString := utf8 "HTML"

/-- The struct `PhotoSize`, with the field the handler reads. -/
structure PhotoSize where
  FileID : GoString
  deriving DecidableEq, Repr

/-- The struct `Voice`, with the field the handler reads. -/
structure Voice where
  FileID : GoString
  deriving DecidableEq, Repr

/-- The struct `Message` of an update, with the fields the handler reads (`Chat.ID` is
`ChatID`). -/
structure Message where
  ChatID : Int
  MessageThreadID : Int
  Text : GoString
  Caption : GoString
  Photo : List PhotoSize
  Voice : Option Voice
  deriving DecidableEq, Repr

/-- The struct `CallbackQuery`, with the fields the handlers read; `Message` is the pointer
`CallbackQuery.Message.Message`, which may be nil. -/
structure CallbackQuery where
  ID : GoString
  Data : GoString
  Message : Option Message
  deriving DecidableEq, Repr

/-- The struct `Update`: `Message` and `CallbackQuery` are pointers and may be nil. -/
structure Update where
  Message : Option Message
  CallbackQuery : Option CallbackQuery := none
  deriving DecidableEq, Repr

/-- The struct `InlineKeyboardButton`, with the fields the handlers set. -/
structure InlineKeyboardButton where
  Text : GoString
  CallbackData : GoString
  deriving DecidableEq, Repr

/-- The struct `InlineKeyboardMarkup`. -/
structure InlineKeyboardMarkup where
  InlineKeyboard : List (List InlineKeyboardButton)
  deriving DecidableEq, Repr

end models

/-- The struct `bot.SendMessageParams`, with the fields the handler sets; an unset `ParseMode`
is the empty string. -/
structure SendMessageParams where
  ChatID : Int
  MessageThreadID : Int
  Text : GoString
  ParseMode : GoString
  deriving DecidableEq, Repr

/-- The struct `bot.SendPhotoParams`, with the fields the handler sets. -/
structure SendPhotoParams where
  ChatID : Int
  MessageThreadID : Int
  Photo : List Nat
  ReplyMarkup : models.InlineKeyboardMarkup
  deriving DecidableEq, Repr

/-! ## Collaborators -/

/-- The outcome of `http.Get` as `getImageAsBytes` reads it: a transport error, or a response
with its status code and the outcome of `io.ReadAll` on its body. -/
inductive HTTPResult where
  | transportError (err : Error)
  | response (statusCode : Nat) (body : Except Error (List Nat))

/-- The answers of the collaborators of the handler within one turn. -/
structure Env where
  /-- The function `strings.ToLower`. -/
  ToLower : GoString → GoString
  /-- The function `render.ToHTML`. -/
  ToHTML : GoString → GoString
  /-- The method `aiService.GenerateImagePrompt`. -/
  GenerateImagePrompt : GoString → Except Error GoString
  /-- The method `promptSaver.Save`: an error, or the id the repository stores in `prompt.ID`. -/
  PromptSave : domain.Prompt → Except Error Int
  /-- The method `chatProvider.Get`: the `*domain.Chat` (nil is `none`) and the `error`. -/
  ChatGet : Int → Int → Option domain.Chat × Option Error
  /-- The method `chatProvider.Save`. -/
  ChatSave : domain.Chat → Option Error
  /-- The method `imageProvider.GenerateImage`. -/
  GenerateImage : GoString → GoString → Except Error (List Nat)
  /-- The method `aiService.CreateChatCompletion`: the `*domain.Message` and the `error`. -/
  CreateChatCompletion : domain.Chat → Option domain.Message × Option Error
  /-- The method `b.GetFile` followed by `b.FileDownloadLink`. -/
  GetFile : GoString → Except Error GoString
  /-- The function `url.Parse` followed by `String()`. -/
  ParseURL : GoString → Except Error GoString
  /-- The function `http.Get`. -/
  HTTPGet : GoString → HTTPResult
  /-- The closure `saveTempVoiceFile`, whose file-system calls are not followed here. -/
  saveTempVoiceFile : List Nat → Except Error GoString
  /-- The method `audioConverter.ConvertToMP3`. -/
  ConvertToMP3 : GoString → Except Error GoString
  /-- The function `os.Open`. -/
  Open : GoString → Option Error
  /-- The function `io.ReadAll` on an opened file. -/
  ReadAll : GoString → Except Error (List Nat)
  /-- The value of `time.Now()` at the expiry check. -/
  Now : Int
  /-- The error of the `b.SendMessage` that sends the chunk of round `k` of the chunking
  loop. -/
  SendChunk : Nat → Option Error
  /-- The method `chatProvider.DeleteMessages`. -/
  DeleteMessages : domain.Chat → Option Error
  /-- The method `promptProvider.GetByID`: the `*domain.Prompt` (nil is `none`) and the
  `error`. -/
  PromptGetByID : Int → Option domain.Prompt × Option Error
  /-- The function `time.ParseDuration`, in nanoseconds. -/
  ParseDuration : GoString → Except Error Int
  /-- The method `String` of a `time.Duration`. -/
  DurationString : Int → GoString

/-- A call the handler makes, with its arguments. -/
inductive Event where
  | generateImagePrompt (prompt : GoString)
  | promptSave (prompt : domain.Prompt)
  | chatGet (chatID : Int) (topicID : Int)
  | chatSave (chat : domain.Chat)
  | generateImage (prompt : GoString) (model : GoString)
  | createChatCompletion (chat : domain.Chat)
  | getFile (fileID : GoString)
  | httpGet (link : GoString)
  | saveTempVoiceFile (data : List Nat)
  | convertToMP3 (inputPath : GoString)
  | openFile (path : GoString)
  | remove (path : GoString)
  | sendMessage (params : SendMessageParams)
  | sendPhoto (params : SendPhotoParams)
  | sleep
  | answerCallbackQuery (callbackQueryID : GoString)
  | deleteMessages (chat : domain.Chat)
  | promptGetByID (id : Int)
  | stateClear (chatID : Int) (topicID : Int)
  deriving DecidableEq, Repr

/-- How a run of the handler ends: it returns, it panics, or the bound on the rounds of the
chunking loop is reached with the loop still running. -/
inductive Status where
  | returned
  | panicked
  | running
  deriving DecidableEq, Repr

/-- A run of the handler: the calls made, in order, and how the run ends. -/
structure Run where
  trace : List Event
  status : Status
  deriving DecidableEq, Repr

/-- The run that makes the calls `evs` and then continues as `r`. -/
def Run.after (evs : List Event) (r : Run) : Run :=
  { trace := evs ++ r.trace, status := r.status }

/-- A `b.SendMessage` with `ChatID`, `MessageThreadID` and `Text` set and no parse mode. -/
def plainMessage (chatID topicID : Int) (text : GoString) : Event :=
  .sendMessage { ChatID := chatID, MessageThreadID := topicID, Text := text, ParseMode := [] }

/-- A `b.SendMessage` with `ParseMode: models.ParseModeHTML`. -/
def htmlMessage (chatID topicID : Int) (text : GoString) : Event :=
  .sendMessage
    { ChatID := chatID, MessageThreadID := topicID, Text := text,
      ParseMode := models.ParseModeHTML }

/-! ## `GenerateContent` -/

/-- The constant `maxTelegramMessageLength`. -/
def maxTelegramMessageLength : Nat := 4096

/-- The constant `moreButtonText`. -/
def moreButtonText : GoString := utf8 "Еще"

/-- The closure `findCutIndex`; `none` is the panic of the slice `text[:maxLength]`. -/
def findCutIndex (text : GoString) (maxLength : Nat) : Option Int :=
  match sliceTo text maxLength with
  | none => none
  | some head =>
    if LastIndex head (utf8 "<pre>") > -1 then some (LastIndex head (utf8 "<pre>"))
    else if LastIndex head (utf8 "\n") > -1 then some (LastIndex head (utf8 "\n"))
    else some maxLength

/-- The closure `getImageAsBytes`: the calls it makes, the bytes and the error it returns. A
response with a status other than 200 returns the `err` of `http.Get`, which is nil there. -/
def getImageAsBytes (env : Env) (link : GoString) : List Event × List Nat × Option Error :=
  match env.HTTPGet link with
  | .transportError err => ([.httpGet link], [], some err)
  | .response statusCode body =>
    if statusCode ≠ 200 then ([.httpGet link], [], none)
    else
      match body with
      | .error err => ([.httpGet link], [], some err)
      | .ok data => ([.httpGet link], data, none)

/-- The closure `getVoiceAsMP3Bytes`: the calls it makes (the deferred `os.Remove` calls run
last, in reverse order), the bytes and the error it returns. -/
def getVoiceAsMP3Bytes (env : Env) (voiceFileURL : GoString) :
    List Event × List Nat × Option Error :=
  match getImageAsBytes env voiceFileURL with
  | (evs, _, some err) => (evs, [], some (err.wrap (utf8 "unable to download voice file: ")))
  | (evs, voiceBytes, none) =>
    match env.saveTempVoiceFile voiceBytes with
    | .error err =>
      (evs ++ [.saveTempVoiceFile voiceBytes], [],
        some (err.wrap (utf8 "unable to save temporary voice file: ")))
    | .ok voiceFilePath =>
      match env.ConvertToMP3 voiceFilePath with
      | .error err =>
        (evs ++ [.saveTempVoiceFile voiceBytes, .convertToMP3 voiceFilePath,
            .remove voiceFilePath], [],
          some (err.wrap (utf8 "unable to convert voice file to mp3 file: ")))
      | .ok mp3Path =>
        match env.Open mp3Path with
        | some err =>
          (evs ++ [.saveTempVoiceFile voiceBytes, .convertToMP3 voiceFilePath,
              .openFile mp3Path, .remove mp3Path, .remove voiceFilePath], [],
            some (err.wrap (utf8 "opening mp3 file: ")))
        | none =>
          match env.ReadAll mp3Path with
          | .error err =>
            (evs ++ [.saveTempVoiceFile voiceBytes, .convertToMP3 voiceFilePath,
                .openFile mp3Path, .remove mp3Path, .remove voiceFilePath], [],
              some (err.wrap (utf8 "reading mp3 file: ")))
          | .ok data =>
            (evs ++ [.saveTempVoiceFile voiceBytes, .convertToMP3 voiceFilePath,
                .openFile mp3Path, .remove mp3Path, .remove voiceFilePath], data, none)

/-- The image-intent branch (`if isImagePrompt { ... }`). The turn ends with an error message
when the error of `chatProvider.Get` is non-nil and not `ErrNotFound`. -/
def imageIntent (env : Env) (chatID topicID : Int) (prompt : domain.Prompt) : Run :=
  match env.GenerateImagePrompt prompt.Text with
  | .error err =>
    ⟨[.generateImagePrompt prompt.Text,
      plainMessage chatID topicID (utf8 "❌ Не удалось сгенерировать промпт: " ++ err.msg)],
      .returned⟩
  | .ok newPrompt =>
    Run.after [.generateImagePrompt prompt.Text, .promptSave { prompt with Text := newPrompt }] <|
    match env.PromptSave { prompt with Text := newPrompt } with
    | .error err =>
      ⟨[plainMessage chatID topicID (utf8 "❌ Не удалось сохранить промпт: " ++ err.msg)],
        .returned⟩
    | .ok id =>
      Run.after [.chatGet chatID topicID] <|
      match env.ChatGet chatID topicID with
      | (chat, err) =>
        match err.filter (fun e => !e.notFound) with
        | some e =>
          ⟨[plainMessage chatID topicID (utf8 "❌ Не удалось получить чат: " ++ e.msg)],
            .returned⟩
        | none =>
          let model := match chat with
            | some c => c.ImageModel
            | none => []
          Run.after [.generateImage newPrompt model] <|
          match env.GenerateImage newPrompt model with
          | .error err =>
            ⟨[plainMessage chatID topicID
                (utf8 "❌ Не удалось сгенерировать изображение: " ++ err.msg)],
              .returned⟩
          | .ok imageData =>
            ⟨[.sendPhoto
                { ChatID := chatID
                  MessageThreadID := topicID
                  Photo := imageData
                  ReplyMarkup :=
                    { InlineKeyboard :=
                        [[{ Text := moreButtonText
                            CallbackData := domain.GenImageCallbackPrefix ++ Itoa id }]] } }],
              .returned⟩

/-- The block `if len(update.Message.Photo) > 0 { ... }`: the calls made, and the prompt with
which the turn goes on (`none` when the block ends the turn). -/
def ingestPhoto (env : Env) (m : models.Message) (prompt : domain.Prompt) :
    List Event × Option domain.Prompt :=
  match m.Photo.getLast? with
  | none => ([], some prompt)
  | some photo =>
    match env.GetFile photo.FileID with
    | .error err =>
      ([.getFile photo.FileID,
        plainMessage m.ChatID m.MessageThreadID
          (utf8 "❌ Не удалось получить метадату фото файла: " ++ err.msg)], none)
    | .ok link =>
      match env.ParseURL link with
      | .error err =>
        ([.getFile photo.FileID,
          plainMessage m.ChatID m.MessageThreadID
            (utf8 "❌ Не удалось получить ссылку на фото файл: " ++ err.msg)], none)
      | .ok imageFileURL =>
        match getImageAsBytes env imageFileURL with
        | (evs, _, some err) =>
          (.getFile photo.FileID :: evs ++
            [plainMessage m.ChatID m.MessageThreadID
              (utf8 "❌ Не удалось получить фото файл: " ++ err.msg)], none)
        | (evs, data, none) =>
          (.getFile photo.FileID :: evs, some { prompt with ImageBytes := data })

/-- The block `if update.Message.Voice != nil { ... }`: the calls made, and the prompt with
which the turn goes on (`none` when the block ends the turn). -/
def ingestVoice (env : Env) (m : models.Message) (prompt : domain.Prompt) :
    List Event × Option domain.Prompt :=
  match m.Voice with
  | none => ([], some prompt)
  | some voice =>
    match env.GetFile voice.FileID with
    | .error err =>
      ([.getFile voice.FileID,
        plainMessage m.ChatID m.MessageThreadID
          (utf8 "❌ Не удалось получить метадату аудио файла: " ++ err.msg)], none)
    | .ok link =>
      match env.ParseURL link with
      | .error err =>
        ([.getFile voice.FileID,
          plainMessage m.ChatID m.MessageThreadID
            (utf8 "❌ Не удалось получить ссылку на аудио файл: " ++ err.msg)], none)
      | .ok voiceFileURL =>
        match getVoiceAsMP3Bytes env voiceFileURL with
        | (evs, _, some err) =>
          (.getFile voice.FileID :: evs ++
            [plainMessage m.ChatID m.MessageThreadID
              (utf8 "❌ Не удалось получить фото файл: " ++ err.msg)], none)
        | (evs, data, none) =>
          (.getFile voice.FileID :: evs, some { prompt with AudioBytes := data })

/-- The content parts of the user message (`content`), from the prompt's text and image. -/
def userContent (prompt : domain.Prompt) : List domain.ContentPart :=
  if prompt.ImageBytes.length > 0 then
    if prompt.Text ≠ [] then
      [{ PartType := domain.ContentPartTypeText, Data := prompt.Text },
        { PartType := domain.ContentPartTypeImage
          Data := utf8 "data:image/jpeg;base64," ++ EncodeToString prompt.ImageBytes }]
    else
      [{ PartType := domain.ContentPartTypeImage
         Data := utf8 "data:image/jpeg;base64," ++ EncodeToString prompt.ImageBytes }]
  else
    [{ PartType := domain.ContentPartTypeText, Data := prompt.Text }]

/-- The chat after the expiry check `time.Now().After(chat.LastUpdate.Add(chat.TTL))`. -/
def expire (now : Int) (chat : domain.Chat) : domain.Chat :=
  if now > chat.LastUpdate + chat.TTL then { chat with Messages := [] } else chat

/-- The chat with the user message of the prompt appended to its messages. -/
def appendUserMessage (chat : domain.Chat) (prompt : domain.Prompt) : domain.Chat :=
  { chat with
    Messages := chat.Messages ++
      [{ Role := domain.MessageRoleUser, ContentParts := userContent prompt }] }

/-- The text `fmt.Sprintf("%+v", part)` of a content part: the fields, named, between
braces. -/
def formatPart (part : domain.ContentPart) : GoString :=
  utf8 "\x7bType:" ++ part.PartType ++ utf8 " Data:" ++ part.Data ++ utf8 "\x7d"

/-- The calls of round `k` of the chunking loop after the chunk is sent: the error notice
when that `b.SendMessage` failed, then `time.Sleep`. -/
def afterChunk (env : Env) (chatID topicID : Int) (k : Nat) : List Event :=
  match env.SendChunk k with
  | some err =>
    [plainMessage chatID topicID (utf8 "❌ Не удалось сгенерировать ответ: " ++ err.msg), .sleep]
  | none => [.sleep]

/-- The loop `for htmlText != "" { ... }`, from round `k` on. The first argument bounds the
number of rounds run; a run that still has text to send when the bound is reached has the
status `running`. -/
def chunkLoop (env : Env) (chatID topicID : Int) : Nat → Nat → GoString → Run
  | 0, _, htmlText => if htmlText = [] then ⟨[], .returned⟩ else ⟨[], .running⟩
  | fuel + 1, k, htmlText =>
    if htmlText = [] then ⟨[], .returned⟩
    else if RuneCountInString htmlText ≤ maxTelegramMessageLength then
      ⟨[htmlMessage chatID topicID htmlText], .returned⟩
    else
      match findCutIndex htmlText maxTelegramMessageLength with
      | none => ⟨[], .panicked⟩
      | some cutIndex =>
        match sliceTo htmlText cutIndex, sliceFrom htmlText cutIndex with
        | some chunk, some rest =>
          Run.after (htmlMessage chatID topicID chunk :: afterChunk env chatID topicID k)
            (chunkLoop env chatID topicID fuel (k + 1) rest)
        | _, _ => ⟨[], .panicked⟩

/-- The chat the text-intent branch works on, from the answer of `chatProvider.Get`:
`domain.NewChat` on `ErrNotFound`; another error ends the turn with a message; a nil chat with
a nil error panics at `chat.LastUpdate`. -/
def loadChat (env : Env) (chatID topicID : Int) : Except Run domain.Chat :=
  match env.ChatGet chatID topicID with
  | (_, some err) =>
    if err.notFound then .ok (domain.NewChat chatID topicID)
    else
      .error ⟨[plainMessage chatID topicID (utf8 "❌ Не удалось получить чат: " ++ err.msg)],
        .returned⟩
  | (some chat, none) => .ok chat
  | (none, none) => .error ⟨[], .panicked⟩

/-- The text-intent branch from `chatProvider.Get` on, with the ingested prompt. -/
def textIntent (env : Env) (fuel : Nat) (chatID topicID : Int) (prompt : domain.Prompt) : Run :=
  Run.after [.chatGet chatID topicID] <|
  match loadChat env chatID topicID with
  | .error run => run
  | .ok chat =>
    Run.after [.createChatCompletion (appendUserMessage (expire env.Now chat) prompt)] <|
    match env.CreateChatCompletion (appendUserMessage (expire env.Now chat) prompt) with
    | (_, some err) =>
      ⟨[plainMessage chatID topicID (utf8 "❌ Не удалось сгенерировать ответ: " ++ err.msg)],
        .returned⟩
    | (none, none) =>
      ⟨[plainMessage chatID topicID (utf8 "❌ Ответ пустой или отсутствует.")], .returned⟩
    | (some respMessage, none) =>
      match respMessage.ContentParts with
      | [] =>
        ⟨[plainMessage chatID topicID (utf8 "❌ Ответ пустой или отсутствует.")], .returned⟩
      | part :: _ =>
        Run.after
          [.chatSave
            { appendUserMessage (expire env.Now chat) prompt with
              Messages :=
                (appendUserMessage (expire env.Now chat) prompt).Messages ++ [respMessage] }] <|
        match env.ChatSave
            { appendUserMessage (expire env.Now chat) prompt with
              Messages :=
                (appendUserMessage (expire env.Now chat) prompt).Messages ++ [respMessage] } with
        | some err =>
          ⟨[plainMessage chatID topicID (utf8 "❌ Не удалось сохранить чат: " ++ err.msg)],
            .returned⟩
        | none =>
          if part.PartType ≠ domain.ContentPartTypeText then
            ⟨[plainMessage chatID topicID
                (utf8 "❌ Неожиданный тип ответа: " ++ formatPart part)],
              .returned⟩
          else
            chunkLoop env chatID topicID fuel 0 (env.ToHTML part.Data)

/-- The text-intent part of the handler: the photo block, the voice block, then the
completion. -/
def textBranch (env : Env) (fuel : Nat) (m : models.Message) (prompt : domain.Prompt) : Run :=
  match ingestPhoto env m prompt with
  | (evs, none) => ⟨evs, .returned⟩
  | (evs, some prompt) =>
    Run.after evs <|
    match ingestVoice env m prompt with
    | (evs, none) => ⟨evs, .returned⟩
    | (evs, some prompt) =>
      Run.after evs (textIntent env fuel m.ChatID m.MessageThreadID prompt)

/-- The handler returned by `GenerateContent`, at one update. A nil `update.Message` panics
at the first line. -/
def GenerateContent (env : Env) (fuel : Nat) (update : models.Update) : Run :=
  match update.Message with
  | none => ⟨[], .panicked⟩
  | some m =>
    let prompt : domain.Prompt :=
      { ID := 0, Text := CoalesceOrEmpty m.Text m.Caption, ImageBytes := [], AudioBytes := [] }
    let isImagePrompt :=
      Contains (env.ToLower prompt.Text) (utf8 "рисуй") ||
        Contains (env.ToLower prompt.Text) (utf8 "draw")
    if isImagePrompt then imageIntent env m.ChatID m.MessageThreadID prompt
    else textBranch env fuel m prompt

/-! ## `RegenerateImage` -/

/-- The run `r` followed by the deferred calls `evs`, which run when the handler returns and
when it panics. -/
def Run.deferred (r : Run) (evs : List Event) : Run :=
  { trace := r.trace ++ evs, status := r.status }

/-- The closure `parsePromptID`. -/
def parsePromptID (promptIDRaw : GoString) : Except Error Int :=
  match ParseInt (TrimPrefix promptIDRaw domain.GenImageCallbackPrefix) with
  | none => .error { msg := utf8 "invalid promptID: " ++ promptIDRaw, notFound := false }
  | some id => .ok id

/-- The handler returned by `RegenerateImage`, at one update. A nil `update.CallbackQuery` or
`CallbackQuery.Message.Message` panics at the first line; the branch of a failed `Get` reads
`update.Message` and panics when that is nil; `b.AnswerCallbackQuery` is deferred. -/
def RegenerateImage (env : Env) (update : models.Update) : Run :=
  match update.CallbackQuery with
  | none => ⟨[], .panicked⟩
  | some cq =>
    match cq.Message with
    | none => ⟨[], .panicked⟩
    | some cm =>
      Run.deferred
        (match parsePromptID cq.Data with
        | .error err =>
          ⟨[plainMessage cm.ChatID cm.MessageThreadID
              (utf8 "❌ Не удалось прочитать промпт ID: " ++ err.msg)],
            .returned⟩
        | .ok promptID =>
          Run.after [.promptGetByID promptID] <|
          match env.PromptGetByID promptID with
          | (_, some err) =>
            ⟨[plainMessage cm.ChatID cm.MessageThreadID
                (utf8 "❌ Не удалось извлечь промпт: " ++ err.msg)],
              .returned⟩
          | (prompt, none) =>
            Run.after [.chatGet cm.ChatID cm.MessageThreadID] <|
            match env.ChatGet cm.ChatID cm.MessageThreadID with
            | (chat, err) =>
              match err.filter (fun e => !e.notFound) with
              | some e =>
                match update.Message with
                | none => ⟨[], .panicked⟩
                | some m =>
                  ⟨[plainMessage m.ChatID m.MessageThreadID
                      (utf8 "❌ Не удалось получить чат: " ++ e.msg)],
                    .returned⟩
              | none =>
                match prompt with
                | none => ⟨[], .panicked⟩
                | some prompt =>
                  let model := match chat with
                    | some c => c.ImageModel
                    | none => []
                  Run.after [.generateImage prompt.Text model] <|
                  match env.GenerateImage prompt.Text model with
                  | .error err =>
                    ⟨[plainMessage cm.ChatID cm.MessageThreadID
                        (utf8 "❌ Не удалось сгенерировать изображение: " ++ err.msg)],
                      .returned⟩
                  | .ok imageData =>
                    ⟨[.sendPhoto
                        { ChatID := cm.ChatID
                          MessageThreadID := cm.MessageThreadID
                          Photo := imageData
                          ReplyMarkup :=
                            { InlineKeyboard :=
                                [[{ Text := moreButtonText
                                    CallbackData :=
                                      domain.GenImageCallbackPrefix ++ Itoa promptID }]] } }],
                      .returned⟩)
        [.answerCallbackQuery cq.ID]

/-! ## The setting handlers -/

/-- The slice `supportedTextModels` of `main.go`. -/
def supportedTextModels : List GoString :=
  [utf8 "gpt-4o-mini", utf8 "gpt-3.5-turbo", utf8 "o3-mini"]

/-- The slice `supportedImageModels` of `main.go`. -/
def supportedImageModels : List GoString :=
  [domain.DallE2Model, domain.DallE3Model]

/-- The slice `supportedTTLOptions` of `main.go`, in nanoseconds. -/
def supportedTTLOptions : List Int :=
  [30 * 1000000000, 15 * (60 * 1000000000), 60 * (60 * 1000000000),
    8 * (60 * (60 * 1000000000)), 24 * (60 * (60 * 1000000000)),
    7 * 24 * (60 * (60 * 1000000000))]

/-- The chat a setting handler works on, from the answer of `chatProvider.Get`:
`domain.NewChat` on `ErrNotFound`; the run `onError err` for another error; a nil chat with a
nil error panics at the assignment to the chat's field. -/
def loadOrNew (env : Env) (chatID topicID : Int) (onError : Error → Run) :
    Except Run domain.Chat :=
  match env.ChatGet chatID topicID with
  | (_, some err) =>
    if err.notFound then .ok (domain.NewChat chatID topicID) else .error (onError err)
  | (some chat, none) => .ok chat
  | (none, none) => .error ⟨[], .panicked⟩

/-- The branch of a failed `Get` as `SetTextModel` and `SetTTL` write it: the message is
addressed through `update.Message`, which panics when that is nil. -/
def getFailedViaMessage (update : models.Update) (err : Error) : Run :=
  match update.Message with
  | none => ⟨[], .panicked⟩
  | some m =>
    ⟨[plainMessage m.ChatID m.MessageThreadID (utf8 "❌ Не удалось получить чат: " ++ err.msg)],
      .returned⟩

/-- The closure `parseTextModel`. -/
def parseTextModel (supportedTextModels : List GoString) (modelRaw : GoString) :
    Except Error GoString :=
  if !HasPrefix modelRaw domain.SetTextModelCallbackPrefix then
    .error
      { msg := utf8 "invalid format, expected prefix \x27" ++ domain.SetTextModelCallbackPrefix ++
          utf8 "\x27"
        notFound := false }
  else if supportedTextModels.contains (TrimPrefix modelRaw domain.SetTextModelCallbackPrefix) then
    .ok (TrimPrefix modelRaw domain.SetTextModelCallbackPrefix)
  else .error { msg := utf8 "unsupported model", notFound := false }

/-- The handler returned by `SetTextModel`, at one update. -/
def SetTextModel (env : Env) (supportedTextModels : List GoString) (update : models.Update) :
    Run :=
  match update.CallbackQuery with
  | none => ⟨[], .panicked⟩
  | some cq =>
    match cq.Message with
    | none => ⟨[], .panicked⟩
    | some cm =>
      Run.after [.answerCallbackQuery cq.ID] <|
      match parseTextModel supportedTextModels cq.Data with
      | .error err =>
        ⟨[plainMessage cm.ChatID cm.MessageThreadID
            (utf8 "❌ Не удалось извлечь текстовую модель: " ++ err.msg)],
          .returned⟩
      | .ok model =>
        Run.after [.chatGet cm.ChatID cm.MessageThreadID] <|
        match loadOrNew env cm.ChatID cm.MessageThreadID (getFailedViaMessage update) with
        | .error run => run
        | .ok chat =>
          Run.after [.chatSave { chat with TextModel := model }] <|
          match env.ChatSave { chat with TextModel := model } with
          | some err =>
            ⟨[plainMessage cm.ChatID cm.MessageThreadID
                (utf8 "❌ Не удалось сохранить чат: " ++ err.msg)],
              .returned⟩
          | none =>
            match env.DeleteMessages { chat with TextModel := model } with
            | some err =>
              ⟨[plainMessage cm.ChatID cm.MessageThreadID
                  (utf8 "✅ Модель установлена: " ++ model),
                .deleteMessages { chat with TextModel := model },
                plainMessage cm.ChatID cm.MessageThreadID
                  (utf8 "❌ Не удалось очистить историю: " ++ err.msg),
                plainMessage cm.ChatID cm.MessageThreadID
                  (utf8 "🧹 История очищена! Начните новый чат. 🚀")],
                .returned⟩
            | none =>
              ⟨[plainMessage cm.ChatID cm.MessageThreadID
                  (utf8 "✅ Модель установлена: " ++ model),
                .deleteMessages { chat with TextModel := model },
                plainMessage cm.ChatID cm.MessageThreadID
                  (utf8 "🧹 История очищена! Начните новый чат. 🚀")],
                .returned⟩

/-- The closure `parseImageModel`. -/
def parseImageModel (supportedImageModels : List GoString) (modelRaw : GoString) :
    Except Error GoString :=
  if !HasPrefix modelRaw domain.SetImageModelCallbackPrefix then
    .error
      { msg := utf8 "invalid format, expected prefix \x27" ++
          domain.SetImageModelCallbackPrefix ++ utf8 "\x27"
        notFound := false }
  else if supportedImageModels.contains
      (TrimPrefix modelRaw domain.SetImageModelCallbackPrefix) then
    .ok (TrimPrefix modelRaw domain.SetImageModelCallbackPrefix)
  else .error { msg := utf8 "unsupported model", notFound := false }

/-- The name shown for an image model (`displayName`). -/
def displayName (model : GoString) : GoString :=
  if model = domain.DallE2Model then utf8 "DALL-E 2"
  else if model = domain.DallE3Model then utf8 "DALL-E 3"
  else model

/-- The handler returned by `SetImageModel`, at one update. -/
def SetImageModel (env : Env) (supportedImageModels : List GoString) (update : models.Update) :
    Run :=
  match update.CallbackQuery with
  | none => ⟨[], .panicked⟩
  | some cq =>
    match cq.Message with
    | none => ⟨[], .panicked⟩
    | some cm =>
      Run.after [.answerCallbackQuery cq.ID] <|
      match parseImageModel supportedImageModels cq.Data with
      | .error err =>
        ⟨[plainMessage cm.ChatID cm.MessageThreadID
            (utf8 "❌ Не удалось извлечь модель изображения: " ++ err.msg)],
          .returned⟩
      | .ok model =>
        Run.after [.chatGet cm.ChatID cm.MessageThreadID] <|
        match loadOrNew env cm.ChatID cm.MessageThreadID
            (fun err =>
              ⟨[plainMessage cm.ChatID cm.MessageThreadID
                  (utf8 "❌ Не удалось получить чат: " ++ err.msg)],
                .returned⟩) with
        | .error run => run
        | .ok chat =>
          Run.after [.chatSave { chat with ImageModel := model }] <|
          match env.ChatSave { chat with ImageModel := model } with
          | some err =>
            ⟨[plainMessage cm.ChatID cm.MessageThreadID
                (utf8 "❌ Не удалось сохранить чат: " ++ err.msg)],
              .returned⟩
          | none =>
            ⟨[plainMessage cm.ChatID cm.MessageThreadID
                (utf8 "✅ Модель для генерации изображений установлена: " ++
                  displayName model)],
              .returned⟩

/-- The closure `parseTTL`; `time.ParseDuration` is answered by the environment. -/
def parseTTL (env : Env) (supportedTTLOptions : List Int) (ttlRaw : GoString) :
    Except Error Int :=
  if !HasPrefix ttlRaw domain.SetTTLCallbackPrefix then
    .error
      { msg := utf8 "invalid format, expected prefix \x27" ++ domain.SetTTLCallbackPrefix ++
          utf8 "\x27"
        notFound := false }
  else
    match env.ParseDuration (TrimPrefix ttlRaw domain.SetTTLCallbackPrefix) with
    | .error err => .error err
    | .ok ttl =>
      if supportedTTLOptions.contains ttl then .ok ttl
      else .error { msg := utf8 "unsupported ttl option", notFound := false }

/-- The closure `shortDuration`; `none` is the panic of a slice `s[:len(s)-2]`, which
`lo.Ternary` evaluates whether or not the suffix is there. -/
def shortDuration (env : Env) (d : Int) : Option GoString :=
  match sliceTo (env.DurationString d) ((env.DurationString d).length - 2 : Int) with
  | none => none
  | some cut =>
    let s := if HasSuffix (env.DurationString d) (utf8 "m0s") then cut else env.DurationString d
    match sliceTo s (s.length - 2 : Int) with
    | none => none
    | some cut => some (if HasSuffix s (utf8 "h0m") then cut else s)

/-- The handler returned by `SetTTL`, at one update. -/
def SetTTL (env : Env) (supportedTTLOptions : List Int) (update : models.Update) : Run :=
  match update.CallbackQuery with
  | none => ⟨[], .panicked⟩
  | some cq =>
    match cq.Message with
    | none => ⟨[], .panicked⟩
    | some cm =>
      Run.after [.answerCallbackQuery cq.ID] <|
      match parseTTL env supportedTTLOptions cq.Data with
      | .error err =>
        ⟨[plainMessage cm.ChatID cm.MessageThreadID
            (utf8 "❌ Не удалось извлечь TTL: " ++ err.msg)],
          .returned⟩
      | .ok ttl =>
        Run.after [.chatGet cm.ChatID cm.MessageThreadID] <|
        match loadOrNew env cm.ChatID cm.MessageThreadID (getFailedViaMessage update) with
        | .error run => run
        | .ok chat =>
          Run.after [.chatSave { chat with TTL := ttl }] <|
          match env.ChatSave { chat with TTL := ttl } with
          | some err =>
            ⟨[plainMessage cm.ChatID cm.MessageThreadID
                (utf8 "❌ Не удалось сохранить чат: " ++ err.msg)],
              .returned⟩
          | none =>
            match shortDuration env ttl with
            | none => ⟨[], .panicked⟩
            | some short =>
              ⟨[plainMessage cm.ChatID cm.MessageThreadID
                  (utf8 "✅ Время жизни чата (TTL) установлено: " ++ short)],
                .returned⟩

/-- The handler returned by `SetSystemPrompt`, at one update. A nil `update.Message` panics at
the first line. -/
def SetSystemPrompt (env : Env) (update : models.Update) : Run :=
  match update.Message with
  | none => ⟨[], .panicked⟩
  | some m =>
    Run.after [.chatGet m.ChatID m.MessageThreadID] <|
    match loadOrNew env m.ChatID m.MessageThreadID
        (fun err =>
          ⟨[plainMessage m.ChatID m.MessageThreadID
              (utf8 "❌ Не удалось получить чат: " ++ err.msg)],
            .returned⟩) with
    | .error run => run
    | .ok chat =>
      Run.after [.chatSave { chat with SystemPrompt := m.Text }] <|
      match env.ChatSave { chat with SystemPrompt := m.Text } with
      | some err =>
        ⟨[plainMessage m.ChatID m.MessageThreadID
            (utf8 "❌ Не удалось сохранить чат: " ++ err.msg)],
          .returned⟩
      | none =>
        ⟨[.stateClear m.ChatID m.MessageThreadID,
          plainMessage m.ChatID m.MessageThreadID
            (utf8 "✅ Системная инструкция установлена: " ++ m.Text)],
          .returned⟩

/-! ## `pkg/llm`: the image client -/

namespace llm

/-- The interface `ImageGenerator`: the answer of a provider to `GenerateImage`. -/
structure ImageGenerator where
  GenerateImage : GoString → GoString → Except Error (List Nat)

/-- A call of `GenerateImage` on a provider: the key under which the provider is registered in
the map, and the arguments. -/
structure ProviderCall where
  key : GoString
  prompt : GoString
  model : GoString
  deriving DecidableEq, Repr

/-- The struct `MultiProviderImageClient`; the map `providers` is a list of its entries, with
distinct keys. -/
structure MultiProviderImageClient where
  providers : List (GoString × ImageGenerator)

/-- The constructor `NewMultiProviderImageClient`. -/
def NewMultiProviderImageClient (providers : List (GoString × ImageGenerator)) :
    MultiProviderImageClient :=
  { providers := providers }

/-- The method `GenerateImage` of `MultiProviderImageClient`: the calls made on providers, and
the result. -/
def MultiProviderImageClient.GenerateImage (c : MultiProviderImageClient)
    (prompt model : GoString) : List ProviderCall × Except Error (List Nat) :=
  match c.providers.lookup model with
  | none => ([], .error { msg := utf8 "no provider found for model: " ++ model, notFound := false })
  | some provider =>
    ([{ key := model, prompt := prompt, model := model }], provider.GenerateImage prompt model)

end llm

/-! ## `main.go`: the registration of the callback handlers -/

/-- The handlers that `main.go` registers for callback queries. -/
inductive CallbackHandler where
  | SetImageModel
  | SetTTL
  | SetTextModel
  | RequestSystemPrompt
  | RegenerateImage
  deriving DecidableEq, Repr

/-- The options `bot.WithCallbackQueryDataHandler(pattern, bot.MatchTypePrefix, handler)` of
`main.go`, in the order in which they are written: the pattern and the handler of each. -/
def callbackQueryDataHandlers : List (GoString × CallbackHandler) :=
  [(domain.SetImageModelCallbackPrefix, .SetImageModel),
    (domain.SetTTLCallbackPrefix, .SetTTL),
    (domain.SetTextModelCallbackPrefix, .SetTextModel),
    (domain.SetSystemPromptCallbackPrefix, .RequestSystemPrompt),
    (domain.GenImageCallbackPrefix, .RegenerateImage)]

/-- The registered handlers whose pattern matches the callback data `data`: with
`bot.MatchTypePrefix` a pattern matches when `strings.HasPrefix(data, pattern)`. -/
def matchingCallbackHandlers (data : GoString) : List CallbackHandler :=
  (callbackQueryDataHandlers.filter (fun h => HasPrefix data h.1)).map Prod.snd

/-! ## Observations on a run -/

/-- The text of a `b.SendMessage` sent with `ParseMode: models.ParseModeHTML`. -/
def Event.htmlText : Event → Option GoString
  | .sendMessage params =>
    if params.ParseMode = models.ParseModeHTML then some params.Text else none
  | _ => none

/-- The texts sent with parse mode HTML in a trace, in the order of sending: the chunks of
the reply. -/
def htmlTexts (trace : List Event) : List GoString :=
  trace.filterMap Event.htmlText

/-- The event is a call of `ChatRepository.Save`. -/
def Event.isChatSave : Event → Bool
  | .chatSave _ => true
  | _ => false

/-- The event is a call of `CreateChatCompletion`. -/
def Event.isCreateChatCompletion : Event → Bool
  | .createChatCompletion _ => true
  | _ => false

/-- The event is a call of `GenerateImagePrompt`, `GenerateImage` or `SendPhoto`: a call made
in the image-intent branch only. -/
def Event.isImageCall : Event → Bool
  | .generateImagePrompt _ => true
  | .generateImage _ _ => true
  | .sendPhoto _ => true
  | _ => false

/-- No event of the trace is a call made in the image-intent branch only. -/
def noImageCall (trace : List Event) : Bool :=
  trace.all (fun e => !e.isImageCall)

/-- The event is a `b.SendMessage` or a `time.Sleep`. -/
def Event.isSendOrSleep : Event → Bool
  | .sendMessage _ => true
  | .sleep => true
  | _ => false

/-- The event is a call of `GenerateImage`. -/
def Event.isGenerateImage : Event → Bool
  | .generateImage _ _ => true
  | _ => false

/-- The event is a call of `ChatRepository.DeleteMessages`. -/
def Event.isDeleteMessages : Event → Bool
  | .deleteMessages _ => true
  | _ => false

/-- The event is a call on a repository or on the image provider: `Get`, `Save`,
`DeleteMessages`, `PromptRepository.Save`, `GetByID` or `GenerateImage`. -/
def Event.isStoreOrProviderCall : Event → Bool
  | .chatGet _ _ => true
  | .chatSave _ => true
  | .deleteMessages _ => true
  | .promptSave _ => true
  | .promptGetByID _ => true
  | .generateImage _ _ => true
  | _ => false

/-- The chat a handler goes on with after `chatProvider.Get`: the chat returned, or
`domain.NewChat(chatID, topicID)` when `Get` returns `ErrNotFound`; `none` when `Get` fails
otherwise (or returns neither a chat nor an error). -/
def chatAfterGet (env : Env) (chatID topicID : Int) : Option domain.Chat :=
  match env.ChatGet chatID topicID with
  | (_, some err) => if err.notFound then some (domain.NewChat chatID topicID) else none
  | (chat, none) => chat

/-- The value of a string of decimal digits. -/
def decimalValue (digits : GoString) : Nat :=
  digits.foldl (fun n c => n * 10 + (c - 48)) 0

/-- The string is not empty and each of its bytes is a decimal digit. -/
def IsDecimal (digits : GoString) : Prop :=
  digits ≠ [] ∧ ∀ c ∈ digits, 48 ≤ c ∧ c ≤ 57

/-- The string `s` is a base-10 numeral of the integer `n` in the `int64` range: decimal digits
after an optional sign `+` or `-`. -/
def IsInt64Numeral (s : GoString) (n : Int) : Prop :=
  (∃ digits, (s = digits ∨ s = 43 :: digits) ∧ IsDecimal digits ∧
      n = (decimalValue digits : Int) ∧ decimalValue digits < 2 ^ 63) ∨
    (∃ digits, s = 45 :: digits ∧ IsDecimal digits ∧
      n = -(decimalValue digits : Int) ∧ decimalValue digits ≤ 2 ^ 63)

/-- The event is a `b.SendMessage`. -/
def Event.isSendMessage : Event → Bool
  | .sendMessage _ => true
  | _ => false

/-- The string `sub` occurs in `s` at byte offset `i`: `s[i:i+len(sub)] == sub`. -/
def OccursAt (sub s : GoString) (i : Nat) : Prop :=
  sub <+: s.drop i ∧ i + sub.length ≤ s.length

instance (sub s : GoString) (i : Nat) : Decidable (OccursAt sub s i) :=
  inferInstanceAs (Decidable (sub <+: s.drop i ∧ i + sub.length ≤ s.length))

/-- The string `sub` occurs in `s` at byte offset `i` and ends within the first `limit`
bytes of `s`. -/
def OccursWithin (sub s : GoString) (limit i : Nat) : Prop :=
  OccursAt sub s i ∧ i + sub.length ≤ limit

/-- The offset `i` is that of the last occurrence of `sub` in `s` that ends within the first
`limit` bytes of `s`. -/
def LastWithin (sub s : GoString) (limit i : Nat) : Prop :=
  OccursWithin sub s limit i ∧ ∀ j, OccursWithin sub s limit j → j ≤ i

/-- The event is a call of `stateClearer.Clear`. -/
def Event.isStateClear : Event → Bool
  | .stateClear _ _ => true
  | _ => false

/-- The chats of the calls of `ChatRepository.Save` in a trace that the repository answers with
a nil error: the chats stored in the turn. -/
def savedChats (env : Env) (trace : List Event) : List domain.Chat :=
  trace.filterMap fun e =>
    match e with
    | .chatSave chat => if (env.ChatSave chat).isNone then some chat else none
    | _ => none

/-! ## Sample inputs and environments -/

/-- The text `"<pre>"` followed by `n` letters `a`. -/
def preBlock (n : Nat) : GoString :=
  utf8 "<pre>" ++ List.replicate n 97

/-- The code block `"<pre>"`, `n` letters `a`, `"</pre>"`. -/
def codeBlock (n : Nat) : GoString :=
  preBlock n ++ utf8 "</pre>"

/-- The text of a newline followed by `n` letters `a`. -/
def newlineBlock (n : Nat) : GoString :=
  utf8 "\n" ++ List.replicate n 97

/-- The text of `n` letters `a` followed by `"<pre>"`. -/
def blockPre (n : Nat) : GoString :=
  List.replicate n 97 ++ utf8 "<pre>"

/-- The text of 4000 letters `a`, then `"<pre>"`, then 200 letters `a`. -/
def midPre : GoString :=
  List.replicate 4000 97 ++ preBlock 200

/-- The text of `n` letters `я`, two bytes each in UTF-8. -/
def cyrBlock (n : Nat) : GoString :=
  (List.replicate n [0xD1, 0x8F]).flatten

/-- The function `strings.ToLower` on ASCII text: the letters `A`..`Z` become `a`..`z`. -/
def asciiToLower (s : GoString) : GoString :=
  s.map (fun b => if 65 ≤ b ∧ b ≤ 90 then b + 32 else b)

/-- A turn in which every collaborator succeeds: no chat is stored yet, the completion is the
text `"Hi!"`, the prompt saved gets the id `42`. -/
def sampleEnv : Env :=
  { ToLower := asciiToLower
    ToHTML := fun s => s
    GenerateImagePrompt := fun _ => .ok (utf8 "a fluffy cat in sunlight")
    PromptSave := fun _ => .ok 42
    ChatGet := fun _ _ => (none, some { msg := utf8 "not found", notFound := true })
    ChatSave := fun _ => none
    GenerateImage := fun _ _ => .ok [137, 80, 78, 71]
    CreateChatCompletion := fun _ =>
      (some
        { Role := utf8 "assistant"
          ContentParts := [{ PartType := domain.ContentPartTypeText, Data := utf8 "Hi!" }] },
        none)
    GetFile := fun fileID => .ok (utf8 "https://files/" ++ fileID)
    ParseURL := fun link => .ok link
    HTTPGet := fun _ => .response 200 (.ok [255, 216, 255])
    saveTempVoiceFile := fun _ => .ok (utf8 "tmp/voices/voice-1.ogg")
    ConvertToMP3 := fun _ => .ok (utf8 "tmp/voices/voice-1.mp3")
    Open := fun _ => none
    ReadAll := fun _ => .ok [73, 68, 51]
    Now := 2000000000000
    SendChunk := fun _ => none
    DeleteMessages := fun _ => none
    PromptGetByID := fun id =>
      (some { ID := id, Text := utf8 "a fluffy cat in sunlight", ImageBytes := [],
              AudioBytes := [] }, none)
    ParseDuration := fun s => if s = utf8 "1h" then .ok 3600000000000 else
      .error { msg := utf8 "time: invalid duration", notFound := false }
    DurationString := fun d => if d = 3600000000000 then utf8 "1h0m0s" else utf8 "0s" }

/-- A stored chat with two messages, last saved at time `100` with a TTL of 30 seconds. -/
def storedChat : domain.Chat :=
  { ID := 7
    TopicID := 0
    TextModel := utf8 "o3-mini"
    ImageModel := utf8 "dall-e-3"
    TTL := 30000000000
    SystemPrompt := []
    Messages :=
      [{ Role := utf8 "user"
         ContentParts := [{ PartType := domain.ContentPartTypeText, Data := utf8 "m1" }] },
       { Role := utf8 "assistant"
         ContentParts := [{ PartType := domain.ContentPartTypeText, Data := utf8 "m2" }] }]
    LastUpdate := 100 }

/-- The sample turn with `storedChat` in the repository. -/
def storedEnv : Env :=
  { sampleEnv with ChatGet := fun _ _ => (some storedChat, none) }

/-- The sample turn with a repository whose `Get` fails. -/
def brokenGetEnv : Env :=
  { sampleEnv with
    ChatGet := fun _ _ => (none, some { msg := utf8 "fetching chat: timeout", notFound := false }) }

/-- The sample turn with a completion whose text is empty. -/
def emptyReplyEnv : Env :=
  { sampleEnv with
    CreateChatCompletion := fun _ =>
      (some
        { Role := utf8 "assistant"
          ContentParts := [{ PartType := domain.ContentPartTypeText, Data := [] }] },
        none) }

/-- A text message `text` in chat `7`, with no caption, photo or voice. -/
def textUpdate (text : GoString) : models.Update :=
  { Message :=
      some
        { ChatID := 7, MessageThreadID := 0, Text := text, Caption := [], Photo := [],
          Voice := none } }

/-- A prompt with the text `text` and the image bytes `image`. -/
def samplePrompt (text : GoString) (image : List Nat) : domain.Prompt :=
  { ID := 0, Text := text, ImageBytes := image, AudioBytes := [] }

/-- A callback update with the data `data`, from a message in chat `7`; the top-level
`Message` of the update is nil. -/
def callbackUpdate (data : GoString) : models.Update :=
  { Message := none
    CallbackQuery :=
      some
        { ID := utf8 "cb-1"
          Data := data
          Message :=
            some
              { ChatID := 7, MessageThreadID := 0, Text := [], Caption := [], Photo := [],
                Voice := none } } }

/-- The sample turn with `storedChat` in the repository and a failing `DeleteMessages`. -/
def deleteFailsEnv : Env :=
  { storedEnv with
    DeleteMessages := fun _ => some { msg := utf8 "connection reset", notFound := false } }

/-- A photo message in chat `7` with the caption `caption`. -/
def photoUpdate (caption : GoString) : models.Update :=
  { Message :=
      some
        { ChatID := 7, MessageThreadID := 0, Text := [], Caption := caption,
          Photo := [{ FileID := utf8 "small" }, { FileID := utf8 "large" }], Voice := none } }

/-- The sample turn in which the download of a file is answered with the status 404. -/
def badStatusEnv : Env :=
  { sampleEnv with HTTPGet := fun _ => .response 404 (.ok []) }

/-- The sample turn in which the download of a file fails in transport. -/
def transportErrorEnv : Env :=
  { sampleEnv with
    HTTPGet := fun _ => .transportError { msg := utf8 "dial tcp: timeout", notFound := false } }

/-- The sample turn in which reading the body of a download fails. -/
def readErrorEnv : Env :=
  { sampleEnv with
    HTTPGet := fun _ =>
      .response 200 (.error { msg := utf8 "unexpected EOF", notFound := false }) }

/-- The sample turn with a completion of 5000 letters `a`, in which the send of the first
chunk of the reply fails. -/
def sendFailsEnv : Env :=
  { sampleEnv with
    CreateChatCompletion := fun _ =>
      (some
        { Role := utf8 "assistant"
          ContentParts :=
            [{ PartType := domain.ContentPartTypeText, Data := List.replicate 5000 97 }] },
        none)
    SendChunk := fun k =>
      if k = 0 then some { msg := utf8 "Bad Request", notFound := false } else none }

/-- Two providers, registered for `"dall-e-2"` and `"dall-e-3"`. -/
def sampleProviders : List (GoString × llm.ImageGenerator) :=
  [(utf8 "dall-e-2", { GenerateImage := fun _ _ => .ok [2] }),
    (utf8 "dall-e-3",
      { GenerateImage := fun _ _ => .error { msg := utf8 "quota", notFound := false } })]

/-- The sample turn with a completion whose first content part is an image part. -/
def wrongTypeEnv : Env :=
  { sampleEnv with
    CreateChatCompletion := fun _ =>
      (some
        { Role := utf8 "assistant"
          ContentParts := [{ PartType := domain.ContentPartTypeImage, Data := utf8 "img" }] },
        none) }

/-- The sample turn with a repository whose `Save` fails. -/
def saveFailsEnv : Env :=
  { sampleEnv with ChatSave := fun _ => some { msg := utf8 "disk full", notFound := false } }

/-- The sample turn with a failing completion. -/
def completionFailsEnv : Env :=
  { sampleEnv with
    CreateChatCompletion := fun _ => (none, some { msg := utf8 "rate limit", notFound := false }) }

/-- The sample turn with `storedChat` in the repository, at the last instant before the chat
expires: `now = lastUpdate + ttl`. -/
def freshEnv : Env :=
  { storedEnv with Now := 100 + 30000000000 }

/-! ## Lemmas on strings -/

theorem utf8_pre : utf8 "<pre>" = [60, 112, 114, 101, 62] := by decide

theorem utf8_newline : utf8 "\n" = [10] := by decide

theorem runeSize_pos (c : Nat) (cs : GoString) : 1 ≤ runeSize c cs := by
  unfold runeSize
  split
  · exact Nat.le_refl 1
  · split
    · exact Nat.le_refl 1
    · repeat' split
      all_goals omega

theorem runeSize_ascii (c : Nat) (cs : GoString) (h : c < 0x80) : runeSize c cs = 1 := by
  simp [runeSize, h]

theorem runeCountLoop_le_length (fuel : Nat) (s : GoString) :
    runeCountLoop fuel s ≤ s.length := by
  induction fuel generalizing s with
  | zero => simp [runeCountLoop]
  | succ n ih =>
    cases s with
    | nil => simp [runeCountLoop]
    | cons c cs =>
      have hpos := runeSize_pos c cs
      have hrec := ih ((c :: cs).drop (runeSize c cs))
      simp only [runeCountLoop, List.length_cons]
      simp only [List.length_drop, List.length_cons] at hrec
      omega

theorem RuneCountInString_le_length (s : GoString) : RuneCountInString s ≤ s.length :=
  runeCountLoop_le_length s.length s

/-- The bound on the rounds in `RuneCountInString` is never reached: a larger bound counts the
same. -/
theorem runeCountLoop_fuel (n m : Nat) (s : GoString) (hn : s.length ≤ n) (hm : s.length ≤ m) :
    runeCountLoop n s = runeCountLoop m s := by
  induction n generalizing m s with
  | zero =>
    have hs : s = [] := List.length_eq_zero.mp (Nat.le_zero.mp hn)
    subst hs
    cases m <;> simp [runeCountLoop]
  | succ n ih =>
    cases s with
    | nil => cases m <;> simp [runeCountLoop]
    | cons c cs =>
      cases m with
      | zero => simp at hm
      | succ m =>
        have hpos := runeSize_pos c cs
        simp only [runeCountLoop]
        simp only [List.length_cons] at hn hm
        rw [ih m ((c :: cs).drop (runeSize c cs))]
        · simp only [List.length_drop, List.length_cons]; omega
        · simp only [List.length_drop, List.length_cons]; omega

theorem runeCountLoop_ascii (n : Nat) (s : GoString) (hn : s.length ≤ n)
    (h : ∀ b ∈ s, b < 0x80) : runeCountLoop n s = s.length := by
  induction n generalizing s with
  | zero =>
    have hs : s = [] := List.length_eq_zero.mp (Nat.le_zero.mp hn)
    subst hs
    simp [runeCountLoop]
  | succ n ih =>
    cases s with
    | nil => simp [runeCountLoop]
    | cons c cs =>
      have hc : c < 0x80 := h c (List.mem_cons_self c cs)
      simp only [List.length_cons] at hn
      simp only [runeCountLoop, runeSize_ascii c cs hc, List.drop_succ_cons, List.drop_zero,
        List.length_cons]
      rw [ih cs (by omega) (fun b hb => h b (List.mem_cons_of_mem c hb))]
      omega

theorem RuneCountInString_ascii (s : GoString) (h : ∀ b ∈ s, b < 0x80) :
    RuneCountInString s = s.length :=
  runeCountLoop_ascii s.length s (Nat.le_refl _) h

theorem occursAt_nil (sub : GoString) (i : Nat) : OccursAt sub [] i ↔ sub = [] ∧ i = 0 := by
  unfold OccursAt
  constructor
  · rintro ⟨h1, h2⟩
    simp only [List.length_nil, Nat.le_zero, Nat.add_eq_zero, List.length_eq_zero] at h2
    exact ⟨h2.2, h2.1⟩
  · rintro ⟨rfl, rfl⟩
    simp

theorem occursAt_cons_zero (sub : GoString) (c : Nat) (cs : GoString) :
    OccursAt sub (c :: cs) 0 ↔ sub <+: c :: cs := by
  unfold OccursAt
  constructor
  · intro h
    simpa using h.1
  · intro h
    exact ⟨by simpa using h, by simpa using h.length_le⟩

theorem occursAt_cons_succ (sub : GoString) (c : Nat) (cs : GoString) (i : Nat) :
    OccursAt sub (c :: cs) (i + 1) ↔ OccursAt sub cs i := by
  unfold OccursAt
  simp only [List.drop_succ_cons, List.length_cons]
  constructor
  · rintro ⟨h1, h2⟩
    exact ⟨h1, by omega⟩
  · rintro ⟨h1, h2⟩
    exact ⟨h1, by omega⟩

theorem LastIndex_ge (s sub : GoString) : -1 ≤ LastIndex s sub := by
  induction s with
  | nil => unfold LastIndex; split <;> omega
  | cons c cs ih =>
    unfold LastIndex
    simp only
    split
    · omega
    · split <;> omega

theorem LastIndex_eq_neg_one (s sub : GoString) :
    LastIndex s sub = -1 ↔ ∀ i, ¬ OccursAt sub s i := by
  induction s with
  | nil =>
    unfold LastIndex
    by_cases h : sub = []
    · subst h
      simp [occursAt_nil]
    · have : sub.isPrefixOf [] = false := by
        cases sub with
        | nil => exact absurd rfl h
        | cons a t => rfl
      simp [this, occursAt_nil, h]
  | cons c cs ih =>
    have hge := LastIndex_ge cs sub
    unfold LastIndex
    simp only
    constructor
    · intro h i
      by_cases hr : LastIndex cs sub > -1
      · rw [if_pos hr] at h; omega
      · rw [if_neg hr] at h
        have hcs : LastIndex cs sub = -1 := by omega
        cases i with
        | zero =>
          rw [occursAt_cons_zero]
          intro hp
          rw [← List.isPrefixOf_iff_prefix] at hp
          simp [hp] at h
        | succ i =>
          rw [occursAt_cons_succ]
          exact (ih.mp hcs) i
    · intro h
      have hcs : LastIndex cs sub = -1 :=
        ih.mpr (fun i hi => h (i + 1) ((occursAt_cons_succ sub c cs i).mpr hi))
      have h0 : ¬ sub <+: c :: cs := fun hp => h 0 ((occursAt_cons_zero sub c cs).mpr hp)
      rw [← List.isPrefixOf_iff_prefix] at h0
      simp [hcs, h0]

theorem LastIndex_eq_natCast (s sub : GoString) (i : Nat) :
    LastIndex s sub = (i : Int) ↔ OccursAt sub s i ∧ ∀ j, OccursAt sub s j → j ≤ i := by
  induction s generalizing i with
  | nil =>
    unfold LastIndex
    by_cases h : sub = []
    · subst h
      simp only [List.isPrefixOf, if_true, occursAt_nil, true_and]
      constructor
      · intro h0
        have : i = 0 := by omega
        subst this
        exact ⟨rfl, fun j hj => by omega⟩
      · rintro ⟨rfl, _⟩
        rfl
    · have : sub.isPrefixOf [] = false := by
        cases sub with
        | nil => exact absurd rfl h
        | cons a t => rfl
      simp only [this, occursAt_nil, h, false_and]
      constructor
      · intro h0; simp at h0
      · intro h0; exact h0.elim
  | cons c cs ih =>
    have hge := LastIndex_ge cs sub
    unfold LastIndex
    simp only
    by_cases hr : LastIndex cs sub > -1
    · rw [if_pos hr]
      obtain ⟨k, hk⟩ : ∃ k : Nat, LastIndex cs sub = (k : Int) :=
        ⟨(LastIndex cs sub).toNat, by omega⟩
      have hk' := (ih k).mp hk
      rw [hk]
      constructor
      · intro h
        have hi : i = k + 1 := by omega
        subst hi
        refine ⟨(occursAt_cons_succ sub c cs k).mpr hk'.1, fun j hj => ?_⟩
        cases j with
        | zero => omega
        | succ j =>
          have := hk'.2 j ((occursAt_cons_succ sub c cs j).mp hj)
          omega
      · rintro ⟨h1, h2⟩
        have hle := h2 (k + 1) ((occursAt_cons_succ sub c cs k).mpr hk'.1)
        cases i with
        | zero => omega
        | succ i =>
          have := hk'.2 i ((occursAt_cons_succ sub c cs i).mp h1)
          have : i = k := by omega
          subst this
          push_cast
          rfl
    · rw [if_neg hr]
      have hcs : LastIndex cs sub = -1 := by omega
      have hno := (LastIndex_eq_neg_one cs sub).mp hcs
      by_cases hp : sub <+: c :: cs
      · have hp' := hp
        rw [← List.isPrefixOf_iff_prefix] at hp'
        rw [if_pos hp']
        constructor
        · intro h
          have hi : i = 0 := by omega
          subst hi
          refine ⟨(occursAt_cons_zero sub c cs).mpr hp, fun j hj => ?_⟩
          cases j with
          | zero => omega
          | succ j => exact absurd ((occursAt_cons_succ sub c cs j).mp hj) (hno j)
        · rintro ⟨h1, _⟩
          cases i with
          | zero => rfl
          | succ i => exact absurd ((occursAt_cons_succ sub c cs i).mp h1) (hno i)
      · have hp' := hp
        rw [← List.isPrefixOf_iff_prefix] at hp'
        simp only [hp']
        constructor
        · intro h; simp at h
        · rintro ⟨h1, _⟩
          cases i with
          | zero => exact absurd ((occursAt_cons_zero sub c cs).mp h1) hp
          | succ i => exact absurd ((occursAt_cons_succ sub c cs i).mp h1) (hno i)

theorem occursAt_take (sub s : GoString) (n i : Nat) (hn : n ≤ s.length) :
    OccursAt sub (s.take n) i ↔ OccursAt sub s i ∧ i + sub.length ≤ n := by
  unfold OccursAt
  rw [List.drop_take, List.prefix_take_iff, List.length_take]
  constructor
  · rintro ⟨⟨h1, h2⟩, h3⟩
    exact ⟨⟨h1, by omega⟩, by omega⟩
  · rintro ⟨⟨h1, h2⟩, h3⟩
    exact ⟨⟨h1, by omega⟩, by omega⟩

theorem LastIndex_cases (s sub : GoString) :
    LastIndex s sub = -1 ∨
      ∃ k : Nat, LastIndex s sub = (k : Int) ∧ OccursAt sub s k ∧
        ∀ j, OccursAt sub s j → j ≤ k := by
  have hge := LastIndex_ge s sub
  by_cases h : LastIndex s sub = -1
  · exact Or.inl h
  · have hk : LastIndex s sub = ((LastIndex s sub).toNat : Int) := by omega
    exact Or.inr ⟨_, hk, (LastIndex_eq_natCast s sub _).mp hk⟩

theorem LastIndex_of_not_mem (s sub : GoString) (b : Nat) (hb : b ∈ sub) (hs : b ∉ s) :
    LastIndex s sub = -1 := by
  rw [LastIndex_eq_neg_one]
  rintro i ⟨hp, _⟩
  exact hs (List.mem_of_mem_drop (hp.subset hb))

theorem sliceTo_natCast (s : GoString) (n : Nat) (h : n ≤ s.length) :
    sliceTo s (n : Int) = some (s.take n) := by
  unfold sliceTo
  rw [if_pos ⟨by omega, by omega⟩]
  simp

theorem sliceFrom_natCast (s : GoString) (n : Nat) (h : n ≤ s.length) :
    sliceFrom s (n : Int) = some (s.drop n) := by
  unfold sliceFrom
  rw [if_pos ⟨by omega, by omega⟩]
  simp

/-- Within a text of at least `maxLength` bytes the cut index exists and is a byte offset of
at most `maxLength`. -/
theorem findCutIndex_le (text : GoString) (maxLength : Nat) (h : maxLength ≤ text.length) :
    ∃ cut : Nat, findCutIndex text maxLength = some (cut : Int) ∧ cut ≤ maxLength := by
  unfold findCutIndex
  rw [sliceTo_natCast text maxLength h]
  simp only
  have hlen : (text.take maxLength).length = maxLength := by
    rw [List.length_take]; omega
  rcases LastIndex_cases (text.take maxLength) (utf8 "<pre>") with h1 | ⟨k, hk, hocc, _⟩
  · rcases LastIndex_cases (text.take maxLength) (utf8 "\n") with h2 | ⟨k, hk, hocc, _⟩
    · refine ⟨maxLength, ?_, Nat.le_refl _⟩
      rw [h1, h2]
      simp
    · refine ⟨k, ?_, ?_⟩
      · rw [h1, hk]
        have : (k : Int) > -1 := by omega
        simp [this]
      · have := hocc.2
        omega
  · refine ⟨k, ?_, ?_⟩
    · rw [hk]
      have : (k : Int) > -1 := by omega
      simp [this]
    · have := hocc.2
      omega

/-! ## The chunking loop -/

theorem htmlTexts_append (a b : List Event) : htmlTexts (a ++ b) = htmlTexts a ++ htmlTexts b := by
  simp [htmlTexts, List.filterMap_append]

theorem htmlTexts_htmlMessage (chatID topicID : Int) (text : GoString) (rest : List Event) :
    htmlTexts (htmlMessage chatID topicID text :: rest) = text :: htmlTexts rest := by
  simp [htmlTexts, htmlMessage, Event.htmlText, List.filterMap_cons]

theorem htmlTexts_plainMessage (chatID topicID : Int) (text : GoString) (rest : List Event) :
    htmlTexts (plainMessage chatID topicID text :: rest) = htmlTexts rest := by
  have h : ([] : GoString) ≠ models.ParseModeHTML := by decide
  simp [htmlTexts, plainMessage, Event.htmlText, List.filterMap_cons, h]

theorem htmlTexts_sleep (rest : List Event) : htmlTexts (Event.sleep :: rest) = htmlTexts rest := by
  simp [htmlTexts, Event.htmlText, List.filterMap_cons]

theorem htmlTexts_afterChunk (env : Env) (chatID topicID : Int) (k : Nat) :
    htmlTexts (afterChunk env chatID topicID k) = [] := by
  unfold afterChunk
  cases env.SendChunk k <;> simp only [htmlTexts_plainMessage, htmlTexts_sleep] <;> rfl

/-- One round of the loop on a text of more than 4096 runes: the cut index is a byte offset of at
most 4096, the chunk is the text before it and the loop goes on with the text from it on. -/
theorem chunkLoop_step (env : Env) (chatID topicID : Int) (fuel k : Nat) (s : GoString)
    (h : maxTelegramMessageLength < RuneCountInString s) :
    ∃ cut : Nat, cut ≤ maxTelegramMessageLength ∧
      findCutIndex s maxTelegramMessageLength = some (cut : Int) ∧
      chunkLoop env chatID topicID (fuel + 1) k s =
        Run.after (htmlMessage chatID topicID (s.take cut) :: afterChunk env chatID topicID k)
          (chunkLoop env chatID topicID fuel (k + 1) (s.drop cut)) := by
  have hlen := RuneCountInString_le_length s
  have hne : s ≠ [] := by
    rintro rfl
    simp [RuneCountInString, runeCountLoop] at h
  obtain ⟨cut, hcut, hle⟩ := findCutIndex_le s maxTelegramMessageLength (by omega)
  refine ⟨cut, hle, hcut, ?_⟩
  rw [chunkLoop, if_neg hne, if_neg (by omega), hcut]
  simp only [sliceTo_natCast s cut (by omega), sliceFrom_natCast s cut (by omega)]

theorem Run.after_trace (evs : List Event) (r : Run) : (Run.after evs r).trace = evs ++ r.trace :=
  rfl

theorem Run.after_status (evs : List Event) (r : Run) : (Run.after evs r).status = r.status :=
  rfl

/-- The loop never panics, and every chunk it sends has at most 4096 runes. -/
theorem chunkLoop_safe (env : Env) (chatID topicID : Int) (fuel k : Nat) (s : GoString) :
    (chunkLoop env chatID topicID fuel k s).status ≠ .panicked ∧
      ∀ x ∈ htmlTexts (chunkLoop env chatID topicID fuel k s).trace,
        RuneCountInString x ≤ maxTelegramMessageLength := by
  induction fuel generalizing k s with
  | zero =>
    unfold chunkLoop
    split <;> simp [htmlTexts]
  | succ n ih =>
    by_cases hne : s = []
    · subst hne
      simp [chunkLoop, htmlTexts]
    · by_cases hshort : RuneCountInString s ≤ maxTelegramMessageLength
      · rw [chunkLoop, if_neg hne, if_pos hshort]
        refine ⟨by simp, fun x hx => ?_⟩
        rw [htmlTexts_htmlMessage] at hx
        simp only [htmlTexts, List.filterMap_nil, List.mem_singleton] at hx
        rw [hx]
        exact hshort
      · obtain ⟨cut, hcut, _, hstep⟩ :=
          chunkLoop_step env chatID topicID n k s (Nat.lt_of_not_le hshort)
        rw [hstep, Run.after_status, Run.after_trace]
        refine ⟨(ih (k + 1) (s.drop cut)).1, fun x hx => ?_⟩
        rw [List.cons_append, htmlTexts_htmlMessage, htmlTexts_append, htmlTexts_afterChunk,
          List.nil_append, List.mem_cons] at hx
        rcases hx with hx | hx
        · rw [hx]
          have h1 := RuneCountInString_le_length (s.take cut)
          have h2 := List.length_take_le cut s
          omega
        · exact (ih (k + 1) (s.drop cut)).2 x hx

/-- A text of more than 4096 runes whose cut index is `0` is never consumed: whatever the number
of rounds, the loop is still running, and every chunk sent so far is empty. -/
theorem chunkLoop_stuck (env : Env) (chatID topicID : Int) (s : GoString)
    (hlong : maxTelegramMessageLength < RuneCountInString s)
    (hcut : findCutIndex s maxTelegramMessageLength = some 0) (fuel k : Nat) :
    (chunkLoop env chatID topicID fuel k s).status = .running ∧
      htmlTexts (chunkLoop env chatID topicID fuel k s).trace = List.replicate fuel [] := by
  have hne : s ≠ [] := by
    rintro rfl
    simp [RuneCountInString, runeCountLoop] at hlong
  induction fuel generalizing k with
  | zero => simp [chunkLoop, hne, htmlTexts]
  | succ n ih =>
    obtain ⟨cut, _, hcut', hstep⟩ := chunkLoop_step env chatID topicID n k s hlong
    have h0 : cut = 0 := by
      rw [hcut] at hcut'
      have := Option.some.inj hcut'
      omega
    subst h0
    rw [hstep, Run.after_status, Run.after_trace, List.cons_append, htmlTexts_htmlMessage,
      htmlTexts_append, htmlTexts_afterChunk, List.nil_append, List.drop_zero, List.take_zero]
    exact ⟨(ih (k + 1)).1, by rw [(ih (k + 1)).2, List.replicate_succ]⟩

theorem preBlock_ascii (n : Nat) : ∀ b ∈ preBlock n, b < 0x80 := by
  intro b hb
  simp only [preBlock, utf8_pre, List.mem_append, List.mem_cons, List.mem_replicate,
    List.mem_singleton, List.not_mem_nil, or_false] at hb
  omega

theorem preBlock_length (n : Nat) : (preBlock n).length = n + 5 := by
  simp only [preBlock, utf8_pre, List.length_append, List.length_replicate, List.length_cons,
    List.length_nil]
  omega

theorem findCutIndex_preBlock (n : Nat) (hn : 4091 ≤ n) :
    findCutIndex (preBlock n) maxTelegramMessageLength = some 0 := by
  have hlen := preBlock_length n
  have h0 : LastIndex ((preBlock n).take maxTelegramMessageLength) (utf8 "<pre>") =
      ((0 : Nat) : Int) := by
    rw [LastIndex_eq_natCast]
    constructor
    · rw [occursAt_take _ _ _ _ (by simp only [maxTelegramMessageLength]; omega)]
      refine ⟨⟨?_, ?_⟩, ?_⟩
      · simp [preBlock]
      · simp only [utf8_pre, List.length_cons, List.length_nil]; omega
      · simp only [utf8_pre, List.length_cons, List.length_nil, maxTelegramMessageLength]
        omega
    · intro j hj
      rw [occursAt_take _ _ _ _ (by simp only [maxTelegramMessageLength]; omega)] at hj
      cases j with
      | zero => exact Nat.le_refl 0
      | succ j =>
        exfalso
        have h1 := hj.1.1
        simp only [preBlock, utf8_pre, List.cons_append, List.drop_succ_cons] at h1
        have hmem : 60 ∈ List.drop j ([112, 114, 101, 62] ++ List.replicate n 97) :=
          h1.subset (List.mem_cons_self _ _)
        have hmem' := List.mem_of_mem_drop hmem
        simp only [List.nil_append, List.mem_cons, List.mem_replicate, List.cons_append] at hmem'
        omega
  unfold findCutIndex
  rw [sliceTo_natCast _ _ (by simp only [maxTelegramMessageLength]; omega)]
  simp only [h0]
  rfl

theorem RuneCountInString_preBlock (n : Nat) : RuneCountInString (preBlock n) = n + 5 := by
  rw [RuneCountInString_ascii _ (preBlock_ascii n), preBlock_length]

theorem findCutIndex_congr (s t : GoString) (n : Nat) (hs : n ≤ s.length) (ht : n ≤ t.length)
    (h : s.take n = t.take n) : findCutIndex s n = findCutIndex t n := by
  unfold findCutIndex
  rw [sliceTo_natCast s n hs, sliceTo_natCast t n ht, h]

theorem codeBlock_ascii (n : Nat) : ∀ b ∈ codeBlock n, b < 0x80 := by
  intro b hb
  rw [codeBlock, List.mem_append] at hb
  rcases hb with hb | hb
  · exact preBlock_ascii n b hb
  · have hclose : utf8 "</pre>" = [60, 47, 112, 114, 101, 62] := by decide
    rw [hclose] at hb
    simp only [List.mem_cons, List.mem_singleton, List.not_mem_nil, or_false] at hb
    omega

theorem codeBlock_length (n : Nat) : (codeBlock n).length = n + 11 := by
  have hclose : (utf8 "</pre>").length = 6 := by decide
  rw [codeBlock, List.length_append, preBlock_length, hclose]

theorem RuneCountInString_codeBlock (n : Nat) : RuneCountInString (codeBlock n) = n + 11 := by
  rw [RuneCountInString_ascii _ (codeBlock_ascii n), codeBlock_length]

theorem findCutIndex_codeBlock (n : Nat) (hn : 4091 ≤ n) :
    findCutIndex (codeBlock n) maxTelegramMessageLength = some 0 := by
  have h1 := preBlock_length n
  have h2 := codeBlock_length n
  rw [← findCutIndex_preBlock n hn]
  apply findCutIndex_congr
  · simp only [maxTelegramMessageLength]; omega
  · simp only [maxTelegramMessageLength]; omega
  · rw [codeBlock, List.take_append_of_le_length (by simp only [maxTelegramMessageLength]; omega)]

theorem newlineBlock_ascii (n : Nat) : ∀ b ∈ newlineBlock n, b < 0x80 := by
  intro b hb
  simp only [newlineBlock, utf8_newline, List.mem_append, List.mem_cons, List.mem_replicate,
    List.mem_singleton, List.not_mem_nil, or_false] at hb
  omega

theorem newlineBlock_length (n : Nat) : (newlineBlock n).length = n + 1 := by
  simp only [newlineBlock, utf8_newline, List.length_append, List.length_replicate,
    List.length_cons, List.length_nil]
  omega

theorem RuneCountInString_newlineBlock (n : Nat) :
    RuneCountInString (newlineBlock n) = n + 1 := by
  rw [RuneCountInString_ascii _ (newlineBlock_ascii n), newlineBlock_length]

theorem findCutIndex_newlineBlock (n : Nat) (hn : 4095 ≤ n) :
    findCutIndex (newlineBlock n) maxTelegramMessageLength = some 0 := by
  have hlen := newlineBlock_length n
  have hpre : LastIndex ((newlineBlock n).take maxTelegramMessageLength) (utf8 "<pre>")
      = -1 := by
    apply LastIndex_of_not_mem _ _ 60 (by rw [utf8_pre]; exact List.mem_cons_self _ _)
    intro hmem
    have hmem' := List.mem_of_mem_take hmem
    simp only [newlineBlock, utf8_newline, List.mem_append, List.mem_cons, List.mem_replicate,
      List.mem_singleton, List.not_mem_nil, or_false] at hmem'
    omega
  have h0 : LastIndex ((newlineBlock n).take maxTelegramMessageLength) (utf8 "\n") =
      ((0 : Nat) : Int) := by
    rw [LastIndex_eq_natCast]
    constructor
    · rw [occursAt_take _ _ _ _ (by simp only [maxTelegramMessageLength]; omega)]
      refine ⟨⟨?_, ?_⟩, ?_⟩
      · simp [newlineBlock]
      · simp only [utf8_newline, List.length_cons, List.length_nil]; omega
      · simp only [utf8_newline, List.length_cons, List.length_nil, maxTelegramMessageLength]
        omega
    · intro j hj
      rw [occursAt_take _ _ _ _ (by simp only [maxTelegramMessageLength]; omega)] at hj
      cases j with
      | zero => exact Nat.le_refl 0
      | succ j =>
        exfalso
        have h1 := hj.1.1
        simp only [newlineBlock, utf8_newline, List.cons_append, List.drop_succ_cons,
          List.nil_append] at h1
        have hmem : 10 ∈ List.drop j (List.replicate n 97) :=
          h1.subset (List.mem_cons_self _ _)
        have hmem' := List.mem_of_mem_drop hmem
        simp only [List.mem_replicate] at hmem'
        omega
  unfold findCutIndex
  rw [sliceTo_natCast _ _ (by simp only [maxTelegramMessageLength]; omega)]
  simp only [hpre, h0]
  rfl

theorem cyrBlock_succ (n : Nat) : cyrBlock (n + 1) = 0xD1 :: 0x8F :: cyrBlock n := by
  simp [cyrBlock, List.replicate_succ]

theorem cyrBlock_length (n : Nat) : (cyrBlock n).length = 2 * n := by
  induction n with
  | zero => rfl
  | succ n ih =>
    rw [cyrBlock_succ, List.length_cons, List.length_cons, ih]
    omega

theorem cyrBlock_mem (n b : Nat) (h : b ∈ cyrBlock n) : b = 0xD1 ∨ b = 0x8F := by
  induction n with
  | zero => simp [cyrBlock] at h
  | succ n ih =>
    rw [cyrBlock_succ, List.mem_cons, List.mem_cons] at h
    rcases h with h | h | h
    · exact Or.inl h
    · exact Or.inr h
    · exact ih h

theorem runeCountLoop_cyrBlock (n fuel : Nat) (h : n ≤ fuel) :
    runeCountLoop fuel (cyrBlock n) = n := by
  induction n generalizing fuel with
  | zero => cases fuel <;> rfl
  | succ n ih =>
    cases fuel with
    | zero => omega
    | succ fuel =>
      rw [cyrBlock_succ, runeCountLoop]
      have hsize : runeSize 0xD1 (0x8F :: cyrBlock n) = 2 := by
        simp [runeSize, first]
        omega
      rw [hsize, List.drop_succ_cons, List.drop_succ_cons, List.drop_zero, ih fuel (by omega)]
      omega

theorem RuneCountInString_cyrBlock (n : Nat) : RuneCountInString (cyrBlock n) = n := by
  unfold RuneCountInString
  rw [cyrBlock_length]
  exact runeCountLoop_cyrBlock n (2 * n) (by omega)

theorem take_cyrBlock (k m : Nat) : (cyrBlock (k + m)).take (2 * k) = cyrBlock k := by
  induction k with
  | zero => simp [cyrBlock]
  | succ k ih =>
    rw [show k + 1 + m = (k + m) + 1 by omega, cyrBlock_succ, cyrBlock_succ,
      show 2 * (k + 1) = (2 * k + 1) + 1 by omega, List.take_succ_cons, List.take_succ_cons, ih]

/-- The cut index is a byte offset: in the text of 4097 letters `я` (two bytes each), with no
`"<pre>"` and no newline, the cut index is 4096 bytes, and the text before it has 2048 runes. -/
theorem findCutIndex_cyrBlock :
    maxTelegramMessageLength < RuneCountInString (cyrBlock 4097) ∧
      findCutIndex (cyrBlock 4097) maxTelegramMessageLength = some 4096 ∧
      RuneCountInString ((cyrBlock 4097).take 4096) = 2048 := by
  have hlen := cyrBlock_length 4097
  refine ⟨?_, ?_, ?_⟩
  · rw [RuneCountInString_cyrBlock]
    decide
  · have hpre : LastIndex ((cyrBlock 4097).take maxTelegramMessageLength) (utf8 "<pre>")
        = -1 := by
      apply LastIndex_of_not_mem _ _ 60 (by rw [utf8_pre]; exact List.mem_cons_self _ _)
      intro hmem
      have := cyrBlock_mem _ _ (List.mem_of_mem_take hmem)
      omega
    have hnl : LastIndex ((cyrBlock 4097).take maxTelegramMessageLength) (utf8 "\n") = -1 := by
      apply LastIndex_of_not_mem _ _ 10 (by rw [utf8_newline]; exact List.mem_singleton_self 10)
      intro hmem
      have := cyrBlock_mem _ _ (List.mem_of_mem_take hmem)
      omega
    unfold findCutIndex
    rw [sliceTo_natCast _ _ (by simp only [maxTelegramMessageLength]; omega)]
    simp only [hpre, hnl]
    rfl
  · rw [show (4097 : Nat) = 2048 + 2049 from rfl, show (4096 : Nat) = 2 * 2048 from rfl,
      take_cyrBlock, RuneCountInString_cyrBlock]

/-- A round on a text of more than 4096 runes whose cut index is `0` sends the empty chunk and
goes on with the same text. -/
theorem chunkLoop_stuck_step (env : Env) (chatID topicID : Int) (s : GoString)
    (hlong : maxTelegramMessageLength < RuneCountInString s)
    (hcut : findCutIndex s maxTelegramMessageLength = some 0) (fuel k : Nat) :
    chunkLoop env chatID topicID (fuel + 1) k s =
      Run.after (htmlMessage chatID topicID [] :: afterChunk env chatID topicID k)
        (chunkLoop env chatID topicID fuel (k + 1) s) := by
  obtain ⟨cut, _, hcut', hstep⟩ := chunkLoop_step env chatID topicID fuel k s hlong
  have h0 : cut = 0 := by
    rw [hcut] at hcut'
    have := Option.some.inj hcut'
    omega
  subst h0
  rw [hstep, List.take_zero, List.drop_zero]

/-- C1 (defect of the code): on the reply text `"<pre>"`, 4096 letters `a`, `"</pre>"`, a text
of 4107 runes, the chunks sent by the loop never add up to the text: after any number of rounds
every chunk sent is empty, their concatenation is empty, and the loop is still running. -/
theorem chunkLoop_codeBlock_concat (env : Env) (chatID topicID : Int) (fuel k : Nat) :
    htmlTexts (chunkLoop env chatID topicID fuel k (codeBlock 4096)).trace =
        List.replicate fuel [] ∧
      (htmlTexts (chunkLoop env chatID topicID fuel k (codeBlock 4096)).trace).flatten = [] ∧
      (htmlTexts (chunkLoop env chatID topicID fuel k (codeBlock 4096)).trace).flatten ≠
        codeBlock 4096 ∧
      (chunkLoop env chatID topicID fuel k (codeBlock 4096)).status = .running := by
  have hlong : maxTelegramMessageLength < RuneCountInString (codeBlock 4096) := by
    rw [RuneCountInString_codeBlock]
    simp only [maxTelegramMessageLength]
    omega
  have h := chunkLoop_stuck env chatID topicID (codeBlock 4096) hlong
    (findCutIndex_codeBlock 4096 (by omega)) fuel k
  have hflat : (htmlTexts (chunkLoop env chatID topicID fuel k (codeBlock 4096)).trace).flatten
      = [] := by
    rw [h.2]
    simp
  refine ⟨h.2, hflat, ?_, h.1⟩
  rw [hflat]
  intro hnil
  have hlen := codeBlock_length 4096
  rw [← hnil] at hlen
  simp at hlen

/-- C3 (defect of the code): on the reply text `"<pre>"`, 4096 letters `a`, `"</pre>"`, and on
the reply text of a newline followed by 4096 letters `a`, both longer than 4096 runes, the cut
index is `0`: a round sends the empty prefix and goes on with the same text, so the text never
shrinks and the loop is still running after any number of rounds. -/
theorem chunkLoop_codeBlock_running (env : Env) (chatID topicID : Int) (fuel k : Nat) :
    (maxTelegramMessageLength < RuneCountInString (codeBlock 4096) ∧
      findCutIndex (codeBlock 4096) maxTelegramMessageLength = some 0 ∧
      chunkLoop env chatID topicID (fuel + 1) k (codeBlock 4096) =
        Run.after (htmlMessage chatID topicID [] :: afterChunk env chatID topicID k)
          (chunkLoop env chatID topicID fuel (k + 1) (codeBlock 4096)) ∧
      (chunkLoop env chatID topicID fuel k (codeBlock 4096)).status = .running) ∧
    (maxTelegramMessageLength < RuneCountInString (newlineBlock 4096) ∧
      findCutIndex (newlineBlock 4096) maxTelegramMessageLength = some 0 ∧
      chunkLoop env chatID topicID (fuel + 1) k (newlineBlock 4096) =
        Run.after (htmlMessage chatID topicID [] :: afterChunk env chatID topicID k)
          (chunkLoop env chatID topicID fuel (k + 1) (newlineBlock 4096)) ∧
      (chunkLoop env chatID topicID fuel k (newlineBlock 4096)).status = .running) := by
  have hlong : maxTelegramMessageLength < RuneCountInString (codeBlock 4096) := by
    rw [RuneCountInString_codeBlock]
    simp only [maxTelegramMessageLength]
    omega
  have hcut := findCutIndex_codeBlock 4096 (by omega)
  have hlong' : maxTelegramMessageLength < RuneCountInString (newlineBlock 4096) := by
    rw [RuneCountInString_newlineBlock]
    simp only [maxTelegramMessageLength]
    omega
  have hcut' := findCutIndex_newlineBlock 4096 (by omega)
  exact ⟨⟨hlong, hcut, chunkLoop_stuck_step env chatID topicID _ hlong hcut fuel k,
      (chunkLoop_stuck env chatID topicID _ hlong hcut fuel k).1⟩,
    hlong', hcut', chunkLoop_stuck_step env chatID topicID _ hlong' hcut' fuel k,
    (chunkLoop_stuck env chatID topicID _ hlong' hcut' fuel k).1⟩

/-- Every message the loop sends is a chunk, with parse mode HTML and at most 4096 runes, or the
notice that follows a failed send of a chunk. -/
theorem chunkLoop_messages (env : Env) (chatID topicID : Int) (fuel k : Nat) (s : GoString) :
    ∀ p, Event.sendMessage p ∈ (chunkLoop env chatID topicID fuel k s).trace →
      (p.ParseMode = models.ParseModeHTML ∧
          RuneCountInString p.Text ≤ maxTelegramMessageLength) ∨
        (p.ParseMode = [] ∧ ∃ j err, env.SendChunk j = some err ∧
          p.Text = utf8 "❌ Не удалось сгенерировать ответ: " ++ err.msg) := by
  induction fuel generalizing k s with
  | zero =>
    intro p hp
    unfold chunkLoop at hp
    split at hp <;> simp at hp
  | succ n ih =>
    intro p hp
    by_cases hne : s = []
    · subst hne
      simp [chunkLoop] at hp
    · by_cases hshort : RuneCountInString s ≤ maxTelegramMessageLength
      · rw [chunkLoop, if_neg hne, if_pos hshort] at hp
        simp only [List.mem_singleton, htmlMessage, Event.sendMessage.injEq] at hp
        subst hp
        exact Or.inl ⟨rfl, hshort⟩
      · obtain ⟨cut, hcut, _, hstep⟩ :=
          chunkLoop_step env chatID topicID n k s (Nat.lt_of_not_le hshort)
        rw [hstep, Run.after_trace, List.cons_append, List.mem_cons, List.mem_append] at hp
        rcases hp with hp | hp | hp
        · simp only [htmlMessage, Event.sendMessage.injEq] at hp
          subst hp
          refine Or.inl ⟨rfl, ?_⟩
          have h1 := RuneCountInString_le_length (s.take cut)
          have h2 := List.length_take_le cut s
          simp only
          omega
        · unfold afterChunk at hp
          cases hsend : env.SendChunk k with
          | none =>
            rw [hsend] at hp
            simp at hp
          | some err =>
            rw [hsend] at hp
            simp only [List.mem_cons, List.mem_singleton, List.not_mem_nil, or_false,
              plainMessage, Event.sendMessage.injEq, reduceCtorEq] at hp
            subst hp
            exact Or.inr ⟨rfl, k, err, hsend, rfl⟩
        · exact ih (k + 1) _ p hp

/-- C2: whatever the reply text and the number of rounds, every chunk the loop sends has a rune
count of at most 4096; every message it sends is such a chunk, sent with parse mode HTML, or
the notice of a failed send; the loop does not panic; in particular, on a text of more than 4096
runes (where the loop calls `findCutIndex`) the slice `text[:4096]` is within bounds and
`findCutIndex` returns a cut index. -/
theorem chunkLoop_chunks_le (env : Env) (chatID topicID : Int) (fuel k : Nat) (s : GoString) :
    (∀ x ∈ htmlTexts (chunkLoop env chatID topicID fuel k s).trace,
        RuneCountInString x ≤ maxTelegramMessageLength) ∧
      (∀ p, Event.sendMessage p ∈ (chunkLoop env chatID topicID fuel k s).trace →
        (p.ParseMode = models.ParseModeHTML ∧
            RuneCountInString p.Text ≤ maxTelegramMessageLength) ∨
          (p.ParseMode = [] ∧ ∃ j err, env.SendChunk j = some err ∧
            p.Text = utf8 "❌ Не удалось сгенерировать ответ: " ++ err.msg)) ∧
      (chunkLoop env chatID topicID fuel k s).status ≠ .panicked ∧
      (maxTelegramMessageLength < RuneCountInString s →
        sliceTo s maxTelegramMessageLength = some (s.take maxTelegramMessageLength) ∧
          ∃ cut : Nat, findCutIndex s maxTelegramMessageLength = some (cut : Int)) := by
  refine ⟨(chunkLoop_safe env chatID topicID fuel k s).2,
    chunkLoop_messages env chatID topicID fuel k s,
    (chunkLoop_safe env chatID topicID fuel k s).1, fun hlong => ?_⟩
  have hlen := RuneCountInString_le_length s
  refine ⟨sliceTo_natCast s _ (by omega), ?_⟩
  obtain ⟨cut, hcut, _⟩ := findCutIndex_le s maxTelegramMessageLength (by omega)
  exact ⟨cut, hcut⟩

/-- When the loop returns, the chunks it has sent add up to the text. -/
theorem chunkLoop_concat (env : Env) (chatID topicID : Int) (fuel k : Nat) (s : GoString)
    (h : (chunkLoop env chatID topicID fuel k s).status = .returned) :
    (htmlTexts (chunkLoop env chatID topicID fuel k s).trace).flatten = s := by
  induction fuel generalizing k s with
  | zero =>
    by_cases hne : s = []
    · subst hne
      simp [chunkLoop, htmlTexts]
    · simp [chunkLoop, hne] at h
  | succ n ih =>
    by_cases hne : s = []
    · subst hne
      simp [chunkLoop, htmlTexts]
    · by_cases hshort : RuneCountInString s ≤ maxTelegramMessageLength
      · rw [chunkLoop, if_neg hne, if_pos hshort, htmlTexts_htmlMessage]
        simp [htmlTexts]
      · obtain ⟨cut, _, _, hstep⟩ :=
          chunkLoop_step env chatID topicID n k s (Nat.lt_of_not_le hshort)
        rw [hstep, Run.after_status] at h
        rw [hstep, Run.after_trace, List.cons_append, htmlTexts_htmlMessage, htmlTexts_append,
          htmlTexts_afterChunk, List.nil_append, List.flatten_cons, ih (k + 1) _ h,
          List.take_append_drop]

theorem chunkLoop_sendOrSleep (env : Env) (chatID topicID : Int) (fuel k : Nat) (s : GoString) :
    ∀ e ∈ (chunkLoop env chatID topicID fuel k s).trace, e.isSendOrSleep = true := by
  induction fuel generalizing k s with
  | zero =>
    unfold chunkLoop
    split <;> simp
  | succ n ih =>
    by_cases hne : s = []
    · subst hne
      simp [chunkLoop]
    · by_cases hshort : RuneCountInString s ≤ maxTelegramMessageLength
      · rw [chunkLoop, if_neg hne, if_pos hshort]
        simp [htmlMessage, Event.isSendOrSleep]
      · obtain ⟨cut, _, _, hstep⟩ :=
          chunkLoop_step env chatID topicID n k s (Nat.lt_of_not_le hshort)
        rw [hstep, Run.after_trace]
        intro e he
        rw [List.cons_append, List.mem_cons, List.mem_append] at he
        rcases he with he | he | he
        · rw [he]; rfl
        · unfold afterChunk at he
          cases hsend : env.SendChunk k <;> rw [hsend] at he <;>
            simp only [List.mem_cons, List.mem_singleton, List.not_mem_nil, or_false] at he
          · rw [he]; rfl
          · rcases he with he | he <;> rw [he] <;> rfl
        · exact ih (k + 1) _ e he

/-- A reply text of at most 4096 runes takes one round: one message with the whole text and
parse mode HTML when the text is not empty, and no message when it is empty. -/
theorem chunkLoop_short (env : Env) (chatID topicID : Int) (fuel k : Nat) (s : GoString)
    (h : RuneCountInString s ≤ maxTelegramMessageLength) :
    chunkLoop env chatID topicID (fuel + 1) k s =
      ⟨if s = [] then [] else [htmlMessage chatID topicID s], .returned⟩ := by
  by_cases hne : s = []
  · subst hne
    simp [chunkLoop]
  · rw [chunkLoop, if_neg hne, if_pos h, if_neg hne]

/-- The text-intent branch up to the reply: with a chat loaded, a completion `a` whose first part
is a text part, and a successful save, the run is the calls of `Get`, `CreateChatCompletion` and
`Save`, followed by the chunking loop on the formatted text. -/
theorem textIntent_reply (env : Env) (fuel : Nat) (chatID topicID : Int) (prompt : domain.Prompt)
    (chat : domain.Chat) (a : domain.Message) (part : domain.ContentPart)
    (parts : List domain.ContentPart)
    (hload : loadChat env chatID topicID = .ok chat)
    (hresp : env.CreateChatCompletion (appendUserMessage (expire env.Now chat) prompt) =
      (some a, none))
    (hparts : a.ContentParts = part :: parts)
    (htype : part.PartType = domain.ContentPartTypeText)
    (hsave : env.ChatSave
      { appendUserMessage (expire env.Now chat) prompt with
        Messages := (appendUserMessage (expire env.Now chat) prompt).Messages ++ [a] } = none) :
    textIntent env fuel chatID topicID prompt =
      Run.after
        [.chatGet chatID topicID,
          .createChatCompletion (appendUserMessage (expire env.Now chat) prompt),
          .chatSave
            { appendUserMessage (expire env.Now chat) prompt with
              Messages := (appendUserMessage (expire env.Now chat) prompt).Messages ++ [a] }]
        (chunkLoop env chatID topicID fuel 0 (env.ToHTML part.Data)) := by
  unfold textIntent
  simp only [hload, hresp, hparts, hsave, htype, ne_eq, not_true_eq_false, if_false, Run.after,
    List.cons_append, List.nil_append, List.singleton_append]

/-- C4 (amended): in a text-intent turn whose formatted reply text has at most 4096 runes, the
handler returns after sending exactly one message, with the whole text and parse mode HTML,
when the text is not empty, and after sending no message when the text is empty. -/
theorem textIntent_short_reply (env : Env) (fuel : Nat) (chatID topicID : Int)
    (prompt : domain.Prompt) (chat : domain.Chat) (a : domain.Message)
    (part : domain.ContentPart) (parts : List domain.ContentPart)
    (hload : loadChat env chatID topicID = .ok chat)
    (hresp : env.CreateChatCompletion (appendUserMessage (expire env.Now chat) prompt) =
      (some a, none))
    (hparts : a.ContentParts = part :: parts)
    (htype : part.PartType = domain.ContentPartTypeText)
    (hsave : env.ChatSave
      { appendUserMessage (expire env.Now chat) prompt with
        Messages := (appendUserMessage (expire env.Now chat) prompt).Messages ++ [a] } = none)
    (hlen : RuneCountInString (env.ToHTML part.Data) ≤ maxTelegramMessageLength) :
    (textIntent env (fuel + 1) chatID topicID prompt).status = .returned ∧
      (textIntent env (fuel + 1) chatID topicID prompt).trace.filter Event.isSendMessage =
        if env.ToHTML part.Data = [] then []
        else [htmlMessage chatID topicID (env.ToHTML part.Data)] := by
  rw [textIntent_reply env (fuel + 1) chatID topicID prompt chat a part parts hload hresp hparts
    htype hsave, chunkLoop_short env chatID topicID fuel 0 _ hlen]
  refine ⟨rfl, ?_⟩
  by_cases hne : env.ToHTML part.Data = []
  · simp [hne, Run.after, Event.isSendMessage]
  · simp [hne, Run.after, Event.isSendMessage, htmlMessage]

/-- The short reply `"Hi!"` of the sample turn is sent as one message with parse mode HTML. -/
theorem textIntent_short_reply_witness :
    (textIntent sampleEnv 1 7 0 (samplePrompt (utf8 "Hello") [])).status = .returned ∧
      (textIntent sampleEnv 1 7 0 (samplePrompt (utf8 "Hello") [])).trace.filter
          Event.isSendMessage =
        if sampleEnv.ToHTML (utf8 "Hi!") = [] then []
        else [htmlMessage 7 0 (sampleEnv.ToHTML (utf8 "Hi!"))] :=
  textIntent_short_reply sampleEnv 0 7 0 (samplePrompt (utf8 "Hello") []) (domain.NewChat 7 0)
    { Role := utf8 "assistant"
      ContentParts := [{ PartType := domain.ContentPartTypeText, Data := utf8 "Hi!" }] }
    { PartType := domain.ContentPartTypeText, Data := utf8 "Hi!" } [] rfl rfl rfl rfl rfl
    (by decide)

/-- C4 (as stated, refuted): a completion whose text is empty gives the empty reply text, of
rune count `0`, and the handler returns without sending any message. -/
theorem GenerateContent_empty_reply :
    RuneCountInString (emptyReplyEnv.ToHTML []) ≤ maxTelegramMessageLength ∧
      (GenerateContent emptyReplyEnv 1 (textUpdate (utf8 "Hello"))).status = .returned ∧
      (GenerateContent emptyReplyEnv 1 (textUpdate (utf8 "Hello"))).trace.filter
        Event.isSendMessage = [] := by
  decide

theorem occursAt_blockPre (n i : Nat) (h : OccursAt (utf8 "<pre>") (blockPre n) i) : n ≤ i := by
  by_contra hlt
  obtain ⟨m, rfl⟩ : ∃ m, n = i + (m + 1) := ⟨n - i - 1, by omega⟩
  have h1 := h.1
  rw [blockPre, List.replicate_add, List.append_assoc,
    List.drop_left' (List.length_replicate i 97), List.replicate_succ, utf8_pre,
    List.cons_append, List.cons_prefix_cons] at h1
  omega

theorem blockPre_length (n : Nat) : (blockPre n).length = n + 5 := by
  simp only [blockPre, utf8_pre, List.length_append, List.length_replicate, List.length_cons,
    List.length_nil]

theorem blockPre_ascii (n : Nat) : ∀ b ∈ blockPre n, b < 0x80 := by
  intro b hb
  simp only [blockPre, utf8_pre, List.mem_append, List.mem_cons, List.mem_replicate,
    List.mem_singleton, List.not_mem_nil, or_false] at hb
  omega

/-- C5 (as stated, refuted): in the text of 4093 letters `a` followed by `"<pre>"`, 4098 runes
that are all ASCII (so a character is a byte), `"<pre>"` starts at character 4093, within the
first 4096 characters, and the cut index is 4096. -/
theorem findCutIndex_blockPre :
    maxTelegramMessageLength < RuneCountInString (blockPre 4093) ∧
      (∀ b ∈ blockPre 4093, b < 0x80) ∧
      OccursAt (utf8 "<pre>") (blockPre 4093) 4093 ∧
      findCutIndex (blockPre 4093) maxTelegramMessageLength = some 4096 := by
  have hlen := blockPre_length 4093
  refine ⟨?_, blockPre_ascii 4093, ⟨?_, ?_⟩, ?_⟩
  · rw [RuneCountInString_ascii _ (blockPre_ascii 4093), hlen]
    simp only [maxTelegramMessageLength]
    omega
  · rw [blockPre, List.drop_left' (List.length_replicate 4093 97)]
  · rw [hlen, utf8_pre]
    simp only [List.length_cons, List.length_nil]
    omega
  · have hpre : LastIndex ((blockPre 4093).take maxTelegramMessageLength) (utf8 "<pre>")
        = -1 := by
      rw [LastIndex_eq_neg_one]
      intro i hi
      rw [occursAt_take _ _ _ _ (by simp only [maxTelegramMessageLength]; omega)] at hi
      have h1 := occursAt_blockPre 4093 i hi.1
      have h2 := hi.2
      simp only [utf8_pre, List.length_cons, List.length_nil, maxTelegramMessageLength] at h2
      omega
    have hnl : LastIndex ((blockPre 4093).take maxTelegramMessageLength) (utf8 "\n") = -1 := by
      apply LastIndex_of_not_mem _ _ 10 (by rw [utf8_newline]; exact List.mem_singleton_self 10)
      intro hmem
      have := blockPre_ascii 4093 10 (List.mem_of_mem_take hmem)
      have hmem' := List.mem_of_mem_take hmem
      simp only [blockPre, utf8_pre, List.mem_append, List.mem_cons, List.mem_replicate,
        List.mem_singleton, List.not_mem_nil, or_false] at hmem'
      omega
    unfold findCutIndex
    rw [sliceTo_natCast _ _ (by simp only [maxTelegramMessageLength]; omega)]
    simp only [hpre, hnl]
    rfl

theorem occursWithin_take (sub s : GoString) (limit i : Nat) (h : limit ≤ s.length) :
    OccursAt sub (s.take limit) i ↔ OccursWithin sub s limit i :=
  occursAt_take sub s limit i h

theorem lastWithin_of_LastIndex (sub s : GoString) (limit k : Nat) (h : limit ≤ s.length)
    (hk : LastIndex (s.take limit) sub = (k : Int)) : LastWithin sub s limit k := by
  obtain ⟨h1, h2⟩ := (LastIndex_eq_natCast _ _ _).mp hk
  exact ⟨(occursWithin_take sub s limit k h).mp h1,
    fun j hj => h2 j ((occursWithin_take sub s limit j h).mpr hj)⟩

theorem not_occursWithin_of_LastIndex (sub s : GoString) (limit : Nat) (h : limit ≤ s.length)
    (hk : LastIndex (s.take limit) sub = -1) : ¬ ∃ i, OccursWithin sub s limit i := by
  rintro ⟨i, hi⟩
  exact (LastIndex_eq_neg_one _ _).mp hk i ((occursWithin_take sub s limit i h).mpr hi)

/-- C5 (amended): for a reply text of more than 4096 runes whose first 4096 bytes are ASCII, so
that byte offsets and character offsets agree there, the cut index of `findCutIndex(text, 4096)`
is the offset of the last occurrence of `"<pre>"` that lies wholly within the first 4096
characters if there is one; otherwise the offset of the last newline within the first 4096
characters if there is one; otherwise 4096. The text before the cut has that many runes. -/
theorem findCutIndex_ascii (text : GoString)
    (hlong : maxTelegramMessageLength < RuneCountInString text)
    (hascii : ∀ b ∈ text.take maxTelegramMessageLength, b < 0x80) :
    ∃ cut : Nat, findCutIndex text maxTelegramMessageLength = some (cut : Int) ∧
      RuneCountInString (text.take cut) = cut ∧
      ((∃ i, OccursWithin (utf8 "<pre>") text maxTelegramMessageLength i) →
        LastWithin (utf8 "<pre>") text maxTelegramMessageLength cut) ∧
      ((¬ ∃ i, OccursWithin (utf8 "<pre>") text maxTelegramMessageLength i) →
        (∃ i, OccursWithin (utf8 "\n") text maxTelegramMessageLength i) →
        LastWithin (utf8 "\n") text maxTelegramMessageLength cut) ∧
      ((¬ ∃ i, OccursWithin (utf8 "<pre>") text maxTelegramMessageLength i) →
        (¬ ∃ i, OccursWithin (utf8 "\n") text maxTelegramMessageLength i) →
        cut = maxTelegramMessageLength) := by
  have hlen := RuneCountInString_le_length text
  have hle : maxTelegramMessageLength ≤ text.length := by omega
  have hrunes : ∀ cut : Nat, cut ≤ maxTelegramMessageLength →
      RuneCountInString (text.take cut) = cut := by
    intro cut hcut
    rw [RuneCountInString_ascii, List.length_take]
    · omega
    · intro b hb
      exact hascii b (List.take_subset_take_left text hcut hb)
  have hfind : findCutIndex text maxTelegramMessageLength =
      if LastIndex (text.take maxTelegramMessageLength) (utf8 "<pre>") > -1 then
        some (LastIndex (text.take maxTelegramMessageLength) (utf8 "<pre>"))
      else if LastIndex (text.take maxTelegramMessageLength) (utf8 "\n") > -1 then
        some (LastIndex (text.take maxTelegramMessageLength) (utf8 "\n"))
      else some (maxTelegramMessageLength : Int) := by
    unfold findCutIndex
    rw [sliceTo_natCast text _ hle]
  rcases LastIndex_cases (text.take maxTelegramMessageLength) (utf8 "<pre>") with
    hp | ⟨k, hk, _, _⟩
  · have hnop := not_occursWithin_of_LastIndex _ text _ hle hp
    rcases LastIndex_cases (text.take maxTelegramMessageLength) (utf8 "\n") with
      hn | ⟨k, hk, _, _⟩
    · have hnon := not_occursWithin_of_LastIndex _ text _ hle hn
      refine ⟨maxTelegramMessageLength, ?_, hrunes _ (Nat.le_refl _),
        fun h => absurd h hnop, fun _ h => absurd h hnon, fun _ _ => rfl⟩
      rw [hfind, hp, hn]
      rfl
    · have hlast := lastWithin_of_LastIndex _ text _ k hle hk
      have hbound := hlast.1.2
      refine ⟨k, ?_, hrunes k (by omega), fun h => absurd h hnop, fun _ _ => hlast,
        fun _ h => absurd ⟨k, hlast.1⟩ h⟩
      rw [hfind, hp, hk, if_neg (by omega), if_pos (by omega)]
  · have hlast := lastWithin_of_LastIndex _ text _ k hle hk
    have hbound := hlast.1.2
    refine ⟨k, ?_, hrunes k (by omega), fun _ => hlast, fun h => absurd ⟨k, hlast.1⟩ h,
      fun h => absurd ⟨k, hlast.1⟩ h⟩
    rw [hfind, hk, if_pos (by omega)]

theorem midPre_ascii : ∀ b ∈ midPre, b < 0x80 := by
  intro b hb
  rw [midPre, List.mem_append, List.mem_replicate] at hb
  rcases hb with hb | hb
  · omega
  · exact preBlock_ascii 200 b hb

theorem midPre_length : midPre.length = 4205 := by
  rw [midPre, List.length_append, List.length_replicate, preBlock_length]

/-- The cut index of the text of 4000 letters `a`, `"<pre>"` and 200 letters `a`. -/
theorem findCutIndex_ascii_witness :
    ∃ cut : Nat, findCutIndex midPre maxTelegramMessageLength = some (cut : Int) ∧
      RuneCountInString (midPre.take cut) = cut ∧
      ((∃ i, OccursWithin (utf8 "<pre>") midPre maxTelegramMessageLength i) →
        LastWithin (utf8 "<pre>") midPre maxTelegramMessageLength cut) ∧
      ((¬ ∃ i, OccursWithin (utf8 "<pre>") midPre maxTelegramMessageLength i) →
        (∃ i, OccursWithin (utf8 "\n") midPre maxTelegramMessageLength i) →
        LastWithin (utf8 "\n") midPre maxTelegramMessageLength cut) ∧
      ((¬ ∃ i, OccursWithin (utf8 "<pre>") midPre maxTelegramMessageLength i) →
        (¬ ∃ i, OccursWithin (utf8 "\n") midPre maxTelegramMessageLength i) →
        cut = maxTelegramMessageLength) :=
  findCutIndex_ascii midPre
    (by rw [RuneCountInString_ascii _ midPre_ascii, midPre_length]; decide)
    (fun b hb => midPre_ascii b (List.mem_of_mem_take hb))

/-! ## Intent classification -/

theorem Contains_iff_isInfix (s sub : GoString) : Contains s sub = true ↔ sub <:+: s := by
  unfold Contains
  rw [List.any_eq_true, List.infix_iff_prefix_suffix]
  constructor
  · rintro ⟨t, ht, hp⟩
    exact ⟨t, List.isPrefixOf_iff_prefix.mp hp, (List.mem_tails _ _).mp ht⟩
  · rintro ⟨t, hp, ht⟩
    exact ⟨t, (List.mem_tails _ _).mpr ht, List.isPrefixOf_iff_prefix.mpr hp⟩

theorem noImageCall_append (a b : List Event) :
    noImageCall (a ++ b) = (noImageCall a && noImageCall b) := by
  simp [noImageCall, List.all_append]

theorem noImageCall_cons (e : Event) (l : List Event) :
    noImageCall (e :: l) = (!e.isImageCall && noImageCall l) := by
  simp [noImageCall, List.all_cons]

theorem getImageAsBytes_noImageCall (env : Env) (link : GoString) :
    noImageCall (getImageAsBytes env link).1 = true := by
  unfold getImageAsBytes
  repeat' split
  all_goals rfl

theorem getVoiceAsMP3Bytes_noImageCall (env : Env) (link : GoString) :
    noImageCall (getVoiceAsMP3Bytes env link).1 = true := by
  have hget := getImageAsBytes_noImageCall env link
  unfold getVoiceAsMP3Bytes
  split
  next evs _ err heq =>
    rw [heq] at hget
    exact hget
  next evs voiceBytes heq =>
    rw [heq] at hget
    simp only at hget
    repeat' split
    all_goals
      simp only [noImageCall_append, hget, Bool.true_and]
      rfl

theorem ingestPhoto_noImageCall (env : Env) (m : models.Message) (prompt : domain.Prompt) :
    noImageCall (ingestPhoto env m prompt).1 = true := by
  unfold ingestPhoto
  split
  · rfl
  · split
    · rfl
    · split
      · rfl
      · next imageFileURL _ =>
        have hget := getImageAsBytes_noImageCall env imageFileURL
        split
        next evs _ err heq =>
          rw [heq] at hget
          simp only at hget
          simp only [noImageCall_cons, noImageCall_append, hget, Bool.true_and]
          rfl
        next evs data heq =>
          rw [heq] at hget
          simp only at hget
          simp only [noImageCall_cons, hget, Bool.and_true]
          rfl

theorem ingestVoice_noImageCall (env : Env) (m : models.Message) (prompt : domain.Prompt) :
    noImageCall (ingestVoice env m prompt).1 = true := by
  unfold ingestVoice
  split
  · rfl
  · split
    · rfl
    · split
      · rfl
      · next voiceFileURL _ =>
        have hget := getVoiceAsMP3Bytes_noImageCall env voiceFileURL
        split
        next evs _ err heq =>
          rw [heq] at hget
          simp only at hget
          simp only [noImageCall_cons, noImageCall_append, hget, Bool.true_and]
          rfl
        next evs data heq =>
          rw [heq] at hget
          simp only at hget
          simp only [noImageCall_cons, hget, Bool.and_true]
          rfl

theorem chunkLoop_noImageCall (env : Env) (chatID topicID : Int) (fuel k : Nat) (s : GoString) :
    noImageCall (chunkLoop env chatID topicID fuel k s).trace = true := by
  unfold noImageCall
  rw [List.all_eq_true]
  intro e he
  have h := chunkLoop_sendOrSleep env chatID topicID fuel k s e he
  cases e <;> simp [Event.isSendOrSleep] at h <;> rfl

theorem textIntent_noImageCall (env : Env) (fuel : Nat) (chatID topicID : Int)
    (prompt : domain.Prompt) : noImageCall (textIntent env fuel chatID topicID prompt).trace = true := by
  unfold textIntent
  simp only [Run.after_trace, noImageCall_append]
  split
  · next run hload =>
    unfold loadChat at hload
    split at hload
    · split at hload
      · cases hload
      · cases hload; rfl
    · cases hload
    · cases hload; rfl
  · simp only [Run.after_trace, noImageCall_append]
    split
    · rfl
    · rfl
    · split
      · rfl
      · simp only [Run.after_trace, noImageCall_append]
        split
        · rfl
        · split
          · rfl
          · simp only [chunkLoop_noImageCall]
            rfl

theorem textBranch_noImageCall (env : Env) (fuel : Nat) (m : models.Message)
    (prompt : domain.Prompt) : noImageCall (textBranch env fuel m prompt).trace = true := by
  unfold textBranch
  have hphoto := ingestPhoto_noImageCall env m prompt
  split
  next evs heq =>
    rw [heq] at hphoto
    exact hphoto
  next evs prompt1 heq =>
    rw [heq] at hphoto
    simp only at hphoto
    have hvoice := ingestVoice_noImageCall env m prompt1
    simp only [Run.after_trace, noImageCall_append, hphoto, Bool.true_and]
    split
    next evs2 heq2 =>
      rw [heq2] at hvoice
      exact hvoice
    next evs2 prompt2 heq2 =>
      rw [heq2] at hvoice
      simp only at hvoice
      simp only [Run.after_trace, noImageCall_append, hvoice, Bool.true_and,
        textIntent_noImageCall]

theorem imageIntent_first (env : Env) (chatID topicID : Int) (prompt : domain.Prompt) :
    (imageIntent env chatID topicID prompt).trace.head? =
      some (.generateImagePrompt prompt.Text) := by
  unfold imageIntent
  split <;> rfl

/-- C6: the prompt text is the message text, or the caption when the text is empty; the handler
takes the image-generation branch (its first call is `GenerateImagePrompt` on the prompt text)
when the lower-cased prompt text contains `"рисуй"` or `"draw"`, and the text-completion branch
(which makes no call of the image branch) otherwise; so a call of the image branch is made if
and only if one of the two markers occurs. -/
theorem GenerateContent_intent (env : Env) (fuel : Nat) (m : models.Message)
    (cq : Option models.CallbackQuery) :
    (CoalesceOrEmpty m.Text m.Caption = if m.Text = [] then m.Caption else m.Text) ∧
    ((∃ e ∈ (GenerateContent env fuel ⟨some m, cq⟩).trace, e.isImageCall = true) ↔
      (utf8 "рисуй" <:+: env.ToLower (CoalesceOrEmpty m.Text m.Caption) ∨
        utf8 "draw" <:+: env.ToLower (CoalesceOrEmpty m.Text m.Caption))) ∧
    ((utf8 "рисуй" <:+: env.ToLower (CoalesceOrEmpty m.Text m.Caption) ∨
        utf8 "draw" <:+: env.ToLower (CoalesceOrEmpty m.Text m.Caption)) →
      GenerateContent env fuel ⟨some m, cq⟩ =
          imageIntent env m.ChatID m.MessageThreadID
            { ID := 0, Text := CoalesceOrEmpty m.Text m.Caption, ImageBytes := [],
              AudioBytes := [] } ∧
        (GenerateContent env fuel ⟨some m, cq⟩).trace.head? =
          some (.generateImagePrompt (CoalesceOrEmpty m.Text m.Caption))) ∧
    (¬ (utf8 "рисуй" <:+: env.ToLower (CoalesceOrEmpty m.Text m.Caption) ∨
        utf8 "draw" <:+: env.ToLower (CoalesceOrEmpty m.Text m.Caption)) →
      GenerateContent env fuel ⟨some m, cq⟩ =
          textBranch env fuel m
            { ID := 0, Text := CoalesceOrEmpty m.Text m.Caption, ImageBytes := [],
              AudioBytes := [] } ∧
        noImageCall (GenerateContent env fuel ⟨some m, cq⟩).trace = true) := by
  have himage : (utf8 "рисуй" <:+: env.ToLower (CoalesceOrEmpty m.Text m.Caption) ∨
      utf8 "draw" <:+: env.ToLower (CoalesceOrEmpty m.Text m.Caption)) →
      GenerateContent env fuel ⟨some m, cq⟩ =
          imageIntent env m.ChatID m.MessageThreadID
            { ID := 0, Text := CoalesceOrEmpty m.Text m.Caption, ImageBytes := [],
              AudioBytes := [] } ∧
        (GenerateContent env fuel ⟨some m, cq⟩).trace.head? =
          some (.generateImagePrompt (CoalesceOrEmpty m.Text m.Caption)) := by
    intro h
    rw [← Contains_iff_isInfix, ← Contains_iff_isInfix, ← Bool.or_eq_true] at h
    have heq : GenerateContent env fuel ⟨some m, cq⟩ =
        imageIntent env m.ChatID m.MessageThreadID
          { ID := 0, Text := CoalesceOrEmpty m.Text m.Caption, ImageBytes := [],
            AudioBytes := [] } := by
      simp only [GenerateContent, h, if_true]
    exact ⟨heq, by rw [heq, imageIntent_first]⟩
  have htext : ¬ (utf8 "рисуй" <:+: env.ToLower (CoalesceOrEmpty m.Text m.Caption) ∨
      utf8 "draw" <:+: env.ToLower (CoalesceOrEmpty m.Text m.Caption)) →
      GenerateContent env fuel ⟨some m, cq⟩ =
          textBranch env fuel m
            { ID := 0, Text := CoalesceOrEmpty m.Text m.Caption, ImageBytes := [],
              AudioBytes := [] } ∧
        noImageCall (GenerateContent env fuel ⟨some m, cq⟩).trace = true := by
    intro h
    rw [← Contains_iff_isInfix, ← Contains_iff_isInfix, ← Bool.or_eq_true] at h
    have heq : GenerateContent env fuel ⟨some m, cq⟩ =
        textBranch env fuel m
          { ID := 0, Text := CoalesceOrEmpty m.Text m.Caption, ImageBytes := [],
            AudioBytes := [] } := by
      simp only [GenerateContent, h]
      rfl
    exact ⟨heq, by rw [heq, textBranch_noImageCall]⟩
  refine ⟨?_, ⟨?_, ?_⟩, himage, htext⟩
  · unfold CoalesceOrEmpty
    by_cases h1 : m.Text = [] <;> by_cases h2 : m.Caption = [] <;> simp [h1, h2]
  · rintro ⟨e, he, hcall⟩
    by_contra hno
    have hall := (htext hno).2
    unfold noImageCall at hall
    rw [List.all_eq_true] at hall
    have := hall e he
    simp [hcall] at this
  · intro h
    have hhead := (himage h).2
    exact ⟨_, List.mem_of_mem_head? hhead, rfl⟩

/-! ## The text-intent branch -/

theorem loadChat_found (env : Env) (chatID topicID : Int) (chat : domain.Chat)
    (hget : env.ChatGet chatID topicID = (some chat, none)) :
    loadChat env chatID topicID = .ok chat := by
  unfold loadChat
  rw [hget]

theorem loadChat_notFound (env : Env) (chatID topicID : Int) (chat : Option domain.Chat)
    (err : Error) (hget : env.ChatGet chatID topicID = (chat, some err))
    (hnf : err.notFound = true) :
    loadChat env chatID topicID = .ok (domain.NewChat chatID topicID) := by
  unfold loadChat
  rw [hget]
  simp only [hnf, if_true]

/-- With a chat loaded, the branch calls `Get`, then `CreateChatCompletion` with the chat after
the expiry check and the new user message, and makes no other call of `CreateChatCompletion`. -/
theorem textIntent_sent (env : Env) (fuel : Nat) (chatID topicID : Int) (prompt : domain.Prompt)
    (chat : domain.Chat) (hload : loadChat env chatID topicID = .ok chat) :
    ∃ rest, (textIntent env fuel chatID topicID prompt).trace =
        .chatGet chatID topicID ::
          .createChatCompletion (appendUserMessage (expire env.Now chat) prompt) :: rest ∧
      rest.filter Event.isCreateChatCompletion = [] ∧
      ((∀ a, env.CreateChatCompletion (appendUserMessage (expire env.Now chat) prompt) ≠
            (some a, none)) →
          rest.filter Event.isChatSave = []) ∧
      (∀ a, env.CreateChatCompletion (appendUserMessage (expire env.Now chat) prompt) =
            (some a, none) → a.ContentParts ≠ [] →
          rest.filter Event.isChatSave =
            [.chatSave
              { appendUserMessage (expire env.Now chat) prompt with
                Messages :=
                  (appendUserMessage (expire env.Now chat) prompt).Messages ++ [a] }]) := by
  have hloop : ∀ s, (chunkLoop env chatID topicID fuel 0 s).trace.filter
      Event.isCreateChatCompletion = [] ∧
      (chunkLoop env chatID topicID fuel 0 s).trace.filter Event.isChatSave = [] := by
    intro s
    constructor <;>
    · rw [List.filter_eq_nil_iff]
      intro e he
      have h := chunkLoop_sendOrSleep env chatID topicID fuel 0 s e he
      cases e <;> simp [Event.isSendOrSleep] at h <;> simp [Event.isCreateChatCompletion,
        Event.isChatSave]
  unfold textIntent
  simp only [hload, Run.after_trace, List.singleton_append]
  refine ⟨_, rfl, ?_, ?_, ?_⟩
  · split
    · rfl
    · rfl
    · split
      · rfl
      · simp only [Run.after_trace, List.singleton_append]
        split
        · rfl
        · split
          · rfl
          · simp only [List.filter_cons, Event.isCreateChatCompletion, (hloop _).1]
            rfl
  · intro hno
    split
    · rfl
    · rfl
    · next respMessage heq => exact absurd heq (hno respMessage)
  · intro a ha hne
    rw [ha]
    simp only
    split
    · next hp => exact absurd hp hne
    · simp only [Run.after_trace, List.singleton_append]
      split
      · rfl
      · split
        · rfl
        · simp only [List.filter_cons, Event.isChatSave, (hloop _).2]
          rfl

theorem expire_expired (now : Int) (chat : domain.Chat) (h : now > chat.LastUpdate + chat.TTL) :
    expire now chat = { chat with Messages := [] } := by
  unfold expire
  rw [if_pos h]

theorem expire_newChat (now : Int) (chatID topicID : Int) :
    (expire now (domain.NewChat chatID topicID)).Messages = [] := by
  unfold expire
  split <;> rfl

/-- C7: when `Get` returns a stored chat with `now > lastUpdate + ttl`, whatever its stored
messages, the chat passed to `CreateChatCompletion` (called once in the turn) is the stored chat
with a message list of exactly one message, of role `"user"`, built from the inbound prompt. -/
theorem textIntent_expired (env : Env) (fuel : Nat) (chatID topicID : Int)
    (prompt : domain.Prompt) (chat : domain.Chat)
    (hget : env.ChatGet chatID topicID = (some chat, none))
    (hexp : env.Now > chat.LastUpdate + chat.TTL) :
    ∃ sent rest,
      (textIntent env fuel chatID topicID prompt).trace =
          .chatGet chatID topicID :: .createChatCompletion sent :: rest ∧
        rest.filter Event.isCreateChatCompletion = [] ∧
        sent.Messages = [{ Role := utf8 "user", ContentParts := userContent prompt }] ∧
        sent =
          { chat with
            Messages := [{ Role := utf8 "user", ContentParts := userContent prompt }] } := by
  obtain ⟨rest, htrace, hone, _⟩ :=
    textIntent_sent env fuel chatID topicID prompt chat (loadChat_found env chatID topicID chat hget)
  refine ⟨_, rest, htrace, hone, ?_, ?_⟩ <;>
    rw [expire_expired env.Now chat hexp] <;> rfl

/-- The stored chat of the sample has expired: the completion request carries the new user
message only. -/
theorem textIntent_expired_witness :
    ∃ sent rest,
      (textIntent storedEnv 1 7 0 (samplePrompt (utf8 "Привет") [])).trace =
          .chatGet 7 0 :: .createChatCompletion sent :: rest ∧
        rest.filter Event.isCreateChatCompletion = [] ∧
        sent.Messages =
          [{ Role := utf8 "user"
             ContentParts := userContent (samplePrompt (utf8 "Привет") []) }] ∧
        sent =
          { storedChat with
            Messages :=
              [{ Role := utf8 "user"
                 ContentParts := userContent (samplePrompt (utf8 "Привет") []) }] } :=
  textIntent_expired storedEnv 1 7 0 (samplePrompt (utf8 "Привет") []) storedChat rfl
    (by decide)

/-- C8: in a text-intent turn with a chat loaded, the message list passed to
`CreateChatCompletion` ends with the new user message: its role is `"user"` and, for the prompt
text `t` and the image bytes `b`, its content parts are the text part of `t` when `b` is empty,
the text part of `t` then the image part when `b` and `t` are not empty, and the image part alone
when `b` is not empty and `t` is; the data of the image part is `"data:image/jpeg;base64,"`
followed by the standard base64 encoding of `b`. -/
theorem textIntent_userMessage (env : Env) (fuel : Nat) (chatID topicID : Int)
    (id : Int) (t : GoString) (b audio : List Nat) (chat : domain.Chat)
    (hload : loadChat env chatID topicID = .ok chat) :
    ∃ sent rest parts,
      (textIntent env fuel chatID topicID
          { ID := id, Text := t, ImageBytes := b, AudioBytes := audio }).trace =
          .chatGet chatID topicID :: .createChatCompletion sent :: rest ∧
        sent.Messages =
          (expire env.Now chat).Messages ++ [{ Role := utf8 "user", ContentParts := parts }] ∧
        (b = [] → parts = [{ PartType := utf8 "text", Data := t }]) ∧
        (b ≠ [] → t ≠ [] →
          parts =
            [{ PartType := utf8 "text", Data := t },
              { PartType := utf8 "image"
                Data := utf8 "data:image/jpeg;base64," ++ EncodeToString b }]) ∧
        (b ≠ [] → t = [] →
          parts =
            [{ PartType := utf8 "image"
               Data := utf8 "data:image/jpeg;base64," ++ EncodeToString b }]) := by
  obtain ⟨rest, htrace, _⟩ := textIntent_sent env fuel chatID topicID
    { ID := id, Text := t, ImageBytes := b, AudioBytes := audio } chat hload
  refine ⟨_, rest, _, htrace, rfl, ?_, ?_, ?_⟩
  · intro hb
    subst hb
    rfl
  · intro hb ht
    have hpos : b.length > 0 := List.length_pos.mpr hb
    simp only [userContent, hpos, ht, ne_eq, not_false_eq_true, if_true]
    rfl
  · intro hb ht
    have hpos : b.length > 0 := List.length_pos.mpr hb
    simp only [userContent, hpos, ht, ne_eq, not_true_eq_false, if_true, if_false]
    rfl

/-- The user message of a prompt with the text `"What is this?"` and three image bytes. -/
theorem textIntent_userMessage_witness :
    ∃ sent rest parts,
      (textIntent sampleEnv 1 7 0
          { ID := 0, Text := utf8 "What is this?", ImageBytes := [255, 216, 255],
            AudioBytes := [] }).trace =
          .chatGet 7 0 :: .createChatCompletion sent :: rest ∧
        sent.Messages =
          (expire sampleEnv.Now (domain.NewChat 7 0)).Messages ++
            [{ Role := utf8 "user", ContentParts := parts }] ∧
        (([255, 216, 255] : List Nat) = [] →
          parts = [{ PartType := utf8 "text", Data := utf8 "What is this?" }]) ∧
        (([255, 216, 255] : List Nat) ≠ [] → utf8 "What is this?" ≠ [] →
          parts =
            [{ PartType := utf8 "text", Data := utf8 "What is this?" },
              { PartType := utf8 "image"
                Data := utf8 "data:image/jpeg;base64," ++ EncodeToString [255, 216, 255] }]) ∧
        (([255, 216, 255] : List Nat) ≠ [] → utf8 "What is this?" = [] →
          parts =
            [{ PartType := utf8 "image"
               Data := utf8 "data:image/jpeg;base64," ++ EncodeToString [255, 216, 255] }]) :=
  textIntent_userMessage sampleEnv 1 7 0 0 (utf8 "What is this?") [255, 216, 255] []
    (domain.NewChat 7 0) rfl

/-- The standard base64 encoding on the test vectors of RFC 4648. -/
theorem EncodeToString_vectors :
    EncodeToString (utf8 "") = utf8 "" ∧ EncodeToString (utf8 "f") = utf8 "Zg==" ∧
      EncodeToString (utf8 "fo") = utf8 "Zm8=" ∧ EncodeToString (utf8 "foo") = utf8 "Zm9v" ∧
      EncodeToString (utf8 "foob") = utf8 "Zm9vYg==" ∧
      EncodeToString (utf8 "fooba") = utf8 "Zm9vYmE=" ∧
      EncodeToString (utf8 "foobar") = utf8 "Zm9vYmFy" := by
  decide

/-- C9: in a text-intent turn with a chat loaded in which `CreateChatCompletion` returns a
message `a` with at least one content part, `CreateChatCompletion` and `ChatRepository.Save` are
each called exactly once, and the chat saved is the chat sent with `a` appended to its message
list; when `Get` returned `ErrNotFound` (no stored chat) the saved list is the user message
followed by `a`, two messages. -/
theorem textIntent_saved (env : Env) (fuel : Nat) (chatID topicID : Int)
    (prompt : domain.Prompt) (chat : domain.Chat) (a : domain.Message)
    (hload : loadChat env chatID topicID = .ok chat)
    (hresp : env.CreateChatCompletion (appendUserMessage (expire env.Now chat) prompt) =
      (some a, none))
    (hparts : a.ContentParts ≠ []) :
    ∃ sent saved,
      (textIntent env fuel chatID topicID prompt).trace.filter Event.isCreateChatCompletion =
          [.createChatCompletion sent] ∧
        (textIntent env fuel chatID topicID prompt).trace.filter Event.isChatSave =
          [.chatSave saved] ∧
        saved = { sent with Messages := sent.Messages ++ [a] } ∧
        saved.Messages = sent.Messages ++ [a] ∧
        ((∃ c err, env.ChatGet chatID topicID = (c, some err) ∧ err.notFound = true) →
          saved.Messages = [{ Role := utf8 "user", ContentParts := userContent prompt }, a] ∧
            saved.Messages.length = 2) := by
  obtain ⟨rest, htrace, hone, _, hsave⟩ :=
    textIntent_sent env fuel chatID topicID prompt chat hload
  refine ⟨appendUserMessage (expire env.Now chat) prompt, _, ?_, ?_, rfl, rfl, ?_⟩
  · rw [htrace]
    simp only [List.filter_cons, Event.isCreateChatCompletion, hone]
    rfl
  · rw [htrace]
    simp only [List.filter_cons, Event.isChatSave, hsave a hresp hparts]
    rfl
  · rintro ⟨c, err, hget, hnf⟩
    have hnew := loadChat_notFound env chatID topicID c err hget hnf
    rw [hload] at hnew
    have hchat : chat = domain.NewChat chatID topicID := Except.ok.inj hnew
    subst hchat
    have hm : (appendUserMessage (expire env.Now (domain.NewChat chatID topicID))
        prompt).Messages = [{ Role := utf8 "user", ContentParts := userContent prompt }] := by
      simp only [appendUserMessage, expire_newChat, List.nil_append]
      rfl
    simp only [hm]
    exact ⟨rfl, rfl⟩

/-- The sample turn with no stored chat saves the user message and the completion. -/
theorem textIntent_saved_witness :
    ∃ sent saved,
      (textIntent sampleEnv 1 7 0 (samplePrompt (utf8 "Hello") [])).trace.filter
          Event.isCreateChatCompletion = [.createChatCompletion sent] ∧
        (textIntent sampleEnv 1 7 0 (samplePrompt (utf8 "Hello") [])).trace.filter
          Event.isChatSave = [.chatSave saved] ∧
        saved =
          { sent with
            Messages := sent.Messages ++
              [{ Role := utf8 "assistant"
                 ContentParts :=
                  [{ PartType := domain.ContentPartTypeText, Data := utf8 "Hi!" }] }] } ∧
        saved.Messages = sent.Messages ++
          [{ Role := utf8 "assistant"
             ContentParts := [{ PartType := domain.ContentPartTypeText, Data := utf8 "Hi!" }] }] ∧
        ((∃ c err, sampleEnv.ChatGet 7 0 = (c, some err) ∧ err.notFound = true) →
          saved.Messages =
              [{ Role := utf8 "user"
                 ContentParts := userContent (samplePrompt (utf8 "Hello") []) },
                { Role := utf8 "assistant"
                  ContentParts :=
                    [{ PartType := domain.ContentPartTypeText, Data := utf8 "Hi!" }] }] ∧
            saved.Messages.length = 2) :=
  textIntent_saved sampleEnv 1 7 0 (samplePrompt (utf8 "Hello") []) (domain.NewChat 7 0)
    { Role := utf8 "assistant"
      ContentParts := [{ PartType := domain.ContentPartTypeText, Data := utf8 "Hi!" }] }
    rfl rfl (by decide)

/-! ## The image-intent branch -/

theorem cross_isPrefix (rest : GoString) :
    utf8 "❌" <+: utf8 "❌ Не удалось получить чат: " ++ rest :=
  List.IsPrefix.trans (by decide : utf8 "❌" <+: utf8 "❌ Не удалось получить чат: ")
    (List.prefix_append _ _)

/-- C10: in an image-intent turn that has rewritten and saved the prompt, `GenerateImage` is
called once with the stored chat's `ImageModel` when `Get` returns a chat, and once with the
model `""` when `Get` returns `ErrNotFound` and no chat; on any other error of `Get` the turn
ends with the message `"❌ Не удалось получить чат: "` followed by the error, and `GenerateImage`
is not called. -/
theorem imageIntent_model (env : Env) (chatID topicID : Int) (prompt : domain.Prompt)
    (newPrompt : GoString) (id : Int)
    (hgen : env.GenerateImagePrompt prompt.Text = .ok newPrompt)
    (hsave : env.PromptSave { prompt with Text := newPrompt } = .ok id) :
    (∀ chat, env.ChatGet chatID topicID = (some chat, none) →
        (imageIntent env chatID topicID prompt).trace.filter Event.isGenerateImage =
          [.generateImage newPrompt chat.ImageModel]) ∧
      (∀ err, env.ChatGet chatID topicID = (none, some err) → err.notFound = true →
        (imageIntent env chatID topicID prompt).trace.filter Event.isGenerateImage =
          [.generateImage newPrompt []]) ∧
      (∀ chat err, env.ChatGet chatID topicID = (chat, some err) → err.notFound = false →
        imageIntent env chatID topicID prompt =
            ⟨[.generateImagePrompt prompt.Text, .promptSave { prompt with Text := newPrompt },
                .chatGet chatID topicID,
                plainMessage chatID topicID (utf8 "❌ Не удалось получить чат: " ++ err.msg)],
              .returned⟩ ∧
          utf8 "❌" <+: utf8 "❌ Не удалось получить чат: " ++ err.msg ∧
          (imageIntent env chatID topicID prompt).trace.filter Event.isGenerateImage = []) := by
  refine ⟨fun chat hget => ?_, fun err hget hnf => ?_, fun chat err hget hnf => ?_⟩
  · unfold imageIntent
    simp only [hgen, hsave, hget, Option.filter, Run.after_trace]
    split <;> rfl
  · unfold imageIntent
    simp only [hgen, hsave, hget, Option.filter, hnf, Bool.not_true, Bool.false_eq_true,
      if_false, Run.after_trace]
    split <;> rfl
  · have heq : imageIntent env chatID topicID prompt =
        ⟨[.generateImagePrompt prompt.Text, .promptSave { prompt with Text := newPrompt },
            .chatGet chatID topicID,
            plainMessage chatID topicID (utf8 "❌ Не удалось получить чат: " ++ err.msg)],
          .returned⟩ := by
      unfold imageIntent
      simp only [hgen, hsave, hget, Option.filter, hnf, Bool.not_false, if_true]
      rfl
    refine ⟨heq, cross_isPrefix err.msg, ?_⟩
    rw [heq]
    rfl

/-- The image-intent turn of the sample with a failing `Get`. -/
theorem imageIntent_model_witness :
    (∀ chat, brokenGetEnv.ChatGet 7 0 = (some chat, none) →
        (imageIntent brokenGetEnv 7 0 (samplePrompt (utf8 "draw a cat") [])).trace.filter
            Event.isGenerateImage =
          [.generateImage (utf8 "a fluffy cat in sunlight") chat.ImageModel]) ∧
      (∀ err, brokenGetEnv.ChatGet 7 0 = (none, some err) → err.notFound = true →
        (imageIntent brokenGetEnv 7 0 (samplePrompt (utf8 "draw a cat") [])).trace.filter
            Event.isGenerateImage =
          [.generateImage (utf8 "a fluffy cat in sunlight") []]) ∧
      (∀ chat err, brokenGetEnv.ChatGet 7 0 = (chat, some err) → err.notFound = false →
        imageIntent brokenGetEnv 7 0 (samplePrompt (utf8 "draw a cat") []) =
            ⟨[.generateImagePrompt (samplePrompt (utf8 "draw a cat") []).Text,
                .promptSave
                  { samplePrompt (utf8 "draw a cat") [] with
                    Text := utf8 "a fluffy cat in sunlight" },
                .chatGet 7 0,
                plainMessage 7 0 (utf8 "❌ Не удалось получить чат: " ++ err.msg)],
              .returned⟩ ∧
          utf8 "❌" <+: utf8 "❌ Не удалось получить чат: " ++ err.msg ∧
          (imageIntent brokenGetEnv 7 0 (samplePrompt (utf8 "draw a cat") [])).trace.filter
            Event.isGenerateImage = []) :=
  imageIntent_model brokenGetEnv 7 0 (samplePrompt (utf8 "draw a cat") [])
    (utf8 "a fluffy cat in sunlight") 42 rfl rfl

/-! ## `strconv.ParseInt` and the prompt id -/

theorem decimal_foldl_ge (cs : GoString) (a : Nat) :
    a ≤ cs.foldl (fun n c => n * 10 + (c - 48)) a := by
  induction cs generalizing a with
  | nil => exact Nat.le_refl a
  | cons c cs ih =>
    have := ih (a * 10 + (c - 48))
    simp only [List.foldl_cons]
    omega

theorem parseUintLoop_eq_some (cs : GoString) (n v : Nat) (hn : n ≤ maxUint64) :
    parseUintLoop cs n = some v ↔
      (∀ c ∈ cs, 48 ≤ c ∧ c ≤ 57) ∧ v = cs.foldl (fun n c => n * 10 + (c - 48)) n ∧
        v ≤ maxUint64 := by
  induction cs generalizing n with
  | nil =>
    simp only [parseUintLoop, Option.some.injEq, List.not_mem_nil, false_implies, implies_true,
      List.foldl_nil, true_and]
    constructor
    · rintro rfl
      exact ⟨rfl, hn⟩
    · rintro ⟨rfl, _⟩
      rfl
  | cons c cs ih =>
    have hge := decimal_foldl_ge cs (n * 10 + (c - 48))
    unfold parseUintLoop
    by_cases hd : 48 ≤ c ∧ c ≤ 57
    · rw [if_pos hd]
      by_cases hcut : n ≥ maxUint64 / 10 + 1
      · rw [if_pos hcut]
        simp only [maxUint64] at hcut hge ⊢
        constructor
        · intro h; cases h
        · rintro ⟨_, hv, hle⟩
          simp only [List.foldl_cons] at hv
          omega
      · rw [if_neg hcut]
        by_cases hov : n * 10 + (c - 48) > maxUint64
        · rw [if_pos hov]
          constructor
          · intro h; cases h
          · rintro ⟨_, hv, hle⟩
            simp only [List.foldl_cons] at hv
            omega
        · rw [if_neg hov, ih _ (by omega)]
          simp only [List.mem_cons, forall_eq_or_imp, List.foldl_cons, hd, and_self, true_and]
    · rw [if_neg hd]
      constructor
      · intro h; cases h
      · rintro ⟨hall, _⟩
        exact absurd (hall c (List.mem_cons_self c cs)) hd

theorem ParseUint_eq_some (s : GoString) (v : Nat) :
    ParseUint s = some v ↔ IsDecimal s ∧ v = decimalValue s ∧ v ≤ maxUint64 := by
  unfold ParseUint IsDecimal decimalValue
  by_cases hs : s = []
  · simp [hs]
  · rw [if_neg hs, parseUintLoop_eq_some s 0 v (by simp [maxUint64])]
    simp only [ne_eq, hs, not_false_eq_true, true_and, and_assoc]

theorem not_isDecimal_cons (c : Nat) (cs : GoString) (h : ¬ (48 ≤ c ∧ c ≤ 57)) :
    ¬ IsDecimal (c :: cs) :=
  fun hd => h (hd.2 c (List.mem_cons_self c cs))

/-- The function `ParseInt` succeeds exactly on the base-10 numerals of the `int64` range, with
the value of the numeral. -/
theorem ParseInt_eq_some (s : GoString) (n : Int) :
    ParseInt s = some n ↔ IsInt64Numeral s n := by
  cases s with
  | nil =>
    simp only [ParseInt, IsInt64Numeral]
    constructor
    · intro h; cases h
    · rintro (⟨digits, h | h, hd, _⟩ | ⟨digits, h, _⟩)
      · exact absurd h.symm hd.1
      · cases h
      · cases h
  | cons c cs =>
    unfold ParseInt IsInt64Numeral
    by_cases hminus : c = 45
    · subst hminus
      simp only [or_true, if_true, ne_eq, not_true_eq_false, false_and, if_false, true_and]
      constructor
      · intro h
        cases hp : ParseUint cs with
        | none => rw [hp] at h; cases h
        | some un =>
          rw [hp] at h
          simp only at h
          obtain ⟨hd, hv, _⟩ := (ParseUint_eq_some cs un).mp hp
          by_cases hbig : un > 2 ^ 63
          · rw [if_pos hbig] at h; cases h
          · rw [if_neg hbig] at h
            right
            exact ⟨cs, rfl, hd, by rw [← hv]; exact (Option.some.inj h).symm, by omega⟩
      · rintro (⟨digits, h | h, hd, _⟩ | ⟨digits, h, hd, hn, hle⟩)
        · subst h
          exact absurd hd (not_isDecimal_cons 45 cs (by omega))
        · cases h
        · cases h
          have hp : ParseUint cs = some (decimalValue cs) :=
            (ParseUint_eq_some cs _).mpr ⟨hd, rfl, by simp only [maxUint64]; omega⟩
          rw [hp]
          simp only
          rw [if_neg (by omega), hn]
    · by_cases hplus : c = 43
      · subst hplus
        simp only [true_or, if_true, ne_eq, hminus, not_false_eq_true, true_and, false_and,
          if_false]
        constructor
        · intro h
          cases hp : ParseUint cs with
          | none => rw [hp] at h; cases h
          | some un =>
            rw [hp] at h
            simp only at h
            obtain ⟨hd, hv, _⟩ := (ParseUint_eq_some cs un).mp hp
            by_cases hbig : un ≥ 2 ^ 63
            · rw [if_pos hbig] at h; cases h
            · rw [if_neg hbig] at h
              left
              exact ⟨cs, Or.inr rfl, hd, by rw [← hv]; exact (Option.some.inj h).symm, by omega⟩
        · rintro (⟨digits, h | h, hd, hn, hlt⟩ | ⟨digits, h, _⟩)
          · subst h
            exact absurd hd (not_isDecimal_cons 43 cs (by omega))
          · cases h
            have hp : ParseUint cs = some (decimalValue cs) :=
              (ParseUint_eq_some cs _).mpr ⟨hd, rfl, by simp only [maxUint64]; omega⟩
            rw [hp]
            simp only
            rw [if_neg (by omega), hn]
          · cases h
      · simp only [hplus, hminus, or_self, if_false, ne_eq, not_false_eq_true, true_and,
          false_and]
        constructor
        · intro h
          cases hp : ParseUint (c :: cs) with
          | none => rw [hp] at h; cases h
          | some un =>
            rw [hp] at h
            simp only at h
            obtain ⟨hd, hv, _⟩ := (ParseUint_eq_some (c :: cs) un).mp hp
            by_cases hbig : un ≥ 2 ^ 63
            · rw [if_pos hbig] at h; cases h
            · rw [if_neg hbig] at h
              left
              exact ⟨c :: cs, Or.inl rfl, hd, by rw [← hv]; exact (Option.some.inj h).symm,
                by omega⟩
        · rintro (⟨digits, h | h, hd, hn, hlt⟩ | ⟨digits, h, _⟩)
          · subst h
            have hp : ParseUint (c :: cs) = some (decimalValue (c :: cs)) :=
              (ParseUint_eq_some _ _).mpr ⟨hd, rfl, by simp only [maxUint64]; omega⟩
            rw [hp]
            simp only
            rw [if_neg (by omega), hn]
          · cases h
            exact absurd rfl hplus
          · cases h
            exact absurd rfl hminus

theorem digitChar_toNat (k : Nat) (h : k < 10) : (Nat.digitChar k).toNat = 48 + k := by
  interval_cases k <;> rfl

theorem toDigitsCore_digits (fuel n : Nat) (ds : List Char)
    (h : ∀ c ∈ ds, 48 ≤ c.toNat ∧ c.toNat ≤ 57) :
    ∀ c ∈ Nat.toDigitsCore 10 fuel n ds, 48 ≤ c.toNat ∧ c.toNat ≤ 57 := by
  induction fuel generalizing n ds with
  | zero => simpa [Nat.toDigitsCore] using h
  | succ fuel ih =>
    have hd := digitChar_toNat (n % 10) (Nat.mod_lt n (by omega))
    have hcons : ∀ c ∈ Nat.digitChar (n % 10) :: ds, 48 ≤ c.toNat ∧ c.toNat ≤ 57 := by
      intro c hc
      rcases List.mem_cons.mp hc with rfl | hc
      · have := Nat.mod_lt n (show 10 > 0 by omega)
        omega
      · exact h c hc
    simp only [Nat.toDigitsCore]
    split
    · exact hcons
    · exact ih (n / 10) _ hcons

theorem toDigitsCore_value (fuel n : Nat) (ds : List Char) (hf : n < fuel) :
    ((Nat.toDigitsCore 10 fuel n ds).map Char.toNat).foldl (fun n c => n * 10 + (c - 48)) 0 =
      (ds.map Char.toNat).foldl (fun n c => n * 10 + (c - 48)) n := by
  induction fuel generalizing n ds with
  | zero => omega
  | succ fuel ih =>
    have hd := digitChar_toNat (n % 10) (Nat.mod_lt n (by omega))
    simp only [Nat.toDigitsCore]
    split
    · next h0 =>
      simp only [List.map_cons, List.foldl_cons, hd]
      congr 1
      omega
    · next h0 =>
      rw [ih (n / 10) _ (by omega)]
      simp only [List.map_cons, List.foldl_cons, hd]
      congr 1
      omega

theorem toDigitsCore_ne_nil (fuel n : Nat) (ds : List Char) (h : 0 < fuel ∨ ds ≠ []) :
    Nat.toDigitsCore 10 fuel n ds ≠ [] := by
  induction fuel generalizing n ds with
  | zero =>
    rcases h with h | h
    · omega
    · simpa [Nat.toDigitsCore] using h
  | succ fuel ih =>
    simp only [Nat.toDigitsCore]
    split
    · exact List.cons_ne_nil _ _
    · exact ih _ _ (Or.inr (List.cons_ne_nil _ _))

/-- The decimal digits `strconv.Itoa` writes for a natural number form a decimal string of that
value. -/
theorem toDigits_decimal (m : Nat) :
    IsDecimal ((Nat.toDigits 10 m).map Char.toNat) ∧
      decimalValue ((Nat.toDigits 10 m).map Char.toNat) = m := by
  refine ⟨⟨?_, ?_⟩, ?_⟩
  · intro h
    exact toDigitsCore_ne_nil (m + 1) m [] (Or.inl (by omega)) (List.map_eq_nil_iff.mp h)
  · intro c hc
    obtain ⟨ch, hch, rfl⟩ := List.mem_map.mp hc
    exact toDigitsCore_digits (m + 1) m [] (by simp) ch hch
  · unfold decimalValue Nat.toDigits
    rw [toDigitsCore_value (m + 1) m [] (by omega)]
    rfl

/-- The numeral `strconv.Itoa` writes for an integer of the `int64` range is a base-10 numeral
of that integer. -/
theorem Itoa_numeral (n : Int) (hlo : -2 ^ 63 ≤ n) (hhi : n < 2 ^ 63) :
    IsInt64Numeral (Itoa n) n := by
  unfold Itoa
  by_cases hneg : n < 0
  · rw [if_pos hneg]
    right
    obtain ⟨hdec, hval⟩ := toDigits_decimal n.natAbs
    exact ⟨_, rfl, hdec, by rw [hval]; omega, by rw [hval]; omega⟩
  · rw [if_neg hneg]
    left
    obtain ⟨hdec, hval⟩ := toDigits_decimal n.toNat
    exact ⟨_, Or.inl rfl, hdec, by rw [hval]; omega, by rw [hval]; omega⟩

theorem HasPrefix_append (pre s : GoString) : HasPrefix (pre ++ s) pre = true := by
  unfold HasPrefix
  exact List.isPrefixOf_iff_prefix.mpr (List.prefix_append pre s)

theorem TrimPrefix_append (pre s : GoString) : TrimPrefix (pre ++ s) pre = s := by
  unfold TrimPrefix
  rw [HasPrefix_append, if_pos rfl, List.drop_left]

theorem HasPrefix_iff (s pre : GoString) :
    HasPrefix s pre = true ↔ ∃ rest, s = pre ++ rest := by
  unfold HasPrefix
  rw [List.isPrefixOf_iff_prefix]
  constructor
  · rintro ⟨rest, h⟩
    exact ⟨rest, h.symm⟩
  · rintro ⟨rest, h⟩
    exact ⟨rest, h.symm⟩

theorem parsePromptID_eq_ok (d : GoString) (n : Int) :
    parsePromptID d = .ok n ↔ IsInt64Numeral (TrimPrefix d domain.GenImageCallbackPrefix) n := by
  rw [← ParseInt_eq_some]
  unfold parsePromptID
  cases ParseInt (TrimPrefix d domain.GenImageCallbackPrefix) with
  | none => simp
  | some id =>
    simp only [Option.some.injEq]
    constructor
    · intro h
      exact Except.ok.inj h
    · rintro rfl
      rfl

theorem parsePromptID_Itoa (n : Int) (hlo : -2 ^ 63 ≤ n) (hhi : n < 2 ^ 63) :
    parsePromptID (utf8 "gen_image:" ++ Itoa n) = .ok n := by
  rw [parsePromptID_eq_ok]
  have h : domain.GenImageCallbackPrefix = utf8 "gen_image:" := rfl
  rw [h, TrimPrefix_append]
  exact Itoa_numeral n hlo hhi

theorem imageIntent_sendPhoto (env : Env) (chatID topicID : Int) (prompt : domain.Prompt)
    (newPrompt : GoString) (n : Int)
    (hgen : env.GenerateImagePrompt prompt.Text = .ok newPrompt)
    (hsave : env.PromptSave { prompt with Text := newPrompt } = .ok n) :
    ∀ p, Event.sendPhoto p ∈ (imageIntent env chatID topicID prompt).trace →
      p.ReplyMarkup.InlineKeyboard =
        [[{ Text := utf8 "Еще", CallbackData := utf8 "gen_image:" ++ Itoa n }]] := by
  intro p hp
  unfold imageIntent at hp
  simp only [hgen, hsave] at hp
  repeat' split at hp
  all_goals
    simp only [Run.after, plainMessage, List.cons_append, List.nil_append, List.mem_cons,
      List.mem_singleton, reduceCtorEq, false_or, or_false, Event.sendPhoto.injEq,
      List.not_mem_nil, List.mem_append] at hp <;>
    (rw [hp]; rfl)

theorem imageIntent_success (env : Env) (chatID topicID : Int) (prompt : domain.Prompt)
    (newPrompt : GoString) (n : Int) (chat : Option domain.Chat) (err : Option Error)
    (imageData : List Nat)
    (hgen : env.GenerateImagePrompt prompt.Text = .ok newPrompt)
    (hsave : env.PromptSave { prompt with Text := newPrompt } = .ok n)
    (hget : env.ChatGet chatID topicID = (chat, err))
    (herr : err.filter (fun e => !e.notFound) = none)
    (himg : env.GenerateImage newPrompt ((chat.map (fun c => c.ImageModel)).getD []) =
      .ok imageData) :
    imageIntent env chatID topicID prompt =
      ⟨[.generateImagePrompt prompt.Text, .promptSave { prompt with Text := newPrompt },
          .chatGet chatID topicID,
          .generateImage newPrompt ((chat.map (fun c => c.ImageModel)).getD []),
          .sendPhoto
            { ChatID := chatID, MessageThreadID := topicID, Photo := imageData,
              ReplyMarkup :=
                { InlineKeyboard :=
                    [[{ Text := utf8 "Еще", CallbackData := utf8 "gen_image:" ++ Itoa n }]] } }],
        .returned⟩ := by
  unfold imageIntent
  simp only [hgen, hsave, hget, herr]
  cases chat <;> simp only [Option.map, Option.getD] at himg <;> simp only [himg] <;> rfl

theorem RegenerateImage_sendPhoto (env : Env) (update : models.Update)
    (cq : models.CallbackQuery) (n : Int) (hcq : update.CallbackQuery = some cq)
    (hparse : parsePromptID cq.Data = .ok n) :
    ∀ p, Event.sendPhoto p ∈ (RegenerateImage env update).trace →
      p.ReplyMarkup.InlineKeyboard =
        [[{ Text := utf8 "Еще", CallbackData := utf8 "gen_image:" ++ Itoa n }]] := by
  intro p hp
  unfold RegenerateImage at hp
  simp only [hcq] at hp
  split at hp
  · simp at hp
  · simp only [hparse] at hp
    repeat' split at hp
    all_goals
      simp only [Run.after, Run.deferred, plainMessage, List.cons_append, List.nil_append,
        List.mem_cons, List.mem_singleton, reduceCtorEq, false_or, or_false,
        Event.sendPhoto.injEq, List.not_mem_nil, List.mem_append] at hp <;>
      (rw [hp]; rfl)

theorem RegenerateImage_success (env : Env) (update : models.Update)
    (cq : models.CallbackQuery) (cm : models.Message) (n : Int) (prompt : domain.Prompt)
    (chat : Option domain.Chat) (err : Option Error) (imageData : List Nat)
    (hcq : update.CallbackQuery = some cq) (hcm : cq.Message = some cm)
    (hparse : parsePromptID cq.Data = .ok n)
    (hprompt : env.PromptGetByID n = (some prompt, none))
    (hget : env.ChatGet cm.ChatID cm.MessageThreadID = (chat, err))
    (herr : err.filter (fun e => !e.notFound) = none)
    (himg : env.GenerateImage prompt.Text ((chat.map (fun c => c.ImageModel)).getD []) =
      .ok imageData) :
    RegenerateImage env update =
      ⟨[.promptGetByID n, .chatGet cm.ChatID cm.MessageThreadID,
          .generateImage prompt.Text ((chat.map (fun c => c.ImageModel)).getD []),
          .sendPhoto
            { ChatID := cm.ChatID, MessageThreadID := cm.MessageThreadID, Photo := imageData,
              ReplyMarkup :=
                { InlineKeyboard :=
                    [[{ Text := utf8 "Еще", CallbackData := utf8 "gen_image:" ++ Itoa n }]] } },
          .answerCallbackQuery cq.ID],
        .returned⟩ := by
  unfold RegenerateImage
  simp only [hcq, hcm, hparse, hprompt, hget, herr]
  cases chat <;> simp only [Option.map, Option.getD] at himg <;> simp only [himg] <;> rfl

theorem cross_append (msg rest : GoString) (h : utf8 "❌" <+: msg) :
    utf8 "❌" <+: msg ++ rest :=
  List.IsPrefix.trans h (List.prefix_append msg rest)

/-- C11: for a prompt id `n` (an `int`, so within the `int64` range) assigned by
`PromptRepository.Save`: every photo reply of the image-intent branch carries the keyboard of
one row with the one button `"Еще"` whose callback data is `"gen_image:"` followed by the
decimal form of `n`, and the branch ends with that reply when its calls succeed; `parsePromptID`
maps that callback data back to `n`; and every photo reply of `RegenerateImage` to that callback
data carries a button with the identical callback data, the handler ending with that reply when
its calls succeed. -/
theorem moreButton_roundtrip (n : Int) (hlo : -2 ^ 63 ≤ n) (hhi : n < 2 ^ 63) :
    (∀ (env : Env) (chatID topicID : Int) (prompt : domain.Prompt) (newPrompt : GoString),
        env.GenerateImagePrompt prompt.Text = .ok newPrompt →
        env.PromptSave { prompt with Text := newPrompt } = .ok n →
        (∀ p, Event.sendPhoto p ∈ (imageIntent env chatID topicID prompt).trace →
          p.ReplyMarkup.InlineKeyboard =
            [[{ Text := utf8 "Еще", CallbackData := utf8 "gen_image:" ++ Itoa n }]]) ∧
        (∀ chat err imageData, env.ChatGet chatID topicID = (chat, err) →
          err.filter (fun e => !e.notFound) = none →
          env.GenerateImage newPrompt ((chat.map (fun c => c.ImageModel)).getD []) =
            .ok imageData →
          (imageIntent env chatID topicID prompt).trace.getLast? =
            some (.sendPhoto
              { ChatID := chatID, MessageThreadID := topicID, Photo := imageData,
                ReplyMarkup :=
                  { InlineKeyboard :=
                      [[{ Text := utf8 "Еще",
                          CallbackData := utf8 "gen_image:" ++ Itoa n }]] } }))) ∧
      parsePromptID (utf8 "gen_image:" ++ Itoa n) = .ok n ∧
      (∀ (env : Env) (update : models.Update) (cq : models.CallbackQuery),
        update.CallbackQuery = some cq → cq.Data = utf8 "gen_image:" ++ Itoa n →
        (∀ p, Event.sendPhoto p ∈ (RegenerateImage env update).trace →
          p.ReplyMarkup.InlineKeyboard = [[{ Text := utf8 "Еще", CallbackData := cq.Data }]]) ∧
        (∀ cm prompt chat err imageData, cq.Message = some cm →
          env.PromptGetByID n = (some prompt, none) →
          env.ChatGet cm.ChatID cm.MessageThreadID = (chat, err) →
          err.filter (fun e => !e.notFound) = none →
          env.GenerateImage prompt.Text ((chat.map (fun c => c.ImageModel)).getD []) =
            .ok imageData →
          RegenerateImage env update =
            ⟨[.promptGetByID n, .chatGet cm.ChatID cm.MessageThreadID,
                .generateImage prompt.Text ((chat.map (fun c => c.ImageModel)).getD []),
                .sendPhoto
                  { ChatID := cm.ChatID, MessageThreadID := cm.MessageThreadID,
                    Photo := imageData,
                    ReplyMarkup :=
                      { InlineKeyboard := [[{ Text := utf8 "Еще", CallbackData := cq.Data }]] } },
                .answerCallbackQuery cq.ID],
              .returned⟩)) := by
  have hparse := parsePromptID_Itoa n hlo hhi
  refine ⟨fun env chatID topicID prompt newPrompt hgen hsave => ⟨?_, ?_⟩, hparse,
    fun env update cq hcq hdata => ⟨?_, ?_⟩⟩
  · exact imageIntent_sendPhoto env chatID topicID prompt newPrompt n hgen hsave
  · intro chat err imageData hget herr himg
    rw [imageIntent_success env chatID topicID prompt newPrompt n chat err imageData hgen hsave
      hget herr himg]
    rfl
  · rw [hdata]
    exact RegenerateImage_sendPhoto env update cq n hcq (by rw [hdata]; exact hparse)
  · intro cm prompt chat err imageData hcm hprompt hget herr himg
    rw [hdata]
    exact RegenerateImage_success env update cq cm n prompt chat err imageData hcq hcm
      (by rw [hdata]; exact hparse) hprompt hget herr himg

/-- The prompt id `42`: its button is parsed back to `42`, and the sample callback with that
button's data is answered by a photo carrying the same button. -/
theorem moreButton_roundtrip_witness :
    parsePromptID (utf8 "gen_image:" ++ Itoa 42) = .ok 42 ∧
      RegenerateImage sampleEnv (callbackUpdate (utf8 "gen_image:" ++ Itoa 42)) =
        ⟨[.promptGetByID 42, .chatGet 7 0,
            .generateImage (utf8 "a fluffy cat in sunlight") [],
            .sendPhoto
              { ChatID := 7, MessageThreadID := 0, Photo := [137, 80, 78, 71],
                ReplyMarkup :=
                  { InlineKeyboard :=
                      [[{ Text := utf8 "Еще",
                          CallbackData := utf8 "gen_image:" ++ Itoa 42 }]] } },
            .answerCallbackQuery (utf8 "cb-1")],
          .returned⟩ :=
  ⟨(moreButton_roundtrip 42 (by decide) (by decide)).2.1,
    ((moreButton_roundtrip 42 (by decide) (by decide)).2.2 sampleEnv
      (callbackUpdate (utf8 "gen_image:" ++ Itoa 42)) _ rfl rfl).2 _ _ none
      (some { msg := utf8 "not found", notFound := true }) [137, 80, 78, 71] rfl rfl rfl rfl
      rfl⟩

theorem RegenerateImage_parseError (env : Env) (update : models.Update)
    (cq : models.CallbackQuery) (cm : models.Message) (err : Error)
    (hcq : update.CallbackQuery = some cq) (hcm : cq.Message = some cm)
    (hparse : parsePromptID cq.Data = .error err) :
    RegenerateImage env update =
      ⟨[plainMessage cm.ChatID cm.MessageThreadID
          (utf8 "❌ Не удалось прочитать промпт ID: " ++ err.msg),
          .answerCallbackQuery cq.ID],
        .returned⟩ := by
  unfold RegenerateImage
  simp only [hcq, hcm, hparse]
  rfl

/-- The registration of `main.go` routes callback data to `RegenerateImage` exactly when the data
starts with `"gen_image:"`. -/
theorem RegenerateImage_routed (d : GoString) :
    CallbackHandler.RegenerateImage ∈ matchingCallbackHandlers d ↔
      ∃ promptID, d = utf8 "gen_image:" ++ promptID := by
  rw [← HasPrefix_iff]
  simp only [matchingCallbackHandlers, List.mem_map, List.mem_filter, callbackQueryDataHandlers,
    List.mem_cons, List.mem_singleton, List.not_mem_nil, or_false]
  constructor
  · rintro ⟨h, ⟨hmem, hpre⟩, hsnd⟩
    rcases hmem with hm | hm | hm | hm | hm <;> rw [hm] at hsnd hpre <;>
      first
        | exact absurd hsnd (by decide)
        | exact hpre
  · intro hpre
    exact ⟨(domain.GenImageCallbackPrefix, .RegenerateImage),
      ⟨Or.inr (Or.inr (Or.inr (Or.inr rfl))), hpre⟩, rfl⟩

/-- C12: for every callback data `d` that reaches `RegenerateImage`, which `main.go` registers
under the prefix `"gen_image:"` with `bot.MatchTypePrefix`: `parsePromptID` succeeds, with the
id `n`, exactly when `d` is `"gen_image:"` followed by a base-10 numeral of `n` (digits after an
optional sign) in the `int64` range. For every other such `d` it returns an error, and the
handler then sends one message beginning with `"❌"`, answers the callback and returns, with no
call of `GetByID` or `GenerateImage`. -/
theorem parsePromptID_routed (d : GoString)
    (hrouted : CallbackHandler.RegenerateImage ∈ matchingCallbackHandlers d) :
    (∀ n, parsePromptID d = .ok n ↔
        ∃ promptID, d = utf8 "gen_image:" ++ promptID ∧ IsInt64Numeral promptID n) ∧
      ((¬ ∃ promptID n, d = utf8 "gen_image:" ++ promptID ∧ IsInt64Numeral promptID n) →
        ∃ err, parsePromptID d = .error err ∧
          utf8 "❌" <+: utf8 "❌ Не удалось прочитать промпт ID: " ++ err.msg ∧
          ∀ (env : Env) (update : models.Update) (cq : models.CallbackQuery)
            (cm : models.Message),
            update.CallbackQuery = some cq → cq.Message = some cm → cq.Data = d →
            RegenerateImage env update =
                ⟨[plainMessage cm.ChatID cm.MessageThreadID
                    (utf8 "❌ Не удалось прочитать промпт ID: " ++ err.msg),
                    .answerCallbackQuery cq.ID],
                  .returned⟩ ∧
              (RegenerateImage env update).trace.filter Event.isStoreOrProviderCall = []) := by
  obtain ⟨rest, hd⟩ := (RegenerateImage_routed d).mp hrouted
  have hiff : ∀ n, parsePromptID d = .ok n ↔
      ∃ promptID, d = utf8 "gen_image:" ++ promptID ∧ IsInt64Numeral promptID n := by
    intro n
    have htrim : TrimPrefix d domain.GenImageCallbackPrefix = rest := by
      rw [hd]
      exact TrimPrefix_append (utf8 "gen_image:") rest
    rw [parsePromptID_eq_ok, htrim]
    constructor
    · intro hnum
      exact ⟨rest, hd, hnum⟩
    · rintro ⟨promptID, hd', hnum⟩
      have : rest = promptID := List.append_cancel_left (hd.symm.trans hd')
      rw [this]
      exact hnum
  refine ⟨hiff, fun hno => ?_⟩
  cases hp : parsePromptID d with
  | ok n =>
    obtain ⟨promptID, hd', hnum⟩ := (hiff n).mp hp
    exact absurd ⟨promptID, n, hd', hnum⟩ hno
  | error err =>
    refine ⟨err, rfl, cross_append _ err.msg (by decide), ?_⟩
    intro env update cq cm hcq hcm hdata
    have hrun := RegenerateImage_parseError env update cq cm err hcq hcm (by rw [hdata]; exact hp)
    refine ⟨hrun, ?_⟩
    rw [hrun]
    rfl

/-- The data `"gen_image:42"` is routed to the handler and parsed to `42`; the data
`"gen_image:abc"` is routed to the handler and rejected: the handler sends the error message
and answers the callback. -/
theorem parsePromptID_routed_witness :
    CallbackHandler.RegenerateImage ∈ matchingCallbackHandlers (utf8 "gen_image:42") ∧
      parsePromptID (utf8 "gen_image:42") = .ok 42 ∧
      CallbackHandler.RegenerateImage ∈ matchingCallbackHandlers (utf8 "gen_image:abc") ∧
      ∃ err, parsePromptID (utf8 "gen_image:abc") = .error err ∧
        RegenerateImage sampleEnv (callbackUpdate (utf8 "gen_image:abc")) =
          ⟨[plainMessage 7 0 (utf8 "❌ Не удалось прочитать промпт ID: " ++ err.msg),
              .answerCallbackQuery (utf8 "cb-1")],
            .returned⟩ := by
  refine ⟨by decide,
    ((parsePromptID_routed (utf8 "gen_image:42") (by decide)).1 42).mpr
      ⟨utf8 "42", rfl, Or.inl ⟨utf8 "42", Or.inl rfl, ⟨by decide, by decide⟩, by decide,
        by decide⟩⟩,
    by decide, ?_⟩
  have hbad : ¬ ∃ promptID n, utf8 "gen_image:abc" = utf8 "gen_image:" ++ promptID ∧
      IsInt64Numeral promptID n := by
    rintro ⟨promptID, n, hd, hnum⟩
    have hok := ((parsePromptID_routed (utf8 "gen_image:abc") (by decide)).1 n).mpr
      ⟨promptID, hd, hnum⟩
    have herr : parsePromptID (utf8 "gen_image:abc") =
        .error { msg := utf8 "invalid promptID: " ++ utf8 "gen_image:abc", notFound := false } :=
      rfl
    rw [herr] at hok
    exact Except.noConfusion hok
  obtain ⟨err, herr, _, hrun⟩ :=
    (parsePromptID_routed (utf8 "gen_image:abc") (by decide)).2 hbad
  exact ⟨err, herr, (hrun sampleEnv (callbackUpdate (utf8 "gen_image:abc")) _ _ rfl rfl rfl).1⟩

/-- The closure `parsePromptID` has no test of the prefix of its own: on data without
`"gen_image:"`, which the registration of `main.go` never routes to the handler,
`strings.TrimPrefix` leaves the text as it is and a bare numeral is parsed. -/
theorem parsePromptID_unrouted :
    CallbackHandler.RegenerateImage ∉ matchingCallbackHandlers (utf8 "42") ∧
      parsePromptID (utf8 "42") = .ok 42 :=
  ⟨by decide, rfl⟩

/-! ## The image client -/

/-- C13: for every provider map, prompt `p` and model name `m`: when `m` is not a key of the map,
`GenerateImage` returns an error and calls no provider; when `m` is a key, it makes exactly one
call, on the provider registered under `m` with the arguments `(p, m)`, and returns exactly that
provider's result. -/
theorem MultiProviderImageClient_GenerateImage (providers : List (GoString × llm.ImageGenerator))
    (p m : GoString) :
    (m ∉ providers.map Prod.fst →
        (llm.NewMultiProviderImageClient providers).GenerateImage p m =
          ([], .error { msg := utf8 "no provider found for model: " ++ m, notFound := false })) ∧
      (m ∈ providers.map Prod.fst →
        ∃ provider, (m, provider) ∈ providers ∧ providers.lookup m = some provider ∧
          (llm.NewMultiProviderImageClient providers).GenerateImage p m =
            ([{ key := m, prompt := p, model := m }], provider.GenerateImage p m)) := by
  constructor
  · intro hm
    have hnone : providers.lookup m = none := by
      rw [List.lookup_eq_none_iff]
      intro q hq
      simp only [bne_iff_ne, ne_eq]
      intro heq
      exact hm (List.mem_map.mpr ⟨q, hq, heq.symm⟩)
    simp only [llm.MultiProviderImageClient.GenerateImage, llm.NewMultiProviderImageClient, hnone]
  · intro hm
    cases hl : providers.lookup m with
    | none =>
      rw [List.lookup_eq_none_iff] at hl
      obtain ⟨q, hq, heq⟩ := List.mem_map.mp hm
      have := hl q hq
      simp only [bne_iff_ne, ne_eq] at this
      exact absurd heq.symm this
    | some provider =>
      refine ⟨provider, ?_, rfl, ?_⟩
      · obtain ⟨l₁, l₂, hsplit, _⟩ := List.lookup_eq_some_iff.mp hl
        rw [hsplit]
        simp
      · simp only [llm.MultiProviderImageClient.GenerateImage, llm.NewMultiProviderImageClient, hl]

/-! ## The setting handlers -/

theorem contains_eq_true_iff {α : Type} [BEq α] [LawfulBEq α] (l : List α) (a : α) :
    l.contains a = true ↔ a ∈ l := by
  simp

theorem parseTextModel_eq_ok (supported : List GoString) (d m : GoString) :
    parseTextModel supported d = .ok m ↔ d = utf8 "set_text_model:" ++ m ∧ m ∈ supported := by
  have hpre : domain.SetTextModelCallbackPrefix = utf8 "set_text_model:" := rfl
  unfold parseTextModel
  rw [hpre]
  by_cases hp : HasPrefix d (utf8 "set_text_model:") = true
  · obtain ⟨rest, rfl⟩ := (HasPrefix_iff _ _).mp hp
    simp only [hp, Bool.not_true, Bool.false_eq_true, if_false, TrimPrefix_append,
      List.append_cancel_left_eq]
    by_cases hc : supported.contains rest = true
    · rw [if_pos hc]
      have hmem : rest ∈ supported := (contains_eq_true_iff _ _).mp hc
      constructor
      · intro h
        have := Except.ok.inj h
        subst this
        exact ⟨rfl, hmem⟩
      · rintro ⟨rfl, _⟩
        rfl
    · rw [if_neg hc]
      constructor
      · intro h; cases h
      · rintro ⟨rfl, hmem⟩
        exact absurd ((contains_eq_true_iff _ _).mpr hmem) hc
  · simp only [hp, Bool.not_eq_true, Bool.not_false, if_true]
    constructor
    · intro h; cases h
    · rintro ⟨rfl, _⟩
      exact absurd (HasPrefix_append _ _) hp

theorem parseImageModel_eq_ok (supported : List GoString) (d m : GoString) :
    parseImageModel supported d = .ok m ↔ d = utf8 "set_image_model:" ++ m ∧ m ∈ supported := by
  have hpre : domain.SetImageModelCallbackPrefix = utf8 "set_image_model:" := rfl
  unfold parseImageModel
  rw [hpre]
  by_cases hp : HasPrefix d (utf8 "set_image_model:") = true
  · obtain ⟨rest, rfl⟩ := (HasPrefix_iff _ _).mp hp
    simp only [hp, Bool.not_true, Bool.false_eq_true, if_false, TrimPrefix_append,
      List.append_cancel_left_eq]
    by_cases hc : supported.contains rest = true
    · rw [if_pos hc]
      have hmem : rest ∈ supported := (contains_eq_true_iff _ _).mp hc
      constructor
      · intro h
        have := Except.ok.inj h
        subst this
        exact ⟨rfl, hmem⟩
      · rintro ⟨rfl, _⟩
        rfl
    · rw [if_neg hc]
      constructor
      · intro h; cases h
      · rintro ⟨rfl, hmem⟩
        exact absurd ((contains_eq_true_iff _ _).mpr hmem) hc
  · simp only [hp, Bool.not_eq_true, Bool.not_false, if_true]
    constructor
    · intro h; cases h
    · rintro ⟨rfl, _⟩
      exact absurd (HasPrefix_append _ _) hp

theorem SetTextModel_parseError (env : Env) (supported : List GoString) (update : models.Update)
    (cq : models.CallbackQuery) (cm : models.Message) (err : Error)
    (hcq : update.CallbackQuery = some cq) (hcm : cq.Message = some cm)
    (hparse : parseTextModel supported cq.Data = .error err) :
    SetTextModel env supported update =
      ⟨[.answerCallbackQuery cq.ID,
          plainMessage cm.ChatID cm.MessageThreadID
            (utf8 "❌ Не удалось извлечь текстовую модель: " ++ err.msg)],
        .returned⟩ := by
  unfold SetTextModel
  simp only [hcq, hcm, hparse]
  rfl

theorem SetImageModel_parseError (env : Env) (supported : List GoString)
    (update : models.Update) (cq : models.CallbackQuery) (cm : models.Message) (err : Error)
    (hcq : update.CallbackQuery = some cq) (hcm : cq.Message = some cm)
    (hparse : parseImageModel supported cq.Data = .error err) :
    SetImageModel env supported update =
      ⟨[.answerCallbackQuery cq.ID,
          plainMessage cm.ChatID cm.MessageThreadID
            (utf8 "❌ Не удалось извлечь модель изображения: " ++ err.msg)],
        .returned⟩ := by
  unfold SetImageModel
  simp only [hcq, hcm, hparse]
  rfl

/-- C14: for every callback data `d` and list `L` of supported models, `parseTextModel` and
`parseImageModel` return the model `m` if and only if `d` is the setter's prefix
(`"set_text_model:"`, `"set_image_model:"`) followed by `m` and `m` is an element of `L`. In every
other case they return an error, and the handler answers the callback, sends one message
beginning with `"❌"` and returns, with no call of `Get`, `Save` or `DeleteMessages`. -/
theorem parseModel_spec (d : GoString) (L : List GoString) :
    (∀ m, parseTextModel L d = .ok m ↔ d = utf8 "set_text_model:" ++ m ∧ m ∈ L) ∧
      (∀ m, parseImageModel L d = .ok m ↔ d = utf8 "set_image_model:" ++ m ∧ m ∈ L) ∧
      (∀ (env : Env) (update : models.Update) (cq : models.CallbackQuery)
        (cm : models.Message),
        update.CallbackQuery = some cq → cq.Message = some cm → cq.Data = d →
        (∀ m, parseTextModel L d ≠ .ok m) →
        ∃ err text, parseTextModel L d = .error err ∧ utf8 "❌" <+: text ∧
          SetTextModel env L update =
            ⟨[.answerCallbackQuery cq.ID, plainMessage cm.ChatID cm.MessageThreadID text],
              .returned⟩ ∧
          (SetTextModel env L update).trace.filter Event.isStoreOrProviderCall = []) ∧
      (∀ (env : Env) (update : models.Update) (cq : models.CallbackQuery)
        (cm : models.Message),
        update.CallbackQuery = some cq → cq.Message = some cm → cq.Data = d →
        (∀ m, parseImageModel L d ≠ .ok m) →
        ∃ err text, parseImageModel L d = .error err ∧ utf8 "❌" <+: text ∧
          SetImageModel env L update =
            ⟨[.answerCallbackQuery cq.ID, plainMessage cm.ChatID cm.MessageThreadID text],
              .returned⟩ ∧
          (SetImageModel env L update).trace.filter Event.isStoreOrProviderCall = []) := by
  refine ⟨fun m => parseTextModel_eq_ok L d m, fun m => parseImageModel_eq_ok L d m,
    fun env update cq cm hcq hcm hdata hno => ?_, fun env update cq cm hcq hcm hdata hno => ?_⟩
  · cases hp : parseTextModel L d with
    | ok m => exact absurd hp (hno m)
    | error err =>
      have hrun := SetTextModel_parseError env L update cq cm err hcq hcm (by rw [hdata]; exact hp)
      refine ⟨err, _, rfl, cross_append _ err.msg (by decide), hrun, ?_⟩
      rw [hrun]
      rfl
  · cases hp : parseImageModel L d with
    | ok m => exact absurd hp (hno m)
    | error err =>
      have hrun := SetImageModel_parseError env L update cq cm err hcq hcm
        (by rw [hdata]; exact hp)
      refine ⟨err, _, rfl, cross_append _ err.msg (by decide), hrun, ?_⟩
      rw [hrun]
      rfl

theorem loadOrNew_eq_ok (env : Env) (chatID topicID : Int) (onError : Error → Run)
    (chat : domain.Chat) :
    loadOrNew env chatID topicID onError = .ok chat ↔
      chatAfterGet env chatID topicID = some chat := by
  unfold loadOrNew chatAfterGet
  split
  · next err heq =>
    rw [heq]
    simp only
    by_cases hnf : err.notFound = true
    · simp only [hnf, if_true, Option.some.injEq]
      constructor
      · intro h; exact Except.ok.inj h
      · intro h; rw [h]
    · simp only [hnf, Bool.false_eq_true, if_false]
      constructor
      · intro h; cases h
      · intro h; cases h
  · next c heq =>
    rw [heq]
    simp only [Option.some.injEq]
    constructor
    · intro h; exact Except.ok.inj h
    · intro h; rw [h]
  · next heq =>
    rw [heq]
    simp only
    constructor
    · intro h; cases h
    · intro h; cases h

theorem parseTTL_mem (env : Env) (supported : List Int) (d : GoString) (ttl : Int)
    (h : parseTTL env supported d = .ok ttl) : ttl ∈ supported := by
  unfold parseTTL at h
  split at h
  · cases h
  · split at h
    · cases h
    · next t _ =>
      split at h
      · next hc =>
        have := Except.ok.inj h
        subst this
        exact (contains_eq_true_iff supported t).mp hc
      · cases h

theorem SetTTL_chatSave (env : Env) (supported : List Int) (update : models.Update)
    (saved : domain.Chat) (h : Event.chatSave saved ∈ (SetTTL env supported update).trace) :
    ∃ cq cm ttl chat, update.CallbackQuery = some cq ∧ cq.Message = some cm ∧
      parseTTL env supported cq.Data = .ok ttl ∧
      chatAfterGet env cm.ChatID cm.MessageThreadID = some chat ∧
      saved = { chat with TTL := ttl } := by
  unfold SetTTL at h
  split at h
  · simp at h
  · next cq hcq =>
    split at h
    · simp at h
    · next cm hcm =>
      split at h
      · simp [Run.after, plainMessage] at h
      · next ttl hparse =>
        split at h
        · next run hload =>
          exfalso
          unfold loadOrNew at hload
          split at hload
          · split at hload
            · cases hload
            · have := Except.error.inj hload
              subst this
              unfold getFailedViaMessage at h
              split at h <;> simp [Run.after, plainMessage] at h
          · cases hload
          · have := Except.error.inj hload
            subst this
            simp [Run.after] at h
        · next chat hload =>
          refine ⟨cq, cm, ttl, chat, hcq, hcm, hparse, (loadOrNew_eq_ok _ _ _ _ _).mp hload, ?_⟩
          repeat' split at h
          all_goals
            simp only [Run.after, plainMessage, List.cons_append, List.nil_append, List.mem_cons,
              List.mem_singleton, reduceCtorEq, false_or, or_false, Event.chatSave.injEq,
              List.not_mem_nil] at h
            exact h

/-- C15: whatever the callback data and whatever duration its suffix parses to, a chat saved by
`SetTTL` has a `ttl` that is an element of the supported options the handler was built with;
with the options of `main.go` (30s, 15m, 1h, 8h, 24h, 168h, in nanoseconds) that `ttl` is
positive and one of the six; and the `ttl` of a default chat of `NewChat` is 15 minutes, one of
the six and positive. -/
theorem SetTTL_saves_supported (env : Env) (supported : List Int) (update : models.Update) :
    (∀ saved, Event.chatSave saved ∈ (SetTTL env supported update).trace →
        saved.TTL ∈ supported) ∧
      (∀ saved, Event.chatSave saved ∈ (SetTTL env supportedTTLOptions update).trace →
        0 < saved.TTL ∧
          saved.TTL ∈ ([30000000000, 900000000000, 3600000000000, 28800000000000,
            86400000000000, 604800000000000] : List Int)) ∧
      (∀ chatID topicID : Int,
        (domain.NewChat chatID topicID).TTL = 900000000000 ∧
          (domain.NewChat chatID topicID).TTL ∈ supportedTTLOptions ∧
          0 < (domain.NewChat chatID topicID).TTL) := by
  have hmem : ∀ (sup : List Int) saved,
      Event.chatSave saved ∈ (SetTTL env sup update).trace → saved.TTL ∈ sup := by
    intro sup saved h
    obtain ⟨cq, cm, ttl, chat, _, _, hparse, _, hsaved⟩ := SetTTL_chatSave env sup update saved h
    rw [hsaved]
    exact parseTTL_mem env sup cq.Data ttl hparse
  refine ⟨hmem supported, fun saved h => ?_, fun chatID topicID => ?_⟩
  · have h1 := hmem supportedTTLOptions saved h
    have hlist : supportedTTLOptions = [30000000000, 900000000000, 3600000000000,
        28800000000000, 86400000000000, 604800000000000] := by decide
    rw [hlist] at h1
    refine ⟨?_, h1⟩
    simp only [List.mem_cons, List.mem_singleton, List.not_mem_nil, or_false] at h1
    omega
  · have hnew : (domain.NewChat chatID topicID).TTL = domain.DefaultTTL := rfl
    rw [hnew]
    exact ⟨by decide, by decide, by decide⟩

theorem SetImageModel_saved (env : Env) (supported : List GoString) (update : models.Update)
    (cq : models.CallbackQuery) (cm : models.Message) (m : GoString) (chat : domain.Chat)
    (hcq : update.CallbackQuery = some cq) (hcm : cq.Message = some cm)
    (hparse : parseImageModel supported cq.Data = .ok m)
    (hload : chatAfterGet env cm.ChatID cm.MessageThreadID = some chat) :
    (SetImageModel env supported update).trace.filter Event.isChatSave =
      [.chatSave { chat with ImageModel := m }] := by
  unfold SetImageModel
  simp only [hcq, hcm, hparse, (loadOrNew_eq_ok _ _ _ _ _).mpr hload]
  split <;> rfl

theorem SetTextModel_saved (env : Env) (supported : List GoString) (update : models.Update)
    (cq : models.CallbackQuery) (cm : models.Message) (m : GoString) (chat : domain.Chat)
    (hcq : update.CallbackQuery = some cq) (hcm : cq.Message = some cm)
    (hparse : parseTextModel supported cq.Data = .ok m)
    (hload : chatAfterGet env cm.ChatID cm.MessageThreadID = some chat) :
    (SetTextModel env supported update).trace.filter Event.isChatSave =
      [.chatSave { chat with TextModel := m }] := by
  unfold SetTextModel
  simp only [hcq, hcm, hparse, (loadOrNew_eq_ok _ _ _ _ _).mpr hload]
  split
  · rfl
  · split <;> rfl

theorem SetTTL_saved (env : Env) (supported : List Int) (update : models.Update)
    (cq : models.CallbackQuery) (cm : models.Message) (ttl : Int) (chat : domain.Chat)
    (hcq : update.CallbackQuery = some cq) (hcm : cq.Message = some cm)
    (hparse : parseTTL env supported cq.Data = .ok ttl)
    (hload : chatAfterGet env cm.ChatID cm.MessageThreadID = some chat) :
    (SetTTL env supported update).trace.filter Event.isChatSave =
      [.chatSave { chat with TTL := ttl }] := by
  unfold SetTTL
  simp only [hcq, hcm, hparse, (loadOrNew_eq_ok _ _ _ _ _).mpr hload]
  split
  · rfl
  · split <;> rfl

theorem SetSystemPrompt_saved (env : Env) (update : models.Update) (m : models.Message)
    (chat : domain.Chat) (hm : update.Message = some m)
    (hload : chatAfterGet env m.ChatID m.MessageThreadID = some chat) :
    (SetSystemPrompt env update).trace.filter Event.isChatSave =
      [.chatSave { chat with SystemPrompt := m.Text }] := by
  unfold SetSystemPrompt
  simp only [hm, (loadOrNew_eq_ok _ _ _ _ _).mpr hload]
  split <;> rfl

/-- C16: in each setting handler, on an accepted input and with the chat `chat` returned by `Get`
(or `NewChat(chatID, topicID)` when `Get` returns `ErrNotFound`), `Save` is called once, with
`chat` in which only the handler's own field is replaced by the new value: `ImageModel` in
`SetImageModel`, `TextModel` in `SetTextModel`, `TTL` in `SetTTL`, `SystemPrompt` in
`SetSystemPrompt`; the ids, the other settings, the messages and the time of the last update are
those of `chat`. -/
theorem setters_frame (env : Env) (update : models.Update) (chat : domain.Chat) :
    (∀ (supported : List GoString) cq cm m, update.CallbackQuery = some cq →
        cq.Message = some cm → parseImageModel supported cq.Data = .ok m →
        chatAfterGet env cm.ChatID cm.MessageThreadID = some chat →
        (SetImageModel env supported update).trace.filter Event.isChatSave =
          [.chatSave
            { ID := chat.ID, TopicID := chat.TopicID, TextModel := chat.TextModel,
              ImageModel := m, TTL := chat.TTL, SystemPrompt := chat.SystemPrompt,
              Messages := chat.Messages, LastUpdate := chat.LastUpdate }]) ∧
      (∀ (supported : List GoString) cq cm m, update.CallbackQuery = some cq →
        cq.Message = some cm → parseTextModel supported cq.Data = .ok m →
        chatAfterGet env cm.ChatID cm.MessageThreadID = some chat →
        (SetTextModel env supported update).trace.filter Event.isChatSave =
          [.chatSave
            { ID := chat.ID, TopicID := chat.TopicID, TextModel := m,
              ImageModel := chat.ImageModel, TTL := chat.TTL,
              SystemPrompt := chat.SystemPrompt, Messages := chat.Messages,
              LastUpdate := chat.LastUpdate }]) ∧
      (∀ (supported : List Int) cq cm ttl, update.CallbackQuery = some cq →
        cq.Message = some cm → parseTTL env supported cq.Data = .ok ttl →
        chatAfterGet env cm.ChatID cm.MessageThreadID = some chat →
        (SetTTL env supported update).trace.filter Event.isChatSave =
          [.chatSave
            { ID := chat.ID, TopicID := chat.TopicID, TextModel := chat.TextModel,
              ImageModel := chat.ImageModel, TTL := ttl, SystemPrompt := chat.SystemPrompt,
              Messages := chat.Messages, LastUpdate := chat.LastUpdate }]) ∧
      (∀ m, update.Message = some m →
        chatAfterGet env m.ChatID m.MessageThreadID = some chat →
        (SetSystemPrompt env update).trace.filter Event.isChatSave =
          [.chatSave
            { ID := chat.ID, TopicID := chat.TopicID, TextModel := chat.TextModel,
              ImageModel := chat.ImageModel, TTL := chat.TTL, SystemPrompt := m.Text,
              Messages := chat.Messages, LastUpdate := chat.LastUpdate }]) ∧
      ((∀ chatID topicID : Int, env.ChatGet chatID topicID = (some chat, none) →
          chatAfterGet env chatID topicID = some chat) ∧
        (∀ (chatID topicID : Int) stale err, env.ChatGet chatID topicID = (stale, some err) →
          err.notFound = true →
          chatAfterGet env chatID topicID = some (domain.NewChat chatID topicID))) := by
  refine ⟨fun supported cq cm m hcq hcm hparse hload => ?_,
    fun supported cq cm m hcq hcm hparse hload => ?_,
    fun supported cq cm ttl hcq hcm hparse hload => ?_, fun m hm hload => ?_, ?_, ?_⟩
  · exact SetImageModel_saved env supported update cq cm m chat hcq hcm hparse hload
  · exact SetTextModel_saved env supported update cq cm m chat hcq hcm hparse hload
  · exact SetTTL_saved env supported update cq cm ttl chat hcq hcm hparse hload
  · exact SetSystemPrompt_saved env update m chat hm hload
  · intro chatID topicID hget
    simp only [chatAfterGet, hget]
  · intro chatID topicID stale err hget hnf
    simp only [chatAfterGet, hget, hnf, if_true]

/-- C17: for a supported text model `m` and any stored chat (its `TextModel` may already be
`m`), when `Save` and `DeleteMessages` succeed the handler answers the callback, calls `Get`,
calls `Save` with `TextModel = m`, sends `"✅ Модель установлена: "` followed by `m`, calls
`DeleteMessages` once, sends `"🧹 История очищена! Начните новый чат. 🚀"`, and returns: two
replies, in this order. As this holds for every stored chat, a second application with the same
`m` clears the history again. -/
theorem SetTextModel_success (env : Env) (supported : List GoString) (update : models.Update)
    (cq : models.CallbackQuery) (cm : models.Message) (m : GoString) (chat : domain.Chat)
    (hcq : update.CallbackQuery = some cq) (hcm : cq.Message = some cm)
    (hdata : cq.Data = utf8 "set_text_model:" ++ m) (hm : m ∈ supported)
    (hget : env.ChatGet cm.ChatID cm.MessageThreadID = (some chat, none))
    (hsave : env.ChatSave { chat with TextModel := m } = none)
    (hdel : env.DeleteMessages { chat with TextModel := m } = none) :
    SetTextModel env supported update =
        ⟨[.answerCallbackQuery cq.ID, .chatGet cm.ChatID cm.MessageThreadID,
            .chatSave { chat with TextModel := m },
            plainMessage cm.ChatID cm.MessageThreadID (utf8 "✅ Модель установлена: " ++ m),
            .deleteMessages { chat with TextModel := m },
            plainMessage cm.ChatID cm.MessageThreadID
              (utf8 "🧹 История очищена! Начните новый чат. 🚀")],
          .returned⟩ ∧
      (SetTextModel env supported update).trace.filter Event.isDeleteMessages =
        [.deleteMessages { chat with TextModel := m }] ∧
      (SetTextModel env supported update).trace.filter Event.isSendMessage =
        [plainMessage cm.ChatID cm.MessageThreadID (utf8 "✅ Модель установлена: " ++ m),
          plainMessage cm.ChatID cm.MessageThreadID
            (utf8 "🧹 История очищена! Начните новый чат. 🚀")] := by
  have hparse : parseTextModel supported cq.Data = .ok m :=
    (parseTextModel_eq_ok supported cq.Data m).mpr ⟨hdata, hm⟩
  have hload : loadOrNew env cm.ChatID cm.MessageThreadID (getFailedViaMessage update) =
      .ok chat := by
    rw [loadOrNew_eq_ok]
    simp only [chatAfterGet, hget]
  have hrun : SetTextModel env supported update =
      ⟨[.answerCallbackQuery cq.ID, .chatGet cm.ChatID cm.MessageThreadID,
          .chatSave { chat with TextModel := m },
          plainMessage cm.ChatID cm.MessageThreadID (utf8 "✅ Модель установлена: " ++ m),
          .deleteMessages { chat with TextModel := m },
          plainMessage cm.ChatID cm.MessageThreadID
            (utf8 "🧹 История очищена! Начните новый чат. 🚀")],
        .returned⟩ := by
    unfold SetTextModel
    simp only [hcq, hcm, hparse, hload, hsave, hdel]
    rfl
  refine ⟨hrun, ?_, ?_⟩ <;> rw [hrun] <;> rfl

/-- The stored chat already has the text model `"o3-mini"`; setting it again saves the chat and
clears the history again. -/
theorem SetTextModel_success_witness :
    SetTextModel storedEnv supportedTextModels (callbackUpdate (utf8 "set_text_model:o3-mini")) =
        ⟨[.answerCallbackQuery (utf8 "cb-1"), .chatGet 7 0,
            .chatSave { storedChat with TextModel := utf8 "o3-mini" },
            plainMessage 7 0 (utf8 "✅ Модель установлена: " ++ utf8 "o3-mini"),
            .deleteMessages { storedChat with TextModel := utf8 "o3-mini" },
            plainMessage 7 0 (utf8 "🧹 История очищена! Начните новый чат. 🚀")],
          .returned⟩ ∧
      storedChat.TextModel = utf8 "o3-mini" :=
  ⟨(SetTextModel_success storedEnv supportedTextModels
      (callbackUpdate (utf8 "set_text_model:o3-mini")) _ _ (utf8 "o3-mini") storedChat rfl rfl
      (by decide) (by decide) rfl rfl rfl).1,
    by decide⟩

/-- C18 (defect of the code): with a stored chat, the callback `"set_text_model:o3-mini"` and a
failing `DeleteMessages`, the handler sends the message `"❌ Не удалось очистить историю: "`
with the error and then, without returning, still sends the confirmation
`"🧹 История очищена! Начните новый чат. 🚀"`. -/
theorem SetTextModel_deleteFails :
    SetTextModel deleteFailsEnv supportedTextModels
        (callbackUpdate (utf8 "set_text_model:o3-mini")) =
      ⟨[.answerCallbackQuery (utf8 "cb-1"), .chatGet 7 0,
          .chatSave { storedChat with TextModel := utf8 "o3-mini" },
          plainMessage 7 0 (utf8 "✅ Модель установлена: " ++ utf8 "o3-mini"),
          .deleteMessages { storedChat with TextModel := utf8 "o3-mini" },
          plainMessage 7 0
            (utf8 "❌ Не удалось очистить историю: " ++ utf8 "connection reset"),
          plainMessage 7 0 (utf8 "🧹 История очищена! Начните новый чат. 🚀")],
        .returned⟩ := by
  decide

/-! ## Failure branches of `GenerateContent` -/

theorem replicate_a_ascii (n : Nat) : ∀ b ∈ List.replicate n 97, b < 0x80 := by
  intro b hb
  rw [List.mem_replicate] at hb
  omega

theorem RuneCountInString_replicate_a (n : Nat) :
    RuneCountInString (List.replicate n 97) = n := by
  rw [RuneCountInString_ascii _ (replicate_a_ascii n), List.length_replicate]

theorem findCutIndex_replicate_a (n : Nat) (hn : 4096 ≤ n) :
    findCutIndex (List.replicate n 97) maxTelegramMessageLength = some 4096 := by
  have hpre : LastIndex ((List.replicate n 97).take maxTelegramMessageLength) (utf8 "<pre>")
      = -1 := by
    apply LastIndex_of_not_mem _ _ 60 (by rw [utf8_pre]; exact List.mem_cons_self _ _)
    intro hmem
    have := List.mem_of_mem_take hmem
    rw [List.mem_replicate] at this
    omega
  have hnl : LastIndex ((List.replicate n 97).take maxTelegramMessageLength) (utf8 "\n")
      = -1 := by
    apply LastIndex_of_not_mem _ _ 10 (by rw [utf8_newline]; exact List.mem_singleton_self 10)
    intro hmem
    have := List.mem_of_mem_take hmem
    rw [List.mem_replicate] at this
    omega
  unfold findCutIndex
  rw [sliceTo_natCast _ _ (by simp only [maxTelegramMessageLength, List.length_replicate]; omega)]
  simp only [hpre, hnl]
  rfl

/-- The loop on a text of `4096 + k` letters `a`, with `0 < k ≤ 4096`, when the send of the first
chunk fails: the first chunk, the notice of the failure, the pause, and then the second chunk. -/
theorem chunkLoop_sendFails (env : Env) (chatID topicID : Int) (fuel k : Nat) (err : Error)
    (hk : 0 < k) (hk' : k ≤ 4096) (hsend : env.SendChunk 0 = some err) :
    chunkLoop env chatID topicID (fuel + 2) 0 (List.replicate (4096 + k) 97) =
      ⟨[htmlMessage chatID topicID (List.replicate 4096 97),
          plainMessage chatID topicID (utf8 "❌ Не удалось сгенерировать ответ: " ++ err.msg),
          .sleep, htmlMessage chatID topicID (List.replicate k 97)],
        .returned⟩ := by
  have hlong : maxTelegramMessageLength < RuneCountInString (List.replicate (4096 + k) 97) := by
    rw [RuneCountInString_replicate_a]
    simp only [maxTelegramMessageLength]
    omega
  obtain ⟨cut, _, hcut, hstep⟩ :=
    chunkLoop_step env chatID topicID (fuel + 1) 0 (List.replicate (4096 + k) 97) hlong
  rw [findCutIndex_replicate_a (4096 + k) (by omega)] at hcut
  have h4096 : cut = 4096 := by
    have := Option.some.inj hcut
    omega
  subst h4096
  have htake : List.take 4096 (List.replicate (4096 + k) 97) = List.replicate 4096 97 := by
    rw [List.take_replicate, Nat.min_eq_left (by omega)]
  have hdrop : List.drop 4096 (List.replicate (4096 + k) 97) = List.replicate k 97 := by
    rw [List.drop_replicate, Nat.add_sub_cancel_left]
  have hne : List.replicate k 97 ≠ [] := by
    intro h
    have := congrArg List.length h
    simp only [List.length_replicate, List.length_nil] at this
    omega
  rw [hstep, htake, hdrop, chunkLoop_short env chatID topicID fuel 1 _
    (by rw [RuneCountInString_replicate_a]; simp only [maxTelegramMessageLength]; omega),
    if_neg hne]
  simp only [afterChunk, hsend, Run.after, List.cons_append, List.nil_append]

/-- A text message without photo or voice whose text has neither marker goes straight to the
completion. -/
theorem GenerateContent_textOnly (env : Env) (fuel : Nat) (m : models.Message)
    (cq : Option models.CallbackQuery)
    (h1 : Contains (env.ToLower (CoalesceOrEmpty m.Text m.Caption)) (utf8 "рисуй") = false)
    (h2 : Contains (env.ToLower (CoalesceOrEmpty m.Text m.Caption)) (utf8 "draw") = false)
    (hphoto : m.Photo = []) (hvoice : m.Voice = none) :
    GenerateContent env fuel ⟨some m, cq⟩ =
      textIntent env fuel m.ChatID m.MessageThreadID
        { ID := 0, Text := CoalesceOrEmpty m.Text m.Caption, ImageBytes := [],
          AudioBytes := [] } := by
  simp only [GenerateContent, h1, h2, Bool.or_self, Bool.false_eq_true, if_false, textBranch,
    ingestPhoto, ingestVoice, hphoto, hvoice, List.getLast?_nil, Run.after, List.nil_append]

/-- C19 (defect of the code): in the sample turn whose reply text is 5000 letters `a` and in
which the send of the first chunk fails, the handler sends the first chunk, then the message
`"❌ Не удалось сгенерировать ответ: "` with the error, and then, without returning, the second
chunk. -/
theorem GenerateContent_sendFails (fuel : Nat) :
    (GenerateContent sendFailsEnv (fuel + 2) (textUpdate (utf8 "Hello"))).trace.filter
        Event.isSendMessage =
      [htmlMessage 7 0 (List.replicate 4096 97),
        plainMessage 7 0 (utf8 "❌ Не удалось сгенерировать ответ: " ++ utf8 "Bad Request"),
        htmlMessage 7 0 (List.replicate 904 97)] ∧
      (GenerateContent sendFailsEnv (fuel + 2) (textUpdate (utf8 "Hello"))).status =
        .returned := by
  have hgc : GenerateContent sendFailsEnv (fuel + 2) (textUpdate (utf8 "Hello")) =
      textIntent sendFailsEnv (fuel + 2) 7 0 (samplePrompt (utf8 "Hello") []) :=
    GenerateContent_textOnly sendFailsEnv (fuel + 2)
      { ChatID := 7, MessageThreadID := 0, Text := utf8 "Hello", Caption := [], Photo := [],
        Voice := none } none (by decide) (by decide) rfl rfl
  have hreply := textIntent_reply sendFailsEnv (fuel + 2) 7 0 (samplePrompt (utf8 "Hello") [])
    (domain.NewChat 7 0)
    { Role := utf8 "assistant"
      ContentParts :=
        [{ PartType := domain.ContentPartTypeText, Data := List.replicate 5000 97 }] }
    { PartType := domain.ContentPartTypeText, Data := List.replicate 5000 97 } [] rfl rfl rfl
    rfl rfl
  have hloop := chunkLoop_sendFails sendFailsEnv 7 0 fuel 904
    { msg := utf8 "Bad Request", notFound := false } (by omega) (by omega) rfl
  have htext : sendFailsEnv.ToHTML (List.replicate 5000 97) = List.replicate (4096 + 904) 97 :=
    rfl
  rw [hgc, hreply]
  simp only [htext, hloop]
  exact ⟨rfl, rfl⟩

/-- C20 (defect of the code): for a photo message with the caption `"Hello"` whose download is
answered with the status 404, the handler sends no error message: it calls
`CreateChatCompletion` with a user message that holds the text alone, and replies as if no photo
had been sent. A transport error and a failed read of the body do end the turn with a message
beginning with `"❌"`, before any call of `CreateChatCompletion`. -/
theorem GenerateContent_badStatus :
    GenerateContent badStatusEnv 1 (photoUpdate (utf8 "Hello")) =
        ⟨[.getFile (utf8 "large"), .httpGet (utf8 "https://files/large"), .chatGet 7 0,
            .createChatCompletion
              { domain.NewChat 7 0 with
                Messages :=
                  [{ Role := utf8 "user"
                     ContentParts := [{ PartType := utf8 "text", Data := utf8 "Hello" }] }] },
            .chatSave
              { domain.NewChat 7 0 with
                Messages :=
                  [{ Role := utf8 "user"
                     ContentParts := [{ PartType := utf8 "text", Data := utf8 "Hello" }] },
                   { Role := utf8 "assistant"
                     ContentParts := [{ PartType := utf8 "text", Data := utf8 "Hi!" }] }] },
            htmlMessage 7 0 (utf8 "Hi!")],
          .returned⟩ ∧
      GenerateContent transportErrorEnv 1 (photoUpdate (utf8 "Hello")) =
        ⟨[.getFile (utf8 "large"), .httpGet (utf8 "https://files/large"),
            plainMessage 7 0
              (utf8 "❌ Не удалось получить фото файл: " ++ utf8 "dial tcp: timeout")],
          .returned⟩ ∧
      GenerateContent readErrorEnv 1 (photoUpdate (utf8 "Hello")) =
        ⟨[.getFile (utf8 "large"), .httpGet (utf8 "https://files/large"),
            plainMessage 7 0 (utf8 "❌ Не удалось получить фото файл: " ++ utf8 "unexpected EOF")],
          .returned⟩ := by
  decide

/-! ## `SetSystemPrompt` -/

/-- C21: for a message with the text `t` in the conversation `(chatID, topicID)`, with the chat
`chat` returned by `Get` (or `NewChat(chatID, topicID)` on `ErrNotFound`) and a successful
`Save`, the handler calls `Get`, calls `Save` with `chat` whose `SystemPrompt` is `t`, then
calls `Clear(chatID, topicID)`, once and for that key, then sends
`"✅ Системная инструкция установлена: "` followed by `t`, and returns. -/
theorem SetSystemPrompt_success (env : Env) (update : models.Update) (m : models.Message)
    (chat : domain.Chat) (hm : update.Message = some m)
    (hload : chatAfterGet env m.ChatID m.MessageThreadID = some chat)
    (hsave : env.ChatSave { chat with SystemPrompt := m.Text } = none) :
    SetSystemPrompt env update =
        ⟨[.chatGet m.ChatID m.MessageThreadID,
            .chatSave { chat with SystemPrompt := m.Text },
            .stateClear m.ChatID m.MessageThreadID,
            plainMessage m.ChatID m.MessageThreadID
              (utf8 "✅ Системная инструкция установлена: " ++ m.Text)],
          .returned⟩ ∧
      savedChats env (SetSystemPrompt env update).trace =
        [{ chat with SystemPrompt := m.Text }] ∧
      (SetSystemPrompt env update).trace.filter Event.isStateClear =
        [.stateClear m.ChatID m.MessageThreadID] := by
  have hrun : SetSystemPrompt env update =
      ⟨[.chatGet m.ChatID m.MessageThreadID,
          .chatSave { chat with SystemPrompt := m.Text },
          .stateClear m.ChatID m.MessageThreadID,
          plainMessage m.ChatID m.MessageThreadID
            (utf8 "✅ Системная инструкция установлена: " ++ m.Text)],
        .returned⟩ := by
    unfold SetSystemPrompt
    simp only [hm, (loadOrNew_eq_ok _ _ _ _ _).mpr hload, hsave]
    rfl
  refine ⟨hrun, ?_, ?_⟩
  · rw [hrun]
    simp only [savedChats, List.filterMap_cons, hsave, Option.isNone_none, if_true, plainMessage,
      List.filterMap_nil]
  · rw [hrun]
    rfl

/-- The text `"Be brief"` in chat `7`, whose stored chat has an empty system prompt: the chat is
saved with the system prompt `"Be brief"` and its other fields unchanged, and the flag of
`(7, 0)` is cleared. -/
theorem SetSystemPrompt_success_witness :
    SetSystemPrompt storedEnv (textUpdate (utf8 "Be brief")) =
        ⟨[.chatGet 7 0, .chatSave { storedChat with SystemPrompt := utf8 "Be brief" },
            .stateClear 7 0,
            plainMessage 7 0 (utf8 "✅ Системная инструкция установлена: " ++ utf8 "Be brief")],
          .returned⟩ ∧
      savedChats storedEnv (SetSystemPrompt storedEnv (textUpdate (utf8 "Be brief"))).trace =
        [{ storedChat with SystemPrompt := utf8 "Be brief" }] :=
  ⟨(SetSystemPrompt_success storedEnv (textUpdate (utf8 "Be brief")) _ storedChat rfl rfl rfl).1,
    (SetSystemPrompt_success storedEnv (textUpdate (utf8 "Be brief")) _ storedChat rfl rfl
      rfl).2.1⟩

/-! ## The branch of a failed `Get` in the callback handlers -/

/-- C23: on a callback update whose top-level `Message` is nil, when `Get` fails with an error
other than `ErrNotFound`, the handlers `SetTextModel`, `SetTTL` and `RegenerateImage` (on
callback data that each of them accepts) panic in the branch of the failed `Get`, at
`update.Message.Chat.ID`: the run ends after the call of `Get` (and, in `RegenerateImage`, the
deferred answer of the callback), and no message is sent. -/
theorem callback_getFailed_panics (env : Env) (update : models.Update)
    (cq : models.CallbackQuery) (cm : models.Message) (stale : Option domain.Chat) (err : Error)
    (hmsg : update.Message = none) (hcq : update.CallbackQuery = some cq)
    (hcm : cq.Message = some cm)
    (hget : env.ChatGet cm.ChatID cm.MessageThreadID = (stale, some err))
    (hnf : err.notFound = false) :
    (∀ supported model, parseTextModel supported cq.Data = .ok model →
        SetTextModel env supported update =
            ⟨[.answerCallbackQuery cq.ID, .chatGet cm.ChatID cm.MessageThreadID], .panicked⟩ ∧
          (SetTextModel env supported update).trace.filter Event.isSendMessage = []) ∧
      (∀ supported ttl, parseTTL env supported cq.Data = .ok ttl →
        SetTTL env supported update =
            ⟨[.answerCallbackQuery cq.ID, .chatGet cm.ChatID cm.MessageThreadID], .panicked⟩ ∧
          (SetTTL env supported update).trace.filter Event.isSendMessage = []) ∧
      (∀ promptID prompt, parsePromptID cq.Data = .ok promptID →
        env.PromptGetByID promptID = (prompt, none) →
        RegenerateImage env update =
            ⟨[.promptGetByID promptID, .chatGet cm.ChatID cm.MessageThreadID,
                .answerCallbackQuery cq.ID],
              .panicked⟩ ∧
          (RegenerateImage env update).trace.filter Event.isSendMessage = []) := by
  have hload : loadOrNew env cm.ChatID cm.MessageThreadID (getFailedViaMessage update) =
      .error ⟨[], .panicked⟩ := by
    simp only [loadOrNew, hget, hnf, getFailedViaMessage, hmsg, Bool.false_eq_true, if_false]
  refine ⟨fun supported model hparse => ?_, fun supported ttl hparse => ?_,
    fun promptID prompt hparse hprompt => ?_⟩
  · have hrun : SetTextModel env supported update =
        ⟨[.answerCallbackQuery cq.ID, .chatGet cm.ChatID cm.MessageThreadID], .panicked⟩ := by
      unfold SetTextModel
      simp only [hcq, hcm, hparse, hload]
      rfl
    exact ⟨hrun, by rw [hrun]; rfl⟩
  · have hrun : SetTTL env supported update =
        ⟨[.answerCallbackQuery cq.ID, .chatGet cm.ChatID cm.MessageThreadID], .panicked⟩ := by
      unfold SetTTL
      simp only [hcq, hcm, hparse, hload]
      rfl
    exact ⟨hrun, by rw [hrun]; rfl⟩
  · have hrun : RegenerateImage env update =
        ⟨[.promptGetByID promptID, .chatGet cm.ChatID cm.MessageThreadID,
            .answerCallbackQuery cq.ID],
          .panicked⟩ := by
      unfold RegenerateImage
      simp only [hcq, hcm, hparse, hprompt, hget, Option.filter, hnf, Bool.not_false, if_true,
        hmsg]
      rfl
    exact ⟨hrun, by rw [hrun]; rfl⟩

/-- The three handlers on callbacks from chat `7` with a repository whose `Get` fails with a
timeout: each run panics after `Get`, with no message sent. -/
theorem callback_getFailed_panics_witness :
    SetTextModel brokenGetEnv supportedTextModels
        (callbackUpdate (utf8 "set_text_model:o3-mini")) =
        ⟨[.answerCallbackQuery (utf8 "cb-1"), .chatGet 7 0], .panicked⟩ ∧
      SetTTL brokenGetEnv supportedTTLOptions (callbackUpdate (utf8 "set_ttl:1h")) =
        ⟨[.answerCallbackQuery (utf8 "cb-1"), .chatGet 7 0], .panicked⟩ ∧
      RegenerateImage brokenGetEnv (callbackUpdate (utf8 "gen_image:42")) =
        ⟨[.promptGetByID 42, .chatGet 7 0, .answerCallbackQuery (utf8 "cb-1")], .panicked⟩ :=
  ⟨((callback_getFailed_panics brokenGetEnv (callbackUpdate (utf8 "set_text_model:o3-mini")) _ _
      none _ rfl rfl rfl rfl rfl).1 supportedTextModels (utf8 "o3-mini") rfl).1,
    ((callback_getFailed_panics brokenGetEnv (callbackUpdate (utf8 "set_ttl:1h")) _ _
      none _ rfl rfl rfl rfl rfl).2.1 supportedTTLOptions 3600000000000 rfl).1,
    ((callback_getFailed_panics brokenGetEnv (callbackUpdate (utf8 "gen_image:42")) _ _
      none _ rfl rfl rfl rfl rfl).2.2 42 _ rfl rfl).1⟩

/-! ## The callback prefixes -/

/-- The handlers matching callback data that is a registered prefix followed by `suffix`. -/
theorem matchingCallbackHandlers_append (suffix : GoString) :
    matchingCallbackHandlers (utf8 "set_image_model:" ++ suffix) = [.SetImageModel] ∧
      matchingCallbackHandlers (utf8 "set_ttl:" ++ suffix) = [.SetTTL] ∧
      matchingCallbackHandlers (utf8 "set_text_model:" ++ suffix) = [.SetTextModel] ∧
      matchingCallbackHandlers (utf8 "sys_prompt:" ++ suffix) = [.RequestSystemPrompt] ∧
      matchingCallbackHandlers (utf8 "gen_image:" ++ suffix) = [.RegenerateImage] := by
  refine ⟨?_, ?_, ?_, ?_, ?_⟩ <;>
    simp [matchingCallbackHandlers, callbackQueryDataHandlers, HasPrefix, List.isPrefixOf,
      domain.SetImageModelCallbackPrefix, domain.SetTTLCallbackPrefix,
      domain.SetTextModelCallbackPrefix, domain.SetSystemPromptCallbackPrefix,
      domain.GenImageCallbackPrefix, utf8, utf8EncodeRune, List.filter]

/-- C22: callback data that is one of the five registered prefixes followed by any suffix is
matched by the pattern of exactly one registered handler, the handler registered under that
prefix; so for every callback data that starts with one of the five prefixes, exactly one of the
five is a prefix of it and exactly one prefix-matched handler is selected. -/
theorem matchingCallbackHandlers_unique (d : GoString) :
    (∀ suffix, d = utf8 "set_image_model:" ++ suffix →
        matchingCallbackHandlers d = [.SetImageModel]) ∧
      (∀ suffix, d = utf8 "set_text_model:" ++ suffix →
        matchingCallbackHandlers d = [.SetTextModel]) ∧
      (∀ suffix, d = utf8 "set_ttl:" ++ suffix → matchingCallbackHandlers d = [.SetTTL]) ∧
      (∀ suffix, d = utf8 "sys_prompt:" ++ suffix →
        matchingCallbackHandlers d = [.RequestSystemPrompt]) ∧
      (∀ suffix, d = utf8 "gen_image:" ++ suffix →
        matchingCallbackHandlers d = [.RegenerateImage]) ∧
      ((∃ h ∈ callbackQueryDataHandlers, HasPrefix d h.1 = true) →
        (callbackQueryDataHandlers.filter (fun h => HasPrefix d h.1)).length = 1 ∧
          ∃ handler, matchingCallbackHandlers d = [handler]) := by
  refine ⟨fun suffix hd => ?_, fun suffix hd => ?_, fun suffix hd => ?_, fun suffix hd => ?_,
    fun suffix hd => ?_, ?_⟩
  · rw [hd]; exact (matchingCallbackHandlers_append suffix).1
  · rw [hd]; exact (matchingCallbackHandlers_append suffix).2.2.1
  · rw [hd]; exact (matchingCallbackHandlers_append suffix).2.1
  · rw [hd]; exact (matchingCallbackHandlers_append suffix).2.2.2.1
  · rw [hd]; exact (matchingCallbackHandlers_append suffix).2.2.2.2
  · rintro ⟨h, hmem, hpre⟩
    obtain ⟨suffix, hd⟩ := (HasPrefix_iff d h.1).mp hpre
    have hone : ∃ handler, matchingCallbackHandlers d = [handler] := by
      simp only [callbackQueryDataHandlers, List.mem_cons, List.mem_singleton,
        List.not_mem_nil, or_false] at hmem
      rcases hmem with hm | hm | hm | hm | hm <;> rw [hm] at hd <;> rw [hd]
      · exact ⟨_, (matchingCallbackHandlers_append suffix).1⟩
      · exact ⟨_, (matchingCallbackHandlers_append suffix).2.1⟩
      · exact ⟨_, (matchingCallbackHandlers_append suffix).2.2.1⟩
      · exact ⟨_, (matchingCallbackHandlers_append suffix).2.2.2.1⟩
      · exact ⟨_, (matchingCallbackHandlers_append suffix).2.2.2.2⟩
    refine ⟨?_, hone⟩
    obtain ⟨handler, hh⟩ := hone
    have hlen := congrArg List.length hh
    simpa [matchingCallbackHandlers] using hlen

/-! ## What a failed text-intent turn has stored -/

/-- C24 (as stated, refuted): in the sample turn whose completion has an image part first, the
handler sends no reply text and ends with the message `"❌ Неожиданный тип ответа: "` and the
part, after a call of `Save` that has succeeded: the chat is stored with the user message and
the message of the completion. -/
theorem GenerateContent_wrongType_saved :
    GenerateContent wrongTypeEnv 1 (textUpdate (utf8 "Hello")) =
        ⟨[.chatGet 7 0,
            .createChatCompletion
              { domain.NewChat 7 0 with
                Messages :=
                  [{ Role := utf8 "user"
                     ContentParts := [{ PartType := utf8 "text", Data := utf8 "Hello" }] }] },
            .chatSave
              { domain.NewChat 7 0 with
                Messages :=
                  [{ Role := utf8 "user"
                     ContentParts := [{ PartType := utf8 "text", Data := utf8 "Hello" }] },
                   { Role := utf8 "assistant"
                     ContentParts := [{ PartType := utf8 "image", Data := utf8 "img" }] }] },
            plainMessage 7 0
              (utf8 "❌ Неожиданный тип ответа: " ++ utf8 "\x7bType:image Data:img\x7d")],
          .returned⟩ ∧
      htmlTexts (GenerateContent wrongTypeEnv 1 (textUpdate (utf8 "Hello"))).trace = [] ∧
      savedChats wrongTypeEnv (GenerateContent wrongTypeEnv 1 (textUpdate (utf8 "Hello"))).trace =
        [{ domain.NewChat 7 0 with
            Messages :=
              [{ Role := utf8 "user"
                 ContentParts := [{ PartType := utf8 "text", Data := utf8 "Hello" }] },
               { Role := utf8 "assistant"
                 ContentParts := [{ PartType := utf8 "image", Data := utf8 "img" }] }] }] := by
  decide

/-- C24 (amended): a text-intent turn that ends with a message beginning with `"❌"` because
the chat load failed, the completion failed or was empty, or `Save` failed, has stored no chat:
`Save` is not called in the first three cases and is called once, and fails, in the last. A turn
that ends with `"❌ Неожиданный тип ответа: "` has stored the chat before: `Save` was called
once and succeeded, with the user message and the message of the completion appended. -/
theorem textIntent_failure_saves (env : Env) (fuel : Nat) (chatID topicID : Int)
    (prompt : domain.Prompt) :
    (∀ stale err, env.ChatGet chatID topicID = (stale, some err) → err.notFound = false →
        textIntent env fuel chatID topicID prompt =
            ⟨[.chatGet chatID topicID,
                plainMessage chatID topicID (utf8 "❌ Не удалось получить чат: " ++ err.msg)],
              .returned⟩ ∧
          savedChats env (textIntent env fuel chatID topicID prompt).trace = []) ∧
      (∀ chat, loadChat env chatID topicID = .ok chat →
        (∀ resp err,
          env.CreateChatCompletion (appendUserMessage (expire env.Now chat) prompt) =
            (resp, some err) →
          textIntent env fuel chatID topicID prompt =
              ⟨[.chatGet chatID topicID,
                  .createChatCompletion (appendUserMessage (expire env.Now chat) prompt),
                  plainMessage chatID topicID
                    (utf8 "❌ Не удалось сгенерировать ответ: " ++ err.msg)],
                .returned⟩ ∧
            savedChats env (textIntent env fuel chatID topicID prompt).trace = []) ∧
        (∀ resp,
          env.CreateChatCompletion (appendUserMessage (expire env.Now chat) prompt) =
            (resp, none) →
          (∀ a, resp = some a → a.ContentParts = []) →
          textIntent env fuel chatID topicID prompt =
              ⟨[.chatGet chatID topicID,
                  .createChatCompletion (appendUserMessage (expire env.Now chat) prompt),
                  plainMessage chatID topicID (utf8 "❌ Ответ пустой или отсутствует.")],
                .returned⟩ ∧
            savedChats env (textIntent env fuel chatID topicID prompt).trace = []) ∧
        (∀ a part parts,
          env.CreateChatCompletion (appendUserMessage (expire env.Now chat) prompt) =
            (some a, none) →
          a.ContentParts = part :: parts →
          (∀ err,
            env.ChatSave
                { appendUserMessage (expire env.Now chat) prompt with
                  Messages :=
                    (appendUserMessage (expire env.Now chat) prompt).Messages ++ [a] } =
              some err →
            textIntent env fuel chatID topicID prompt =
                ⟨[.chatGet chatID topicID,
                    .createChatCompletion (appendUserMessage (expire env.Now chat) prompt),
                    .chatSave
                      { appendUserMessage (expire env.Now chat) prompt with
                        Messages :=
                          (appendUserMessage (expire env.Now chat) prompt).Messages ++ [a] },
                    plainMessage chatID topicID
                      (utf8 "❌ Не удалось сохранить чат: " ++ err.msg)],
                  .returned⟩ ∧
              savedChats env (textIntent env fuel chatID topicID prompt).trace = []) ∧
          (env.ChatSave
                { appendUserMessage (expire env.Now chat) prompt with
                  Messages :=
                    (appendUserMessage (expire env.Now chat) prompt).Messages ++ [a] } =
              none →
            part.PartType ≠ domain.ContentPartTypeText →
            textIntent env fuel chatID topicID prompt =
                ⟨[.chatGet chatID topicID,
                    .createChatCompletion (appendUserMessage (expire env.Now chat) prompt),
                    .chatSave
                      { appendUserMessage (expire env.Now chat) prompt with
                        Messages :=
                          (appendUserMessage (expire env.Now chat) prompt).Messages ++ [a] },
                    plainMessage chatID topicID
                      (utf8 "❌ Неожиданный тип ответа: " ++ formatPart part)],
                  .returned⟩ ∧
              savedChats env (textIntent env fuel chatID topicID prompt).trace =
                [{ appendUserMessage (expire env.Now chat) prompt with
                    Messages :=
                      (appendUserMessage (expire env.Now chat) prompt).Messages ++ [a] }]))) := by
  refine ⟨fun stale err hget hnf => ?_, fun chat hload => ⟨fun resp err hresp => ?_,
    fun resp hresp hempty => ?_, fun a part parts hresp hparts => ⟨fun err hsave => ?_,
      fun hsave htype => ?_⟩⟩⟩
  · have hrun : textIntent env fuel chatID topicID prompt =
        ⟨[.chatGet chatID topicID,
            plainMessage chatID topicID (utf8 "❌ Не удалось получить чат: " ++ err.msg)],
          .returned⟩ := by
      unfold textIntent loadChat
      simp only [hget, hnf, Bool.false_eq_true, if_false]
      rfl
    exact ⟨hrun, by rw [hrun]; rfl⟩
  · have hrun : textIntent env fuel chatID topicID prompt =
        ⟨[.chatGet chatID topicID,
            .createChatCompletion (appendUserMessage (expire env.Now chat) prompt),
            plainMessage chatID topicID
              (utf8 "❌ Не удалось сгенерировать ответ: " ++ err.msg)],
          .returned⟩ := by
      unfold textIntent
      simp only [hload, hresp]
      rfl
    exact ⟨hrun, by rw [hrun]; rfl⟩
  · have hrun : textIntent env fuel chatID topicID prompt =
        ⟨[.chatGet chatID topicID,
            .createChatCompletion (appendUserMessage (expire env.Now chat) prompt),
            plainMessage chatID topicID (utf8 "❌ Ответ пустой или отсутствует.")],
          .returned⟩ := by
      unfold textIntent
      simp only [hload, hresp]
      cases resp with
      | none => rfl
      | some a =>
        simp only [hempty a rfl]
        rfl
    exact ⟨hrun, by rw [hrun]; rfl⟩
  · have hrun : textIntent env fuel chatID topicID prompt =
        ⟨[.chatGet chatID topicID,
            .createChatCompletion (appendUserMessage (expire env.Now chat) prompt),
            .chatSave
              { appendUserMessage (expire env.Now chat) prompt with
                Messages := (appendUserMessage (expire env.Now chat) prompt).Messages ++ [a] },
            plainMessage chatID topicID (utf8 "❌ Не удалось сохранить чат: " ++ err.msg)],
          .returned⟩ := by
      unfold textIntent
      simp only [hload, hresp, hparts, hsave]
      rfl
    refine ⟨hrun, ?_⟩
    rw [hrun]
    simp only [savedChats, List.filterMap_cons, hsave, Option.isNone_some, Bool.false_eq_true,
      if_false, plainMessage, List.filterMap_nil]
  · have hrun : textIntent env fuel chatID topicID prompt =
        ⟨[.chatGet chatID topicID,
            .createChatCompletion (appendUserMessage (expire env.Now chat) prompt),
            .chatSave
              { appendUserMessage (expire env.Now chat) prompt with
                Messages := (appendUserMessage (expire env.Now chat) prompt).Messages ++ [a] },
            plainMessage chatID topicID
              (utf8 "❌ Неожиданный тип ответа: " ++ formatPart part)],
          .returned⟩ := by
      unfold textIntent
      simp only [hload, hresp, hparts, hsave, htype, ne_eq, not_false_eq_true, if_true]
      rfl
    refine ⟨hrun, ?_⟩
    rw [hrun]
    simp only [savedChats, List.filterMap_cons, hsave, Option.isNone_none, if_true, plainMessage,
      List.filterMap_nil]

/-- The failed turns of the samples: a failed `Get`, a failed completion and a failed `Save`
store no chat. -/
theorem GenerateContent_failure_samples :
    savedChats brokenGetEnv (GenerateContent brokenGetEnv 1 (textUpdate (utf8 "Hello"))).trace =
        [] ∧
      GenerateContent completionFailsEnv 1 (textUpdate (utf8 "Hello")) =
        ⟨[.chatGet 7 0,
            .createChatCompletion
              { domain.NewChat 7 0 with
                Messages :=
                  [{ Role := utf8 "user"
                     ContentParts := [{ PartType := utf8 "text", Data := utf8 "Hello" }] }] },
            plainMessage 7 0 (utf8 "❌ Не удалось сгенерировать ответ: " ++ utf8 "rate limit")],
          .returned⟩ ∧
      savedChats saveFailsEnv (GenerateContent saveFailsEnv 1 (textUpdate (utf8 "Hello"))).trace =
        [] ∧
      (GenerateContent saveFailsEnv 1 (textUpdate (utf8 "Hello"))).trace.getLast? =
        some (plainMessage 7 0 (utf8 "❌ Не удалось сохранить чат: " ++ utf8 "disk full")) := by
  decide

/-! ## A chat that has not expired -/

theorem expire_fresh (now : Int) (chat : domain.Chat) (h : now ≤ chat.LastUpdate + chat.TTL) :
    expire now chat = chat := by
  unfold expire
  rw [if_neg (by omega)]

/-- C25: when `Get` returns a stored chat that has not expired, `now ≤ lastUpdate + ttl` with
equality included, the chat passed to `CreateChatCompletion` (called once in the turn) is the
stored chat whose message list is the stored list followed by the new user message. -/
theorem textIntent_fresh (env : Env) (fuel : Nat) (chatID topicID : Int)
    (prompt : domain.Prompt) (chat : domain.Chat)
    (hget : env.ChatGet chatID topicID = (some chat, none))
    (hfresh : env.Now ≤ chat.LastUpdate + chat.TTL) :
    ∃ sent rest,
      (textIntent env fuel chatID topicID prompt).trace =
          .chatGet chatID topicID :: .createChatCompletion sent :: rest ∧
        rest.filter Event.isCreateChatCompletion = [] ∧
        sent.Messages =
          chat.Messages ++ [{ Role := utf8 "user", ContentParts := userContent prompt }] ∧
        sent =
          { chat with
            Messages :=
              chat.Messages ++ [{ Role := utf8 "user", ContentParts := userContent prompt }] } := by
  obtain ⟨rest, htrace, hone, _⟩ :=
    textIntent_sent env fuel chatID topicID prompt chat (loadChat_found env chatID topicID chat hget)
  refine ⟨_, rest, htrace, hone, ?_, ?_⟩ <;>
    rw [expire_fresh env.Now chat hfresh] <;> rfl

/-- The stored chat of the sample at `now = lastUpdate + ttl`: its two messages are sent, in
their order, followed by the new user message. -/
theorem textIntent_fresh_witness :
    freshEnv.Now = storedChat.LastUpdate + storedChat.TTL ∧
      ∃ sent rest,
        (textIntent freshEnv 1 7 0 (samplePrompt (utf8 "Привет") [])).trace =
            .chatGet 7 0 :: .createChatCompletion sent :: rest ∧
          rest.filter Event.isCreateChatCompletion = [] ∧
          sent.Messages =
            storedChat.Messages ++
              [{ Role := utf8 "user"
                 ContentParts := userContent (samplePrompt (utf8 "Привет") []) }] ∧
          sent =
            { storedChat with
              Messages :=
                storedChat.Messages ++
                  [{ Role := utf8 "user"
                     ContentParts := userContent (samplePrompt (utf8 "Привет") []) }] } :=
  ⟨by decide,
    textIntent_fresh freshEnv 1 7 0 (samplePrompt (utf8 "Привет") []) storedChat rfl
      (by decide)⟩

end AiBot
